import Mathlib

/-!
# WeatherApp: pressure panel and colour ramp

A shallow embedding of the numeric core of `src/components/Pressure.jsx`
(`generatePressureData`, `findExtrema`, `interpolatePressure`, the marching-squares cell
of `drawIsobars`) and of `interpolateColor` from `src/components/Maps.jsx`.

Numbers are elements of a linearly ordered field `α` (exact arithmetic: `ℚ` for
executable checks, `ℝ` where the exponential is needed); the rounding of JavaScript
Numbers is modelled where a property depends on it (`toDouble`,
`interpolatePressureDouble`).  A JavaScript value that may be
`undefined` or `NaN` is an `Option α` (`none` stands for both: every arithmetic operation
on it gives `NaN`, every comparison gives `false`).  A property read on `undefined`
raises a `TypeError`, modelled by `Except JsError`.
-/

namespace WeatherApp

/-- The only run-time error of the modelled code: reading a property of `undefined`. -/
inductive JsError where
  | typeError
  deriving DecidableEq, Repr

section Reads

variable {α : Type}

/-- `arr[i]` for an integer index: `none` is JavaScript `undefined`. -/
def elemAt {β : Type} (arr : List β) (i : ℤ) : Option β :=
  if i < 0 then none else arr[i.toNat]?

/-- `data[y][x]`: raises a `TypeError` when `data[y]` is `undefined`, yields `undefined`
when only the column is outside the row. -/
def readCell (data : List (List α)) (y x : ℤ) : Except JsError (Option α) :=
  match elemAt data y with
  | none => .error .typeError
  | some row => .ok (elemAt row x)

/-- `data[0].length`: raises a `TypeError` on the empty array. -/
def rowLength (data : List (List α)) : Except JsError ℤ :=
  match elemAt data 0 with
  | none => .error .typeError
  | some row => .ok (row.length : ℤ)

/-- A rectangular field: every row has `w` cells. -/
def Rect (data : List (List α)) (w : ℕ) : Prop :=
  ∀ row ∈ data, row.length = w

end Reads

section Sampler

variable {α : Type} [LinearOrderedField α] [FloorRing α]

/-- `interpolatePressure(data, x, y)` (Pressure.jsx 81-99).  The four corner reads may be
`undefined`; the weighted sum is then `NaN` (`none`). -/
def interpolatePressure (data : List (List α)) (x y : α) : Except JsError (Option α) := do
  let x0 : ℤ := ⌊x⌋
  let w ← rowLength data
  let x1 : ℤ := min (x0 + 1) (w - 1)
  let y0 : ℤ := ⌊y⌋
  let y1 : ℤ := min (y0 + 1) ((data.length : ℤ) - 1)
  let fx : α := x - (x0 : α)
  let fy : α := y - (y0 : α)
  let p00 ← readCell data y0 x0
  let p10 ← readCell data y0 x1
  let p01 ← readCell data y1 x0
  let p11 ← readCell data y1 x1
  pure (do
    let a ← p00
    let b ← p10
    let c ← p01
    let d ← p11
    pure (a * (1 - fx) * (1 - fy) + b * fx * (1 - fy) + c * (1 - fx) * fy + d * fx * fy))

end Sampler

section Extrema

variable {α : Type} [LinearOrderedField α]

/-- `a > b` on JavaScript numbers: `false` as soon as one side is `undefined`/`NaN`. -/
def jsGt (a b : Option α) : Bool :=
  match a, b with
  | some u, some v => decide (v < u)
  | _, _ => false

/-- `a < b` on JavaScript numbers: `false` as soon as one side is `undefined`/`NaN`. -/
def jsLt (a b : Option α) : Bool :=
  match a, b with
  | some u, some v => decide (u < v)
  | _, _ => false

/-- The indices visited by `for (let i = start; i < stop; i += step)`; `fuel` bounds the
number of iterations (see `mem_forRange` for the fuel that is enough). -/
def forRange : ℕ → ℤ → ℤ → ℤ → List ℤ
  | 0, _, _, _ => []
  | fuel + 1, i, stop, step =>
    if i < stop then i :: forRange fuel (i + step) stop step else []

/-- The values of `dy` and of `dx` in `for (let d = -5; d <= 5; d++)`. -/
def offsets : List ℤ := [-5, -4, -3, -2, -1, 0, 1, 2, 3, 4, 5]

/-- The pairs `(dy, dx)` the two neighbour loops visit, in loop order, the centre skipped
by `if (dx === 0 && dy === 0) continue`. -/
def neighbourOffsets : List (ℤ × ℤ) :=
  offsets.flatMap fun dy => offsets.filterMap fun dx =>
    if dx = 0 ∧ dy = 0 then none else some (dy, dx)

/-- An entry `{ x, y, value }` of `highs` or `lows`. -/
structure ExtremumPoint (α : Type) where
  x : ℤ
  y : ℤ
  value : α
  deriving DecidableEq, Repr

/-- The result `{ highs, lows }` of `findExtrema`. -/
structure Extrema (α : Type) where
  highs : List (ExtremumPoint α)
  lows : List (ExtremumPoint α)
  deriving DecidableEq, Repr

/-- The body of the two neighbour loops (Pressure.jsx 60-67) run over the offsets `ds`,
from the flags `st = (isHigh, isLow)`. -/
def scanNeighbours (data : List (List α)) (center : Option α) (y x : ℤ) :
    List (ℤ × ℤ) → Bool × Bool → Except JsError (Bool × Bool)
  | [], st => .ok st
  | d :: ds, st =>
    match readCell data (y + d.1) (x + d.2) with
    | .error e => .error e
    | .ok neighbor =>
      scanNeighbours data center y x ds
        (if jsGt neighbor center then false else st.1,
         if jsLt neighbor center then false else st.2)

/-- One candidate centre `(x, y)` (Pressure.jsx 55-73): read the centre, scan the
neighbourhood, push to `highs` or else to `lows`. -/
def classify (data : List (List α)) (y x : ℤ) (acc : Extrema α) :
    Except JsError (Extrema α) :=
  match readCell data y x with
  | .error e => .error e
  | .ok center =>
    match scanNeighbours data center y x neighbourOffsets (true, true) with
    | .error e => .error e
    | .ok (isHigh, isLow) =>
      match center with
      | none => .ok acc
      | some c =>
        if isHigh && decide (1020 < c) then
          .ok { acc with highs := acc.highs ++ [⟨x, y, c⟩] }
        else if isLow && decide (c < 1005) then
          .ok { acc with lows := acc.lows ++ [⟨x, y, c⟩] }
        else .ok acc

/-- The inner loop `for (let x = 10; x < data[0].length - 10; x += 15)` over the
candidates `xs` of row `y`. -/
def scanRow (data : List (List α)) (y : ℤ) :
    List ℤ → Extrema α → Except JsError (Extrema α)
  | [], acc => .ok acc
  | x :: xs, acc =>
    match classify data y x acc with
    | .error e => .error e
    | .ok acc1 => scanRow data y xs acc1

/-- The outer loop `for (let y = 10; y < data.length - 10; y += 15)`; `data[0].length`
is evaluated when the inner loop starts. -/
def scanRows (data : List (List α)) :
    List ℤ → Extrema α → Except JsError (Extrema α)
  | [], acc => .ok acc
  | y :: ys, acc =>
    match rowLength data with
    | .error e => .error e
    | .ok w =>
      match scanRow data y (forRange w.toNat 10 (w - 10) 15) acc with
      | .error e => .error e
      | .ok acc1 => scanRows data ys acc1

/-- `findExtrema(data)` (Pressure.jsx 48-78). -/
def findExtrema (data : List (List α)) : Except JsError (Extrema α) :=
  scanRows data (forRange data.length 10 ((data.length : ℤ) - 10) 15) ⟨[], []⟩

/-- The index pairs `(row, column)` that `findExtrema` reads on a field of `h` rows of
`w` cells, in the order of the reads: for each candidate the centre, then its
neighbours. -/
def findExtremaReads (h w : ℕ) : List (ℤ × ℤ) :=
  (forRange h 10 ((h : ℤ) - 10) 15).flatMap fun y =>
    (forRange w 10 ((w : ℤ) - 10) 15).flatMap fun x =>
      (y, x) :: neighbourOffsets.map fun d => (y + d.1, x + d.2)

/-! ### Closed form of the scan, used in the proofs -/

/-- The value `data[y][x]` as a JavaScript number, `none` when the read gives `undefined`
or raises. -/
def valAt (data : List (List α)) (y x : ℤ) : Option α :=
  match readCell data y x with
  | .ok v => v
  | .error _ => none

/-- The flag `isHigh` after the neighbour loops: no neighbour compares greater than `c`. -/
def noneAbove (data : List (List α)) (y x : ℤ) (c : α) : Bool :=
  neighbourOffsets.all fun d => !jsGt (valAt data (y + d.1) (x + d.2)) (some c)

/-- The flag `isLow` after the neighbour loops: no neighbour compares less than `c`. -/
def noneBelow (data : List (List α)) (y x : ℤ) (c : α) : Bool :=
  neighbourOffsets.all fun d => !jsLt (valAt data (y + d.1) (x + d.2)) (some c)

/-- What candidate `(x, y)` appends to `highs`. -/
def hiOf (data : List (List α)) (y x : ℤ) : List (ExtremumPoint α) :=
  match valAt data y x with
  | none => []
  | some c => if noneAbove data y x c && decide (1020 < c) then [⟨x, y, c⟩] else []

/-- What candidate `(x, y)` appends to `lows`. -/
def loOf (data : List (List α)) (y x : ℤ) : List (ExtremumPoint α) :=
  match valAt data y x with
  | none => []
  | some c =>
    if noneAbove data y x c && decide (1020 < c) then []
    else if noneBelow data y x c && decide (c < 1005) then [⟨x, y, c⟩] else []

/-- The value of `data[0].length` where the scan uses it (`0` on the empty field, where
it is never evaluated). -/
def widthOf (data : List (List α)) : ℤ :=
  match data with
  | [] => 0
  | row :: _ => (row.length : ℤ)

/-- Row-major order on reported points: by `y`, then by `x`. -/
def rowMajorLt (p q : ExtremumPoint α) : Prop :=
  p.y < q.y ∨ (p.y = q.y ∧ p.x < q.x)

/-- The candidate rows `y = 10, 25, ...` below `data.length - 10`. -/
def candidateRows (data : List (List α)) : List ℤ :=
  forRange data.length 10 ((data.length : ℤ) - 10) 15

/-- The candidate columns `x = 10, 25, ...` below `data[0].length - 10`. -/
def candidateCols (data : List (List α)) : List ℤ :=
  forRange (widthOf data).toNat 10 (widthOf data - 10) 15

end Extrema

section Generator

variable {α : Type} [LinearOrderedField α]

/-- The pressure that `generatePressureData` stores in cell `(x, y)` (Pressure.jsx 23-40);
`exp` is `Math.exp` and `r` the value `Math.random()` returns for that cell. -/
def pressureAt (exp : α → α) (r : α) (x y : ℕ) : α :=
  let width : α := 360
  let height : α := 180
  let lat : α := 90 - ((y : α) / height) * 180
  let _lon : α := ((x : α) / width) * 360 - 180
  let pressure0 : α := 1013 - |lat| * 0.15
  let pressure1 : α := pressure0 + 25 * exp (-(((x : α) - 90) ^ 2 + ((y : α) - 45) ^ 2) / 400)
  let pressure2 : α := pressure1 + 20 * exp (-(((x : α) - 270) ^ 2 + ((y : α) - 60) ^ 2) / 500)
  let pressure3 : α := pressure2 - 30 * exp (-(((x : α) - 180) ^ 2 + ((y : α) - 90) ^ 2) / 450)
  let pressure4 : α := pressure3 - 25 * exp (-(((x : α) - 45) ^ 2 + ((y : α) - 120) ^ 2) / 350)
  pressure4 + (r - 0.5) * 3

/-- `generatePressureData()` (Pressure.jsx 15-45): 180 rows of 360 cells; `random n` is
the `n`-th value returned by `Math.random()`, the cells being filled row by row. -/
def generatePressureData (exp : α → α) (random : ℕ → α) : List (List α) :=
  (List.range 180).map fun y => (List.range 360).map fun x =>
    pressureAt exp (random (y * 360 + x)) x y

end Generator

section Contour

variable {α : Type} [LinearOrderedField α]

/-- A stroked path `moveTo(x0, y0); lineTo(x1, y1)` in canvas coordinates. -/
structure Segment (α : Type) where
  x0 : α
  y0 : α
  x1 : α
  y1 : α
  deriving DecidableEq, Repr

/-- The array `points` of one cell (Pressure.jsx 167-188): the crossings of the top,
right, bottom and left edge, in this order. -/
def cellPoints (level p00 p10 p01 p11 : α) (x y : ℤ) (dataW dataH : ℕ)
    (width height : α) : List (α × α) :=
  (if decide (level < p00) != decide (level < p10) then
    [(((x : α) + (level - p00) / (p10 - p00)) / (dataW : α) * width,
      (y : α) / (dataH : α) * height)]
   else []) ++
  (if decide (level < p10) != decide (level < p11) then
    [(((x : α) + 1) / (dataW : α) * width,
      ((y : α) + (level - p10) / (p11 - p10)) / (dataH : α) * height)]
   else []) ++
  (if decide (level < p11) != decide (level < p01) then
    [(((x : α) + (level - p01) / (p11 - p01)) / (dataW : α) * width,
      ((y : α) + 1) / (dataH : α) * height)]
   else []) ++
  (if decide (level < p01) != decide (level < p00) then
    [((x : α) / (dataW : α) * width,
      ((y : α) + (level - p00) / (p01 - p00)) / (dataH : α) * height)]
   else [])

/-- The body of the cell loop of `drawIsobars` (Pressure.jsx 157-196) for the cell
`(x, y)` with corner values `p00 = data[y][x]`, `p10 = data[y][x+1]`,
`p01 = data[y+1][x]`, `p11 = data[y+1][x+1]` on a field of `dataH` rows of `dataW`
cells: the segments it strokes. -/
def contourCell (level p00 p10 p01 p11 : α) (x y : ℤ) (dataW dataH : ℕ)
    (width height : α) : List (Segment α) :=
  let above : List Bool :=
    [decide (level < p00), decide (level < p10), decide (level < p11), decide (level < p01)]
  let count : ℕ := (above.filter id).length
  if 0 < count ∧ count < 4 then
    match cellPoints level p00 p10 p01 p11 x y dataW dataH width height with
    | a :: b :: _ => [⟨a.1, a.2, b.1, b.2⟩]
    | _ => []
  else []

end Contour

section ColorRamp

variable {α : Type} [LinearOrderedField α]

/-- An entry `{ stop, color: [r, g, b] }` of a colour gradient. -/
structure ColorStop (α : Type) where
  stop : α
  color : α × α × α
  deriving DecidableEq, Repr

/-- The loop of `interpolateColor` (Maps.jsx 71-83) over the consecutive pairs
`current = colorStops[i]`, `next = colorStops[i + 1]`: the colour returned from inside the
loop, `none` when the loop ends without returning. -/
def interpolateColorLoop (value : α) : List (ColorStop α) → Option (α × α × α)
  | current :: next :: rest =>
    if current.stop ≤ value ∧ value ≤ next.stop then
      let t : α := (value - current.stop) / (next.stop - current.stop)
      some (current.color.1 + (next.color.1 - current.color.1) * t,
        current.color.2.1 + (next.color.2.1 - current.color.2.1) * t,
        current.color.2.2 + (next.color.2.2 - current.color.2.2) * t)
    else interpolateColorLoop value (next :: rest)
  | _ => none

/-- `interpolateColor(value, colorStops)` (Maps.jsx 70-85); the final
`colorStops[colorStops.length - 1].color` raises a `TypeError` on the empty array. -/
def interpolateColor (value : α) (colorStops : List (ColorStop α)) :
    Except JsError (α × α × α) :=
  match interpolateColorLoop value colorStops with
  | some c => .ok c
  | none =>
    match colorStops.getLast? with
    | none => .error .typeError
    | some last => .ok last.color

/-- A valid ramp: at least two stops, strictly increasing, the first at 0 and the last
at 1. -/
def ValidRamp (colorStops : List (ColorStop α)) : Prop :=
  2 ≤ colorStops.length ∧
    colorStops.Pairwise (fun a b => a.stop < b.stop) ∧
    colorStops.head?.map (fun s => s.stop) = some 0 ∧
    colorStops.getLast?.map (fun s => s.stop) = some 1

/-- The gradient `tempColors` of Maps.jsx 18-27. -/
def tempColors : List (ColorStop ℚ) :=
  [⟨0.0, (0.1, 0.0, 0.4)⟩, ⟨0.15, (0.0, 0.3, 0.8)⟩, ⟨0.3, (0.0, 0.7, 0.9)⟩,
   ⟨0.45, (0.2, 0.9, 0.5)⟩, ⟨0.6, (0.9, 0.9, 0.2)⟩, ⟨0.75, (0.95, 0.5, 0.0)⟩,
   ⟨0.9, (0.9, 0.0, 0.0)⟩, ⟨1.0, (0.5, 0.0, 0.2)⟩]

/-- The gradient `humidityColors` of Maps.jsx 30-37. -/
def humidityColors : List (ColorStop ℚ) :=
  [⟨0.0, (0.8, 0.6, 0.4)⟩, ⟨0.2, (0.9, 0.8, 0.5)⟩, ⟨0.4, (0.7, 0.9, 0.6)⟩,
   ⟨0.6, (0.3, 0.8, 0.7)⟩, ⟨0.8, (0.2, 0.5, 0.9)⟩, ⟨1.0, (0.1, 0.2, 0.6)⟩]

end ColorRamp

section Isobars

variable {α : Type} [LinearOrderedField α]

/-- The indices visited by `for (let i = start; i <= last; i += step)`; `fuel` bounds the
number of iterations. -/
def forRangeLe : ℕ → ℤ → ℤ → ℤ → List ℤ
  | 0, _, _, _ => []
  | fuel + 1, i, last, step =>
    if i ≤ last then i :: forRangeLe fuel (i + step) last step else []

/-- The array `isobarLevels` built by `for (let p = 980; p <= 1040; p += 4)`
(Pressure.jsx 140-143). -/
def isobarLevels : List ℤ := forRangeLe 61 980 1040 4

/-- The body of the cell loop of `drawIsobars` for the cell `(x, y)` of `data`
(Pressure.jsx 157-196): the four corner reads, then `contourCell`.  The inner `none`
stands for a corner that is `undefined` (possible only outside a rectangular grid), where
the canvas calls would receive `NaN`. -/
def isobarCell (data : List (List α)) (level width height : α) (y x : ℤ) :
    Except JsError (Option (List (Segment α))) := do
  let p00 ← readCell data y x
  let p10 ← readCell data y (x + 1)
  let p01 ← readCell data (y + 1) x
  let p11 ← readCell data (y + 1) (x + 1)
  let w ← rowLength data
  pure (do
    let a ← p00
    let b ← p10
    let c ← p01
    let d ← p11
    pure (contourCell level a b c d x y w.toNat data.length width height))

/-- The loop `for (let x = 0; x < data[0].length - 1; x++)` of `drawIsobars` over the
cells `xs` of row `y`, appending to the segments stroked so far. -/
def traceRow (data : List (List α)) (level width height : α) (y : ℤ) :
    List ℤ → List (Segment α) → Except JsError (Option (List (Segment α)))
  | [], acc => .ok (some acc)
  | x :: xs, acc =>
    match isobarCell data level width height y x with
    | .error e => .error e
    | .ok none => .ok none
    | .ok (some segs) => traceRow data level width height y xs (acc ++ segs)

/-- The loop `for (let y = 0; y < data.length - 1; y++)` of `drawIsobars`. -/
def traceRows (data : List (List α)) (level width height : α) :
    List ℤ → List (Segment α) → Except JsError (Option (List (Segment α)))
  | [], acc => .ok (some acc)
  | y :: ys, acc =>
    match rowLength data with
    | .error e => .error e
    | .ok w =>
      match traceRow data level width height y (forRange w.toNat 0 (w - 1) 1) acc with
      | .error e => .error e
      | .ok none => .ok none
      | .ok (some acc1) => traceRows data level width height ys acc1

/-- The segments `drawIsobars` strokes for one level (Pressure.jsx 155-198), in the order
of the cell loops. -/
def traceLevel (data : List (List α)) (level width height : α) :
    Except JsError (Option (List (Segment α))) :=
  traceRows data level width height
    (forRange data.length 0 ((data.length : ℤ) - 1) 1) []

/-- The inner label loop `for (let y = 20; y < data.length; y += 60)` for column `x`
(Pressure.jsx 206-210): the positions passed to `fillText`. -/
def labelCol (data : List (List α)) (level : α) (width height : α) (w x : ℤ) :
    List ℤ → List (α × α) → Except JsError (List (α × α))
  | [], acc => .ok acc
  | y :: ys, acc =>
    match readCell data y x with
    | .error e => .error e
    | .ok v =>
      labelCol data level width height w x ys
        (match v with
          | some p =>
            if |p - level| < 2 then
              acc ++ [((x : α) / (w : α) * width, (y : α) / (data.length : α) * height)]
            else acc
          | none => acc)

/-- The outer label loop `for (let x = 50; x < data[0].length; x += 80)`. -/
def labelCols (data : List (List α)) (level : α) (width height : α) (w : ℤ) :
    List ℤ → List (α × α) → Except JsError (List (α × α))
  | [], acc => .ok acc
  | x :: xs, acc =>
    match labelCol data level width height w x
        (forRange data.length 20 (data.length : ℤ) 60) acc with
    | .error e => .error e
    | .ok acc1 => labelCols data level width height w xs acc1

/-- The labels of a major isobar (Pressure.jsx 201-212); `data[0].length` is read by the
first loop test. -/
def isobarLabels (data : List (List α)) (level : α) (width height : α) :
    Except JsError (List (α × α)) :=
  match rowLength data with
  | .error e => .error e
  | .ok w => labelCols data level width height w (forRange w.toNat 50 w 80) []

/-- What one iteration of `isobarLevels.forEach` draws: the level, the stroke style set at
its start, the segments and the label positions. -/
structure IsobarPass (α : Type) where
  level : ℤ
  lineWidth : ℕ
  globalAlpha : α
  segments : List (Segment α)
  labels : List (α × α)

/-- One iteration of `isobarLevels.forEach` (Pressure.jsx 149-213). -/
def drawLevel (data : List (List α)) (width height : α) (level : ℤ) :
    Except JsError (Option (IsobarPass α)) :=
  let isHighlighted : Bool := decide (level % 8 = 0)
  let lineWidth : ℕ := if isHighlighted then 2 else 1
  let globalAlpha : α := if isHighlighted then 0.8 else 0.4
  match traceLevel data (level : α) width height with
  | .error e => .error e
  | .ok none => .ok none
  | .ok (some segs) =>
    if isHighlighted then
      match isobarLabels data (level : α) width height with
      | .error e => .error e
      | .ok labels => .ok (some ⟨level, lineWidth, globalAlpha, segs, labels⟩)
    else .ok (some ⟨level, lineWidth, globalAlpha, segs, []⟩)

/-- The iterations of `forEach` over the levels `levels`. -/
def drawLevels (data : List (List α)) (width height : α) :
    List ℤ → Except JsError (Option (List (IsobarPass α)))
  | [] => .ok (some [])
  | level :: rest =>
    match drawLevel data width height level with
    | .error e => .error e
    | .ok none => .ok none
    | .ok (some pass) =>
      match drawLevels data width height rest with
      | .error e => .error e
      | .ok none => .ok none
      | .ok (some passes) => .ok (some (pass :: passes))

/-- `drawIsobars(ctx, data, width, height)` (Pressure.jsx 139-216) as the list of its
passes. -/
def drawIsobars (data : List (List α)) (width height : α) :
    Except JsError (Option (List (IsobarPass α))) :=
  drawLevels data width height isobarLevels

/-! ### Closed form of the cell loops, used in the proofs -/

/-- The cell rows `y = 0, 1, ...` below `data.length - 1`. -/
def cellRows (data : List (List α)) : List ℤ :=
  forRange data.length 0 ((data.length : ℤ) - 1) 1

/-- The cell columns `x = 0, 1, ...` below `data[0].length - 1`. -/
def cellCols (data : List (List α)) : List ℤ :=
  forRange (widthOf data).toNat 0 (widthOf data - 1) 1

/-- The segments of the cell `(x, y)` when its four corners hold numbers. -/
def cellSegs (data : List (List α)) (level width height : α) (y x : ℤ) :
    List (Segment α) :=
  match valAt data y x, valAt data y (x + 1), valAt data (y + 1) x,
      valAt data (y + 1) (x + 1) with
  | some a, some b, some c, some d =>
    contourCell level a b c d x y (widthOf data).toNat data.length width height
  | _, _, _, _ => []

end Isobars

section Hover

variable {α : Type} [LinearOrderedField α] [FloorRing α]

/-- The pressure `handleMouseMove` passes to `setHoveredPressure` (Pressure.jsx 327-342)
for a pointer at `(x, y)` relative to the canvas, the canvas being `canvasWidth` by
`canvasHeight`. -/
def handleMouseMove (data : List (List α)) (canvasWidth canvasHeight : α) (x y : α) :
    Except JsError (Option α) := do
  let w ← rowLength data
  let dataX : α := (x / canvasWidth) * (w : α)
  let dataY : α := (y / canvasHeight) * (data.length : α)
  interpolatePressure data dataX dataY

/-- The pressure `drawPressureGradient` samples for the raster pixel `(x, y)`
(Pressure.jsx 106-110). -/
def gradientSample (data : List (List α)) (width height : ℕ) (x y : ℕ) :
    Except JsError (Option α) := do
  let w ← rowLength data
  let dataX : α := ((x : α) / (width : α)) * (w : α)
  let dataY : α := ((y : α) / (height : α)) * (data.length : α)
  interpolatePressure data dataX dataY

end Hover

section Latitude

variable {α : Type} [LinearOrderedField α]

/-- The latitude `lat = 90 - (y / height) * 180` of row `y` (Pressure.jsx 23). -/
def latitudeOf (y : ℕ) : α := 90 - ((y : α) / 180) * 180

/-- The longitude `lon = (x / width) * 360 - 180` of column `x` (Pressure.jsx 24). -/
def longitudeOf (x : ℕ) : α := ((x : α) / 360) * 360 - 180

/-- The 360 x 180 field of the base term alone, `1013 - Math.abs(lat) * 0.15`
(Pressure.jsx 23 and 27): no pressure systems, no noise. -/
def latitudeField : List (List ℚ) :=
  (List.range 180).map fun y => (List.range 360).map fun _ =>
    1013 - |latitudeOf y| * 0.15

end Latitude

section Gradient

variable {α : Type} [LinearOrderedField α] [FloorRing α]

/-- The four numbers `drawPressureGradient` assigns to `pixels[idx .. idx + 3]` for the
sampled value `pressure` (Pressure.jsx 113-131), before the array stores them. -/
def gradientChannels (pressure : α) : ℤ × ℤ × ℤ × ℤ :=
  let normalized : α := (pressure - 980) / (1040 - 980)
  let clamped : α := max 0 (min 1 normalized)
  if clamped < 0.5 then
    let t : α := clamped * 2
    (⌊180 + t * 75⌋, ⌊200 + t * 55⌋, ⌊(255 : α)⌋, 180)
  else
    let t : α := (clamped - 0.5) * 2
    (255, ⌊255 - t * 100⌋, ⌊255 - t * 255⌋, 180)

/-- The branch of `gradientChannels` on the clamped value, used in the proofs. -/
def channelsOfClamped (clamped : α) : ℤ × ℤ × ℤ × ℤ :=
  if clamped < 0.5 then
    (⌊180 + clamped * 2 * 75⌋, ⌊200 + clamped * 2 * 55⌋, ⌊(255 : α)⌋, 180)
  else
    (255, ⌊255 - (clamped - 0.5) * 2 * 100⌋, ⌊255 - (clamped - 0.5) * 2 * 255⌋, 180)

/-- A store of an integer into the `Uint8ClampedArray` of an `ImageData`: clamped to
`0 .. 255`. -/
def toUint8Clamped (v : ℤ) : ℤ := max 0 (min 255 v)

/-- The pixel `(R, G, B, A)` that ends up in the image data. -/
def gradientPixel (pressure : α) : ℤ × ℤ × ℤ × ℤ :=
  let c := gradientChannels pressure
  (toUint8Clamped c.1, toUint8Clamped c.2.1, toUint8Clamped c.2.2.1,
    toUint8Clamped c.2.2.2)

end Gradient

section DewPoint

variable {α : Type} [LinearOrderedField α] [FloorRing α]

/-- The state `comfort = { level, desc, color }` of DewPoint.jsx. -/
structure Comfort where
  level : String
  desc : String
  color : String
  deriving DecidableEq, Repr

/-- The comfort classification of `generateDewPointData` (DewPoint.jsx 20-41 and 49). -/
def comfortOf (dp : α) : Comfort :=
  if dp < 10 then ⟨"Dry", "Very comfortable, low moisture", "#4ade80"⟩
  else if dp < 15 then ⟨"Comfortable", "Pleasant conditions", "#22d3ee"⟩
  else if dp < 18 then ⟨"Moderate", "Slightly humid", "#fbbf24"⟩
  else if dp < 21 then ⟨"Humid", "Noticeably humid", "#fb923c"⟩
  else ⟨"Oppressive", "Very uncomfortable, heavy moisture", "#ef4444"⟩

/-- The number denoted by the string `v.toFixed(1)`, which `parseFloat` reads back: `v`
rounded to one decimal, ties away from zero. -/
def toFixed1 (v : α) : α :=
  if v < 0 then -((⌊10 * (-v) + 1 / 2⌋ : ℤ) : α) / 10
  else ((⌊10 * v + 1 / 2⌋ : ℤ) : α) / 10

/-- The number denoted by the string `v.toFixed(0)`. -/
def toFixed0 (v : α) : α :=
  if v < 0 then -((⌊(-v) + 1 / 2⌋ : ℤ) : α)
  else ((⌊v + 1 / 2⌋ : ℤ) : α)

/-- The state `dewPoint = { value, temperature, humidity }`, each field as the number its
string denotes. -/
structure DewPointReading (α : Type) where
  value : α
  temperature : α
  humidity : α

/-- `generateDewPointData()` (DewPoint.jsx 15-50) for the selected location `(lat, lon)`;
`sin` is `Math.sin`.  It returns the two states it sets. -/
def generateDewPointData (sin : α → α) (lat lon : α) : DewPointReading α × Comfort :=
  let temp : α := 20 + sin (lat * 0.1) * 15
  let dp : α := temp - |sin (lon * 0.05)| * 20
  let humidity : α := ((temp - dp) / temp) * 100
  (⟨toFixed1 dp, toFixed1 temp, toFixed0 humidity⟩, comfortOf dp)

/-- The object returned by `getAnimationParams`. -/
structure AnimationParams (α : Type) where
  particleCount : ℕ
  speed : ℕ
  gradientColors : List String
  particleColor : String
  particleSize : α

/-- The tier of `getAnimationParams` commented `Dry` (DewPoint.jsx 71-84). -/
def dryParams : AnimationParams α :=
  ⟨35, 30, ["rgba(74, 222, 128, 0.3)", "rgba(34, 211, 238, 0.25)",
    "rgba(59, 130, 246, 0.2)", "rgba(34, 211, 238, 0.2)", "rgba(74, 222, 128, 0.3)"],
    "rgba(147, 197, 253, 0.35)", 2.5⟩

/-- The tier commented `Comfortable` (DewPoint.jsx 86-99). -/
def comfortableParams : AnimationParams α :=
  ⟨50, 40, ["rgba(34, 211, 238, 0.3)", "rgba(59, 130, 246, 0.25)",
    "rgba(34, 211, 238, 0.2)", "rgba(59, 130, 246, 0.25)", "rgba(34, 211, 238, 0.3)"],
    "rgba(147, 197, 253, 0.35)", 3⟩

/-- The tier commented `Moderate` (DewPoint.jsx 101-114). -/
def moderateParams : AnimationParams α :=
  ⟨65, 50, ["rgba(251, 191, 36, 0.35)", "rgba(34, 211, 238, 0.25)",
    "rgba(251, 191, 36, 0.2)", "rgba(249, 115, 22, 0.2)", "rgba(251, 191, 36, 0.35)"],
    "rgba(251, 191, 36, 0.4)", 3.5⟩

/-- The tier commented `Humid` (DewPoint.jsx 116-129). -/
def humidParams : AnimationParams α :=
  ⟨80, 60, ["rgba(249, 115, 22, 0.35)", "rgba(251, 191, 36, 0.25)",
    "rgba(249, 115, 22, 0.25)", "rgba(239, 68, 68, 0.25)", "rgba(249, 115, 22, 0.35)"],
    "rgba(249, 115, 22, 0.4)", 4⟩

/-- The tier commented `Oppressive` (DewPoint.jsx 131-144). -/
def oppressiveParams : AnimationParams α :=
  ⟨100, 70, ["rgba(239, 68, 68, 0.4)", "rgba(249, 115, 22, 0.3)",
    "rgba(239, 68, 68, 0.3)", "rgba(220, 38, 38, 0.3)", "rgba(239, 68, 68, 0.4)"],
    "rgba(239, 68, 68, 0.45)", 4.5⟩

/-- `getAnimationParams()` (DewPoint.jsx 67-146): `dewPoint` is the state, `none` while it
is `null`; `parseFloat(dewPoint?.value || 15)` reads the stored value back. -/
def getAnimationParams (dewPoint : Option (DewPointReading α)) : AnimationParams α :=
  let dp : α :=
    match dewPoint with
    | some reading => reading.value
    | none => 15
  if dp < 10 then dryParams
  else if dp < 15 then comfortableParams
  else if dp < 18 then moderateParams
  else if dp < 21 then humidParams
  else oppressiveParams

/-- The tier whose comment in `getAnimationParams` names the comfort level `level`. -/
def paramsOfLevel (level : String) : Option (AnimationParams α) :=
  if level = "Dry" then some dryParams
  else if level = "Comfortable" then some comfortableParams
  else if level = "Moderate" then some moderateParams
  else if level = "Humid" then some humidParams
  else if level = "Oppressive" then some oppressiveParams
  else none

end DewPoint

section Tabs

/-- The `id`s of the array `analyses` of test.jsx 16-22. -/
inductive TabId where
  | wind
  | heatmap
  | pressure
  | dewpoint
  | uv
  deriving DecidableEq, Repr

/-- The two state variables of `AnalysisPage`; `none` is `null`. -/
structure TabState where
  lockedTab : Option TabId
  hoveredTab : Option TabId
  deriving DecidableEq, Repr

/-- The handlers attached to every tab (test.jsx 63-65). -/
inductive TabEvent where
  | mouseEnter (tab : TabId)
  | mouseLeave
  | click (tab : TabId)
  deriving DecidableEq, Repr

/-- The state after `useState(null)` twice. -/
def initialTabState : TabState := ⟨none, none⟩

/-- One event: `setHoveredTab(tab.id)`, `setHoveredTab(null)` or `setLockedTab(tabId)`. -/
def tabStep (s : TabState) : TabEvent → TabState
  | .mouseEnter tab => { s with hoveredTab := some tab }
  | .mouseLeave => { s with hoveredTab := none }
  | .click tab => { s with lockedTab := some tab }

/-- The state after a sequence of events, oldest first. -/
def runTabs (events : List TabEvent) : TabState :=
  events.foldl tabStep initialTabState

/-- `activeTab = hoveredTab || lockedTab` (test.jsx 25); every tab id is a non-empty
string, hence truthy. -/
def activeTab (s : TabState) : Option TabId :=
  match s.hoveredTab with
  | some tab => some tab
  | none => s.lockedTab

/-- What `renderActive` returns. -/
inductive ActiveView where
  | windAnalysis
  | heatmap
  | pressure
  | dewPoint
  | uvIndex
  | placeholder
  deriving DecidableEq, Repr

/-- `renderActive()` (test.jsx 31-50). -/
def renderActive (s : TabState) : ActiveView :=
  match activeTab s with
  | some .wind => .windAnalysis
  | some .heatmap => .heatmap
  | some .pressure => .pressure
  | some .dewpoint => .dewPoint
  | some .uv => .uvIndex
  | none => .placeholder

/-- The most recently clicked tab of a sequence of events, `none` when none was
clicked. -/
def mostRecentClick (events : List TabEvent) : Option TabId :=
  events.reverse.findSome? fun e =>
    match e with
    | .click tab => some tab
    | _ => none

/-- The tab under the pointer after a sequence of events: the tab of the last hover
event when that event is an enter. -/
def currentHover (events : List TabEvent) : Option TabId :=
  (events.reverse.findSome? fun e =>
    match e with
    | .mouseEnter tab => some (some tab)
    | .mouseLeave => some none
    | .click _ => none).join

end Tabs

section WindParticles

variable {α : Type} [LinearOrderedField α] [FloorRing α]

/-- The grid coordinate `((c / bounds + 1) / 2) * (gridSize - 1)` of a position
coordinate `c`, with `bounds = 2.0` (Wind.jsx 102-107). -/
def gridCoordinate (gridSize : ℕ) (c : α) : α :=
  ((c / 2 + 1) / 2) * ((gridSize : α) - 1)

/-- The two indices `x0 = Math.floor(x)`, `x1 = Math.min(x0 + 1, gridSize - 1)` on one
axis (Wind.jsx 110-112). -/
def gridIndices (gridSize : ℕ) (c : α) : ℤ × ℤ :=
  (⌊gridCoordinate gridSize c⌋, min (⌊gridCoordinate gridSize c⌋ + 1) ((gridSize : ℤ) - 1))

/-- `getWind(i, j, k)` (Wind.jsx 116-119): the three entries at
`idx = (i * gridSize * gridSize + j * gridSize + k) * 3`; `none` when an entry is
`undefined`. -/
def getWind (data : List α) (gridSize : ℕ) (i j k : ℤ) : Option (α × α × α) := do
  let idx : ℤ := (i * gridSize * gridSize + j * gridSize + k) * 3
  let a ← elemAt data idx
  let b ← elemAt data (idx + 1)
  let c ← elemAt data (idx + 2)
  pure (a, b, c)

/-- `a.lerp(b, t)` of `THREE.Vector3`: each component `a + (b - a) * t`. -/
def lerp3 (a b : α × α × α) (t : α) : α × α × α :=
  (a.1 + (b.1 - a.1) * t, a.2.1 + (b.2.1 - a.2.1) * t, a.2.2 + (b.2.2 - a.2.2) * t)

/-- `sampleWindField(position, windField)` (Wind.jsx 100-139); `none` when a corner of
the cell is `undefined`, the result then holding `NaN`. -/
def sampleWindField (data : List α) (gridSize : ℕ) (position : α × α × α) :
    Option (α × α × α) := do
  let x : α := gridCoordinate gridSize position.1
  let y : α := gridCoordinate gridSize position.2.1
  let z : α := gridCoordinate gridSize position.2.2
  let xi := gridIndices gridSize position.1
  let yi := gridIndices gridSize position.2.1
  let zi := gridIndices gridSize position.2.2
  let xd : α := x - (xi.1 : α)
  let yd : α := y - (yi.1 : α)
  let zd : α := z - (zi.1 : α)
  let c000 ← getWind data gridSize xi.1 yi.1 zi.1
  let c001 ← getWind data gridSize xi.1 yi.1 zi.2
  let c010 ← getWind data gridSize xi.1 yi.2 zi.1
  let c011 ← getWind data gridSize xi.1 yi.2 zi.2
  let c100 ← getWind data gridSize xi.2 yi.1 zi.1
  let c101 ← getWind data gridSize xi.2 yi.1 zi.2
  let c110 ← getWind data gridSize xi.2 yi.2 zi.1
  let c111 ← getWind data gridSize xi.2 yi.2 zi.2
  let c00 := lerp3 c000 c001 zd
  let c01 := lerp3 c010 c011 zd
  let c10 := lerp3 c100 c101 zd
  let c11 := lerp3 c110 c111 zd
  let c0 := lerp3 c00 c01 yd
  let c1 := lerp3 c10 c11 yd
  pure (lerp3 c0 c1 xd)

/-- One particle: its entries in the arrays `positions`, `velocities` and `lives`. -/
structure Particle (α : Type) where
  position : α × α × α
  velocity : α × α × α
  life : α

/-- A particle as initialised (Wind.jsx 192-202) from four values of `Math.random()`. -/
def initParticle (r1 r2 r3 r4 : α) : Particle α :=
  ⟨((r1 - 0.5) * 4, (r2 - 0.5) * 4, (r3 - 0.5) * 4), (0, 0, 0), r4⟩

/-- The body of the particle loop of `animate` (Wind.jsx 236-269) for one particle;
`r` holds the three values `Math.random()` returns if the particle is respawned.  `none`
when the wind sample is not a number. -/
def stepParticle (data : List α) (gridSize : ℕ) (particleSpeed fadeSpeed : α)
    (r : α × α × α) (p : Particle α) : Option (Particle α) := do
  let wind ← sampleWindField data gridSize p.position
  let velocity : α × α × α :=
    (wind.1 * particleSpeed, wind.2.1 * particleSpeed, wind.2.2 * particleSpeed)
  let position : α × α × α :=
    (p.position.1 + velocity.1 * 0.016, p.position.2.1 + velocity.2.1 * 0.016,
      p.position.2.2 + velocity.2.2 * 0.016)
  let life : α := p.life * fadeSpeed
  if life < 0.01 ∨ |position.1| > 2 ∨ |position.2.1| > 2 ∨ |position.2.2| > 2 then
    pure ⟨((r.1 - 0.5) * 4, (r.2.1 - 0.5) * 4, (r.2.2 - 0.5) * 4), velocity, 1.0⟩
  else
    pure ⟨position, velocity, life⟩

/-- The particle loop of one call of `animate` while playing, from particle `i` on;
`random i` holds the draws of particle `i`. -/
def stepParticles (data : List α) (gridSize : ℕ) (particleSpeed fadeSpeed : α)
    (random : ℕ → α × α × α) : ℕ → List (Particle α) → Option (List (Particle α))
  | _, [] => some []
  | i, p :: ps =>
    match stepParticle data gridSize particleSpeed fadeSpeed (random i) p with
    | none => none
    | some q =>
      match stepParticles data gridSize particleSpeed fadeSpeed random (i + 1) ps with
      | none => none
      | some qs => some (q :: qs)

/-- One call of `animate` (Wind.jsx 221-284) on the particle arrays: nothing moves while
`isPlaying` is false. -/
def animate (data : List α) (gridSize : ℕ) (particleSpeed fadeSpeed : α)
    (isPlaying : Bool) (random : ℕ → α × α × α) (ps : List (Particle α)) :
    Option (List (Particle α)) :=
  if isPlaying then stepParticles data gridSize particleSpeed fadeSpeed random 0 ps
  else some ps

/-- The particle arrays after the frames `frames`, each frame given by its `isPlaying`
flag and its random draws. -/
def animateFrames (data : List α) (gridSize : ℕ) (particleSpeed fadeSpeed : α) :
    List (Bool × (ℕ → α × α × α)) → List (Particle α) → Option (List (Particle α))
  | [], ps => some ps
  | frame :: rest, ps =>
    match animate data gridSize particleSpeed fadeSpeed frame.1 frame.2 ps with
    | none => none
    | some qs => animateFrames data gridSize particleSpeed fadeSpeed rest qs

/-- A coordinate triple inside the cube `[-2, 2]^3`. -/
def InCube (position : α × α × α) : Prop :=
  (-2 ≤ position.1 ∧ position.1 ≤ 2) ∧ (-2 ≤ position.2.1 ∧ position.2.1 ≤ 2) ∧
    (-2 ≤ position.2.2 ∧ position.2.2 ≤ 2)

/-- Three values of `Math.random()`: each in `[0, 1)`. -/
def UnitDraws (r : α × α × α) : Prop :=
  (0 ≤ r.1 ∧ r.1 < 1) ∧ (0 ≤ r.2.1 ∧ r.2.1 < 1) ∧ (0 ≤ r.2.2 ∧ r.2.2 < 1)

/-- Both grid indices of the coordinate `c` lie in `0 .. gridSize - 1`. -/
def IndicesInGrid (gridSize : ℕ) (c : α) : Prop :=
  (0 ≤ (gridIndices gridSize c).1 ∧ (gridIndices gridSize c).1 ≤ (gridSize : ℤ) - 1) ∧
    (0 ≤ (gridIndices gridSize c).2 ∧ (gridIndices gridSize c).2 ≤ (gridSize : ℤ) - 1)

end WindParticles

section ExtremaReads

variable {α : Type} [LinearOrderedField α]

/-- The read `data[y][x]` with its index pair recorded: the value read, and the list `log`
of the index pairs read so far extended by `(y, x)`. -/
def readCellLogged (data : List (List α)) (y x : ℤ) (log : List (ℤ × ℤ)) :
    Except JsError (Option α × List (ℤ × ℤ)) :=
  match readCell data y x with
  | .error e => .error e
  | .ok v => .ok (v, log ++ [(y, x)])

/-- The neighbour loops of `scanNeighbours` with every read `data[y + dy][x + dx]`
recorded. -/
def scanNeighboursLogged (data : List (List α)) (center : Option α) (y x : ℤ) :
    List (ℤ × ℤ) → (Bool × Bool) × List (ℤ × ℤ) →
      Except JsError ((Bool × Bool) × List (ℤ × ℤ))
  | [], st => .ok st
  | d :: ds, st =>
    match readCellLogged data (y + d.1) (x + d.2) st.2 with
    | .error e => .error e
    | .ok (neighbor, log) =>
      scanNeighboursLogged data center y x ds
        ((if jsGt neighbor center then false else st.1.1,
          if jsLt neighbor center then false else st.1.2), log)

/-- The candidate centre of `classify` with its reads recorded: the centre `data[y][x]`,
then the neighbours. -/
def classifyLogged (data : List (List α)) (y x : ℤ) (acc : Extrema α × List (ℤ × ℤ)) :
    Except JsError (Extrema α × List (ℤ × ℤ)) :=
  match readCellLogged data y x acc.2 with
  | .error e => .error e
  | .ok (center, log) =>
    match scanNeighboursLogged data center y x neighbourOffsets ((true, true), log) with
    | .error e => .error e
    | .ok ((isHigh, isLow), log1) =>
      match center with
      | none => .ok (acc.1, log1)
      | some c =>
        if isHigh && decide (1020 < c) then
          .ok ({ acc.1 with highs := acc.1.highs ++ [⟨x, y, c⟩] }, log1)
        else if isLow && decide (c < 1005) then
          .ok ({ acc.1 with lows := acc.1.lows ++ [⟨x, y, c⟩] }, log1)
        else .ok (acc.1, log1)

/-- The inner loop of `scanRow` with its reads recorded. -/
def scanRowLogged (data : List (List α)) (y : ℤ) :
    List ℤ → Extrema α × List (ℤ × ℤ) → Except JsError (Extrema α × List (ℤ × ℤ))
  | [], acc => .ok acc
  | x :: xs, acc =>
    match classifyLogged data y x acc with
    | .error e => .error e
    | .ok acc1 => scanRowLogged data y xs acc1

/-- The outer loop of `scanRows` with its reads recorded. -/
def scanRowsLogged (data : List (List α)) :
    List ℤ → Extrema α × List (ℤ × ℤ) → Except JsError (Extrema α × List (ℤ × ℤ))
  | [], acc => .ok acc
  | y :: ys, acc =>
    match rowLength data with
    | .error e => .error e
    | .ok w =>
      match scanRowLogged data y (forRange w.toNat 10 (w - 10) 15) acc with
      | .error e => .error e
      | .ok acc1 => scanRowsLogged data ys acc1

/-- `findExtrema(data)` (Pressure.jsx 48-78) with the index pair of every read
`data[y][x]` and `data[y + dy][x + dx]` recorded in the order of the reads: the result,
and the list of the index pairs read. -/
def findExtremaLogged (data : List (List α)) : Except JsError (Extrema α × List (ℤ × ℤ)) :=
  scanRowsLogged data (forRange data.length 10 ((data.length : ℤ) - 10) 15) (⟨[], []⟩, [])

/-- The index pairs read for the candidate centre `(x, y)`: the centre, then its
neighbours. -/
def candidateReads (y x : ℤ) : List (ℤ × ℤ) :=
  (y, x) :: neighbourOffsets.map fun d => (y + d.1, x + d.2)

end ExtremaReads

section Doubles

/-- The integer nearest to `q`, a tie going to the even one. -/
def roundHalfEven (q : ℚ) : ℤ :=
  if q - ⌊q⌋ < 1 / 2 then ⌊q⌋
  else if 1 / 2 < q - ⌊q⌋ then ⌊q⌋ + 1
  else if ⌊q⌋ % 2 = 0 then ⌊q⌋ else ⌊q⌋ + 1

/-- Scale a positive `s` by powers of two into `[2 ^ 52, 2 ^ 53)`: the scaled value and
the unit `u` with `s * u` unchanged; `fuel` bounds the number of doublings and halvings. -/
def scaleSignificand : ℕ → ℚ → ℚ → ℚ × ℚ
  | 0, s, u => (s, u)
  | fuel + 1, s, u =>
    if s < 2 ^ 52 then scaleSignificand fuel (2 * s) (u / 2)
    else if 2 ^ 53 ≤ s then scaleSignificand fuel (s / 2) (2 * u)
    else (s, u)

/-- The JavaScript Number nearest to the real number `q`: a 53-bit significand, rounded to
nearest, ties to even.  The exponent range is not modelled (no overflow, no subnormal
numbers), which is exact for magnitudes between `2 ^ (-1022)` and `2 ^ 1023`. -/
def toDouble (q : ℚ) : ℚ :=
  if q = 0 then 0
  else if q < 0 then
    -((roundHalfEven (scaleSignificand 2200 (-q) 1).1 : ℤ) : ℚ) * (scaleSignificand 2200 (-q) 1).2
  else
    ((roundHalfEven (scaleSignificand 2200 q 1).1 : ℤ) : ℚ) * (scaleSignificand 2200 q 1).2

/-- `interpolatePressure(data, x, y)` (Pressure.jsx 81-99) on JavaScript Numbers: the
cells and the coordinates are Numbers, the floors and the integer indices are exact, and
every subtraction, multiplication and addition of lines 92-98 is rounded by `toDouble`, in
the order JavaScript evaluates them. -/
def interpolatePressureDouble (data : List (List ℚ)) (x y : ℚ) :
    Except JsError (Option ℚ) := do
  let x0 : ℤ := ⌊x⌋
  let w ← rowLength data
  let x1 : ℤ := min (x0 + 1) (w - 1)
  let y0 : ℤ := ⌊y⌋
  let y1 : ℤ := min (y0 + 1) ((data.length : ℤ) - 1)
  let fx : ℚ := toDouble (x - (x0 : ℚ))
  let fy : ℚ := toDouble (y - (y0 : ℚ))
  let p00 ← readCell data y0 x0
  let p10 ← readCell data y0 x1
  let p01 ← readCell data y1 x0
  let p11 ← readCell data y1 x1
  pure (do
    let a ← p00
    let b ← p10
    let c ← p01
    let d ← p11
    let t00 : ℚ := toDouble (toDouble (a * toDouble (1 - fx)) * toDouble (1 - fy))
    let t10 : ℚ := toDouble (toDouble (b * fx) * toDouble (1 - fy))
    let t01 : ℚ := toDouble (toDouble (c * toDouble (1 - fx)) * fy)
    let t11 : ℚ := toDouble (toDouble (d * fx) * fy)
    pure (toDouble (toDouble (toDouble (t00 + t10) + t01) + t11)))

end Doubles

section SampleFields

/-- A field of `h` rows of `w` cells that all hold `v`. -/
def flatField {α : Type} (h w : ℕ) (v : α) : List (List α) :=
  List.replicate h (List.replicate w v)

/-- A 21 x 21 field holding 1010 everywhere except 1030 at the cell `(10, 10)`. -/
def peakField : List (List ℚ) :=
  (List.range 21).map fun y => (List.range 21).map fun x =>
    if x = 10 ∧ y = 10 then 1030 else 1010

/-- The field `peakField` with the value 1030 also in the cell `(11, 10)`, right of the
centre. -/
def plateauField : List (List ℚ) :=
  (List.range 21).map fun y => (List.range 21).map fun x =>
    if (x = 10 ∨ x = 11) ∧ y = 10 then 1030 else 1010

end SampleFields

/-! ## Reads inside a rectangular field -/

section ReadLemmas

variable {α : Type}

theorem elemAt_of_lt {β : Type} (arr : List β) (i : ℤ) (h0 : 0 ≤ i) (h1 : i < arr.length) :
    ∃ v, v ∈ arr ∧ elemAt arr i = some v := by
  have hlt : i.toNat < arr.length := by omega
  refine ⟨arr[i.toNat], List.getElem_mem _, ?_⟩
  simp [elemAt, not_lt.mpr h0, List.getElem?_eq_getElem hlt]

theorem readCell_of_rect (data : List (List α)) (w : ℕ) (hr : Rect data w) (y x : ℤ)
    (hy0 : 0 ≤ y) (hy1 : y < data.length) (hx0 : 0 ≤ x) (hx1 : x < w) :
    ∃ v, readCell data y x = .ok (some v) := by
  obtain ⟨row, hmem, hrow⟩ := elemAt_of_lt data y hy0 hy1
  have hlen : row.length = w := hr row hmem
  obtain ⟨v, _, hv⟩ := elemAt_of_lt row x hx0 (by omega)
  exact ⟨v, by simp [readCell, hrow, hv]⟩

theorem rowLength_of_rect (data : List (List α)) (w : ℕ) (hr : Rect data w)
    (hne : 0 < data.length) : rowLength data = .ok (w : ℤ) := by
  obtain ⟨row, hmem, hrow⟩ := elemAt_of_lt data 0 le_rfl (by omega)
  simp [rowLength, hrow, hr row hmem]

end ReadLemmas

section SamplerTheorems

variable {α : Type} [LinearOrderedField α] [FloorRing α]

/-- C1: on a non-empty rectangular field, sampling at an integer grid point `(x, y)` with
`0 ≤ x < width` and `0 ≤ y < height` returns exactly `data[y][x]`. -/
theorem interpolatePressure_grid_point (data : List (List α)) (w : ℕ) (hr : Rect data w)
    (x y : ℤ) (hx0 : 0 ≤ x) (hx1 : x < w) (hy0 : 0 ≤ y) (hy1 : y < data.length) :
    ∃ v, readCell data y x = .ok (some v) ∧
      interpolatePressure data (x : α) (y : α) = .ok (some v) := by
  have hne : 0 < data.length := by omega
  obtain ⟨v, hv⟩ := readCell_of_rect data w hr y x hy0 hy1 hx0 hx1
  obtain ⟨b, hb⟩ := readCell_of_rect data w hr y (min (x + 1) (w - 1)) hy0 hy1
    (by omega) (by omega)
  obtain ⟨c, hc⟩ := readCell_of_rect data w hr (min (y + 1) ((data.length : ℤ) - 1)) x
    (by omega) (by omega) hx0 hx1
  obtain ⟨d, hd⟩ := readCell_of_rect data w hr (min (y + 1) ((data.length : ℤ) - 1))
    (min (x + 1) (w - 1)) (by omega) (by omega) (by omega) (by omega)
  refine ⟨v, hv, ?_⟩
  simp [interpolatePressure, rowLength_of_rect data w hr hne, hv, hb, hc, hd, bind,
    Except.bind, pure, Except.pure]

end SamplerTheorems

/-! ## The stride loops -/

section Loops

theorem forRange_sound (fuel : ℕ) (i stop step z : ℤ) (hs : 0 ≤ step)
    (hz : z ∈ forRange fuel i stop step) :
    i ≤ z ∧ z < stop ∧ ∃ k : ℕ, z = i + step * k := by
  induction fuel generalizing i with
  | zero => simp [forRange] at hz
  | succ n ih =>
    unfold forRange at hz
    split_ifs at hz with h
    · rcases List.mem_cons.mp hz with rfl | hz1
      · exact ⟨le_rfl, h, 0, by simp⟩
      · obtain ⟨h1, h2, k, hk⟩ := ih (i + step) hz1
        exact ⟨by omega, h2, k + 1, by push_cast; rw [hk]; ring⟩
    · simp at hz

theorem forRange_complete (fuel : ℕ) (i stop step : ℤ) (hs : 0 < step)
    (hf : stop - i ≤ fuel) (k : ℕ) (hk : i + step * k < stop) :
    i + step * k ∈ forRange fuel i stop step := by
  have hnn : ∀ m : ℕ, 0 ≤ step * (m : ℤ) := fun m => by positivity
  induction fuel generalizing i k with
  | zero =>
    have := hnn k
    simp at hf
    omega
  | succ n ih =>
    have h0 := hnn k
    have hi : i < stop := by omega
    unfold forRange
    rw [if_pos hi]
    cases k with
    | zero => simp
    | succ k =>
      have hrw : i + step * ((k + 1 : ℕ) : ℤ) = (i + step) + step * (k : ℤ) := by
        push_cast; ring
      rw [hrw] at hk ⊢
      exact List.mem_cons_of_mem _ (ih (i + step) (by push_cast at hf; omega) k hk)

set_option maxRecDepth 100000 in
theorem neighbourOffsets_bounds :
    ∀ d ∈ neighbourOffsets, -5 ≤ d.1 ∧ d.1 ≤ 5 ∧ -5 ≤ d.2 ∧ d.2 ≤ 5 ∧ d ≠ (0, 0) := by
  decide

theorem neighbourOffsets_length : neighbourOffsets.length = 120 := by
  decide

end Loops

/-! ## The extrema scan never raises and has a closed form -/

section ExtremaLemmas

variable {α : Type} [LinearOrderedField α]

omit [LinearOrderedField α] in
theorem readCell_eq_valAt (data : List (List α)) (y x : ℤ) (hy0 : 0 ≤ y)
    (hy1 : y < data.length) : readCell data y x = .ok (valAt data y x) := by
  obtain ⟨row, _, hrow⟩ := elemAt_of_lt data y hy0 hy1
  simp [valAt, readCell, hrow]

omit [LinearOrderedField α] in
theorem valAt_eq_some_iff (data : List (List α)) (y x : ℤ) (v : α) :
    valAt data y x = some v ↔ readCell data y x = .ok (some v) := by
  unfold valAt
  cases h : readCell data y x with
  | error e => simp
  | ok o => simp

omit [LinearOrderedField α] in
theorem valAt_of_rect (data : List (List α)) (w : ℕ) (hr : Rect data w) (y x : ℤ)
    (hy0 : 0 ≤ y) (hy1 : y < data.length) (hx0 : 0 ≤ x) (hx1 : x < w) :
    ∃ v, valAt data y x = some v := by
  obtain ⟨v, hv⟩ := readCell_of_rect data w hr y x hy0 hy1 hx0 hx1
  exact ⟨v, (valAt_eq_some_iff data y x v).mpr hv⟩

theorem scanNeighbours_eq (data : List (List α)) (center : Option α) (y x : ℤ)
    (ds : List (ℤ × ℤ)) (st : Bool × Bool)
    (h : ∀ d ∈ ds, 0 ≤ y + d.1 ∧ y + d.1 < data.length) :
    scanNeighbours data center y x ds st = .ok
      (st.1 && ds.all (fun d => !jsGt (valAt data (y + d.1) (x + d.2)) center),
       st.2 && ds.all (fun d => !jsLt (valAt data (y + d.1) (x + d.2)) center)) := by
  induction ds generalizing st with
  | nil => simp [scanNeighbours]
  | cons d ds ih =>
    have hd := h d (List.mem_cons_self _ _)
    rw [scanNeighbours, readCell_eq_valAt data _ _ hd.1 hd.2]
    simp only
    rw [ih _ (fun e he => h e (List.mem_cons_of_mem _ he))]
    cases hg : jsGt (valAt data (y + d.1) (x + d.2)) center <;>
      cases hl : jsLt (valAt data (y + d.1) (x + d.2)) center <;> simp [hg, hl]

theorem classify_eq (data : List (List α)) (y x : ℤ) (acc : Extrema α)
    (hy0 : 5 ≤ y) (hy1 : y + 5 < data.length) :
    classify data y x acc =
      .ok ⟨acc.highs ++ hiOf data y x, acc.lows ++ loOf data y x⟩ := by
  have hrows : ∀ d ∈ neighbourOffsets, 0 ≤ y + d.1 ∧ y + d.1 < (data.length : ℤ) := by
    intro d hd
    have := neighbourOffsets_bounds d hd
    omega
  unfold classify
  rw [readCell_eq_valAt data y x (by omega) (by omega)]
  simp only
  rw [scanNeighbours_eq data _ y x neighbourOffsets (true, true) hrows]
  simp only [Bool.true_and]
  unfold hiOf loOf
  cases hc : valAt data y x with
  | none => simp
  | some c =>
    simp only [noneAbove, noneBelow]
    split_ifs <;> simp

theorem scanRow_eq (data : List (List α)) (y : ℤ) (xs : List ℤ) (acc : Extrema α)
    (hy0 : 5 ≤ y) (hy1 : y + 5 < data.length) :
    scanRow data y xs acc =
      .ok ⟨acc.highs ++ xs.flatMap (hiOf data y), acc.lows ++ xs.flatMap (loOf data y)⟩ := by
  induction xs generalizing acc with
  | nil => simp [scanRow]
  | cons x xs ih =>
    rw [scanRow, classify_eq data y x acc hy0 hy1]
    simp only
    rw [ih]
    simp [List.append_assoc]

omit [LinearOrderedField α] in
theorem rowLength_eq_widthOf (data : List (List α)) (hne : 0 < data.length) :
    rowLength data = .ok (widthOf data) := by
  cases data with
  | nil => simp at hne
  | cons row rest => simp [rowLength, widthOf, elemAt]

theorem scanRows_eq (data : List (List α)) (ys : List ℤ) (acc : Extrema α)
    (h : ∀ y ∈ ys, 5 ≤ y ∧ y + 5 < data.length) :
    scanRows data ys acc =
      .ok ⟨acc.highs ++ ys.flatMap (fun y => (candidateCols data).flatMap (hiOf data y)),
           acc.lows ++ ys.flatMap (fun y => (candidateCols data).flatMap (loOf data y))⟩ := by
  induction ys generalizing acc with
  | nil => simp [scanRows]
  | cons y ys ih =>
    have hy := h y (List.mem_cons_self _ _)
    rw [scanRows, rowLength_eq_widthOf data (by omega)]
    simp only
    rw [scanRow_eq data y _ acc hy.1 hy.2]
    simp only
    rw [ih _ (fun z hz => h z (List.mem_cons_of_mem _ hz))]
    simp [List.append_assoc, candidateCols]

omit [LinearOrderedField α] in
theorem candidateRows_bounds (data : List (List α)) (y : ℤ) (hy : y ∈ candidateRows data) :
    10 ≤ y ∧ y < (data.length : ℤ) - 10 ∧ ∃ k : ℕ, y = 10 + 15 * k :=
  forRange_sound _ _ _ _ y (by norm_num) hy

omit [LinearOrderedField α] in
theorem candidateCols_bounds (data : List (List α)) (x : ℤ) (hx : x ∈ candidateCols data) :
    10 ≤ x ∧ x < widthOf data - 10 ∧ ∃ k : ℕ, x = 10 + 15 * k :=
  forRange_sound _ _ _ _ x (by norm_num) hx

/-- The scan never raises: it returns the candidates' contributions in scan order. -/
theorem findExtrema_eq (data : List (List α)) :
    findExtrema data = .ok
      ⟨(candidateRows data).flatMap (fun y => (candidateCols data).flatMap (hiOf data y)),
       (candidateRows data).flatMap (fun y => (candidateCols data).flatMap (loOf data y))⟩ := by
  unfold findExtrema
  rw [show forRange data.length 10 ((data.length : ℤ) - 10) 15 = candidateRows data from rfl,
    scanRows_eq data (candidateRows data) ⟨[], []⟩ (fun y hy => by
      have := candidateRows_bounds data y hy
      omega)]
  simp

omit [LinearOrderedField α] in
theorem widthOf_of_rect (data : List (List α)) (w : ℕ) (hr : Rect data w)
    (hne : 0 < data.length) : widthOf data = w := by
  cases data with
  | nil => simp at hne
  | cons row rest => simp [widthOf, hr row (List.mem_cons_self _ _)]

end ExtremaLemmas

/-! ## What the extrema scan returns -/

section ExtremaTheorems

variable {α : Type} [LinearOrderedField α]

theorem mem_hiOf (data : List (List α)) (y x : ℤ) (p : ExtremumPoint α) :
    p ∈ hiOf data y x ↔
      ∃ c, valAt data y x = some c ∧ p = ⟨x, y, c⟩ ∧ noneAbove data y x c = true ∧
        1020 < c := by
  unfold hiOf
  cases hc : valAt data y x with
  | none => simp
  | some c =>
    by_cases h1 : noneAbove data y x c = true <;> by_cases h2 : 1020 < c <;>
      simp [h1, h2]

theorem mem_loOf (data : List (List α)) (y x : ℤ) (p : ExtremumPoint α) :
    p ∈ loOf data y x ↔
      ∃ c, valAt data y x = some c ∧ p = ⟨x, y, c⟩ ∧ noneBelow data y x c = true ∧
        c < 1005 := by
  unfold loOf
  cases hc : valAt data y x with
  | none => simp
  | some c =>
    by_cases h1 : noneBelow data y x c = true <;> by_cases h2 : c < 1005 <;>
      by_cases h3 : 1020 < c <;> by_cases h4 : noneAbove data y x c = true <;>
      simp [h1, h2, h3, h4]
    all_goals
      exfalso
      have : (1005 : α) < 1020 := by norm_num
      linarith

theorem neighbour_le_of_noneAbove (data : List (List α)) (w : ℕ) (hr : Rect data w)
    (y x : ℤ) (c : α) (hy0 : 5 ≤ y) (hy1 : y + 5 < data.length) (hx0 : 5 ≤ x)
    (hx1 : x + 5 < w) (h : noneAbove data y x c = true) :
    ∀ d ∈ neighbourOffsets,
      ∃ n, readCell data (y + d.1) (x + d.2) = .ok (some n) ∧ n ≤ c := by
  intro d hd
  have hb := neighbourOffsets_bounds d hd
  obtain ⟨n, hn⟩ := readCell_of_rect data w hr (y + d.1) (x + d.2) (by omega) (by omega)
    (by omega) (by omega)
  refine ⟨n, hn, ?_⟩
  have := (List.all_eq_true.mp h) d hd
  rw [(valAt_eq_some_iff data _ _ n).mpr hn] at this
  simpa [jsGt] using this

theorem neighbour_ge_of_noneBelow (data : List (List α)) (w : ℕ) (hr : Rect data w)
    (y x : ℤ) (c : α) (hy0 : 5 ≤ y) (hy1 : y + 5 < data.length) (hx0 : 5 ≤ x)
    (hx1 : x + 5 < w) (h : noneBelow data y x c = true) :
    ∀ d ∈ neighbourOffsets,
      ∃ n, readCell data (y + d.1) (x + d.2) = .ok (some n) ∧ c ≤ n := by
  intro d hd
  have hb := neighbourOffsets_bounds d hd
  obtain ⟨n, hn⟩ := readCell_of_rect data w hr (y + d.1) (x + d.2) (by omega) (by omega)
    (by omega) (by omega)
  refine ⟨n, hn, ?_⟩
  have := (List.all_eq_true.mp h) d hd
  rw [(valAt_eq_some_iff data _ _ n).mpr hn] at this
  simpa [jsLt] using this

/-- Every reported high comes from a stride candidate whose flag `isHigh` survived. -/
theorem mem_highs (data : List (List α)) (ext : Extrema α) (he : findExtrema data = .ok ext)
    (p : ExtremumPoint α) (hp : p ∈ ext.highs) :
    p.y ∈ candidateRows data ∧ p.x ∈ candidateCols data ∧
      valAt data p.y p.x = some p.value ∧ noneAbove data p.y p.x p.value = true ∧
      1020 < p.value := by
  rw [findExtrema_eq] at he
  cases he
  simp only [List.mem_flatMap] at hp
  obtain ⟨y, hy, x, hx, hp⟩ := hp
  obtain ⟨c, hc, rfl, h1, h2⟩ := (mem_hiOf data y x p).mp hp
  exact ⟨hy, hx, hc, h1, h2⟩

/-- Every reported low comes from a stride candidate whose flag `isLow` survived. -/
theorem mem_lows (data : List (List α)) (ext : Extrema α) (he : findExtrema data = .ok ext)
    (p : ExtremumPoint α) (hp : p ∈ ext.lows) :
    p.y ∈ candidateRows data ∧ p.x ∈ candidateCols data ∧
      valAt data p.y p.x = some p.value ∧ noneBelow data p.y p.x p.value = true ∧
      p.value < 1005 := by
  rw [findExtrema_eq] at he
  cases he
  simp only [List.mem_flatMap] at hp
  obtain ⟨y, hy, x, hx, hp⟩ := hp
  obtain ⟨c, hc, rfl, h1, h2⟩ := (mem_loOf data y x p).mp hp
  exact ⟨hy, hx, hc, h1, h2⟩

/-- C2 (amended): on a rectangular field `findExtrema` returns, and every point of `highs`
holds the value of its cell, which is greater than or equal to each of the 120 other
samples of its 11 x 11 neighbourhood; every point of `lows` is less than or equal to each
of its 120 neighbours.  Equality is allowed. -/
theorem findExtrema_weak_extrema (data : List (List α)) (w : ℕ) (hr : Rect data w) :
    ∃ ext, findExtrema data = .ok ext ∧
      (∀ p ∈ ext.highs, readCell data p.y p.x = .ok (some p.value) ∧
        ∀ d ∈ neighbourOffsets,
          ∃ n, readCell data (p.y + d.1) (p.x + d.2) = .ok (some n) ∧ n ≤ p.value) ∧
      (∀ p ∈ ext.lows, readCell data p.y p.x = .ok (some p.value) ∧
        ∀ d ∈ neighbourOffsets,
          ∃ n, readCell data (p.y + d.1) (p.x + d.2) = .ok (some n) ∧ p.value ≤ n) := by
  refine ⟨_, findExtrema_eq data, ?_, ?_⟩
  · intro p hp
    obtain ⟨hy, hx, hv, ha, _⟩ := mem_highs data _ (findExtrema_eq data) p hp
    have hyb := candidateRows_bounds data p.y hy
    have hxb := candidateCols_bounds data p.x hx
    rw [widthOf_of_rect data w hr (by omega)] at hxb
    exact ⟨(valAt_eq_some_iff data _ _ _).mp hv,
      neighbour_le_of_noneAbove data w hr p.y p.x p.value (by omega) (by omega) (by omega)
        (by omega) ha⟩
  · intro p hp
    obtain ⟨hy, hx, hv, ha, _⟩ := mem_lows data _ (findExtrema_eq data) p hp
    have hyb := candidateRows_bounds data p.y hy
    have hxb := candidateCols_bounds data p.x hx
    rw [widthOf_of_rect data w hr (by omega)] at hxb
    exact ⟨(valAt_eq_some_iff data _ _ _).mp hv,
      neighbour_ge_of_noneBelow data w hr p.y p.x p.value (by omega) (by omega) (by omega)
        (by omega) ha⟩

/-- C7: `findExtrema` returns on every field, every point of `highs` has a value above
1020 and every point of `lows` has a value below 1005. -/
theorem findExtrema_thresholds (data : List (List α)) :
    ∃ ext, findExtrema data = .ok ext ∧
      (∀ p ∈ ext.highs, 1020 < p.value) ∧ (∀ p ∈ ext.lows, p.value < 1005) :=
  ⟨_, findExtrema_eq data,
    fun p hp => (mem_highs data _ (findExtrema_eq data) p hp).2.2.2.2,
    fun p hp => (mem_lows data _ (findExtrema_eq data) p hp).2.2.2.2⟩

end ExtremaTheorems

section FlatAndSmall

variable {α : Type} [LinearOrderedField α]

theorem mem_of_elemAt {β : Type} (arr : List β) (i : ℤ) (v : β) (h : elemAt arr i = some v) :
    v ∈ arr := by
  unfold elemAt at h
  split_ifs at h
  exact List.getElem?_mem h

omit [LinearOrderedField α] in
theorem valAt_flat (data : List (List α)) (v : α) (hflat : ∀ row ∈ data, ∀ c ∈ row, c = v)
    (y x : ℤ) (n : α) (h : valAt data y x = some n) : n = v := by
  unfold valAt readCell at h
  cases hrow : elemAt data y with
  | none => simp [hrow] at h
  | some row =>
    simp only [hrow] at h
    exact hflat row (mem_of_elemAt data y row hrow) n (mem_of_elemAt row x n h)

theorem noneAbove_flat (data : List (List α)) (v : α)
    (hflat : ∀ row ∈ data, ∀ c ∈ row, c = v) (y x : ℤ) : noneAbove data y x v = true := by
  unfold noneAbove
  rw [List.all_eq_true]
  intro d _
  cases hn : valAt data (y + d.1) (x + d.2) with
  | none => simp [jsGt]
  | some n => simp [jsGt, valAt_flat data v hflat _ _ n hn]

theorem noneBelow_flat (data : List (List α)) (v : α)
    (hflat : ∀ row ∈ data, ∀ c ∈ row, c = v) (y x : ℤ) : noneBelow data y x v = true := by
  unfold noneBelow
  rw [List.all_eq_true]
  intro d _
  cases hn : valAt data (y + d.1) (x + d.2) with
  | none => simp [jsLt]
  | some n => simp [jsLt, valAt_flat data v hflat _ _ n hn]

omit [LinearOrderedField α] in
theorem valAt_candidate (data : List (List α)) (w : ℕ) (hr : Rect data w) (y x : ℤ)
    (hy : y ∈ candidateRows data) (hx : x ∈ candidateCols data) :
    ∃ c, valAt data y x = some c := by
  have hyb := candidateRows_bounds data y hy
  have hxb := candidateCols_bounds data x hx
  rw [widthOf_of_rect data w hr (by omega)] at hxb
  exact valAt_of_rect data w hr y x (by omega) (by omega) (by omega) (by omega)

/-- C8 (amended): on a rectangular field whose cells all hold `v`, `findExtrema` returns;
the points of `highs` are exactly the stride candidates (with value `v`) when `v > 1020`
and there are none when `v ≤ 1020`; the points of `lows` are exactly the stride candidates
when `v < 1005` and there are none when `v ≥ 1005`.  Equal neighbours do not disqualify a
centre. -/
theorem findExtrema_flat (data : List (List α)) (w : ℕ) (v : α) (hr : Rect data w)
    (hflat : ∀ row ∈ data, ∀ c ∈ row, c = v) :
    ∃ ext, findExtrema data = .ok ext ∧
      (∀ p, p ∈ ext.highs ↔
        1020 < v ∧ p.value = v ∧ p.y ∈ candidateRows data ∧ p.x ∈ candidateCols data) ∧
      (∀ p, p ∈ ext.lows ↔
        v < 1005 ∧ p.value = v ∧ p.y ∈ candidateRows data ∧ p.x ∈ candidateCols data) := by
  refine ⟨_, findExtrema_eq data, ?_, ?_⟩
  · intro p
    constructor
    · intro hp
      obtain ⟨hy, hx, hv, _, ht⟩ := mem_highs data _ (findExtrema_eq data) p hp
      have hpv := valAt_flat data v hflat _ _ _ hv
      exact ⟨hpv ▸ ht, hpv, hy, hx⟩
    · rintro ⟨ht, hpv, hy, hx⟩
      simp only [List.mem_flatMap]
      refine ⟨p.y, hy, p.x, hx, (mem_hiOf data p.y p.x p).mpr ⟨v, ?_, ?_, ?_, ht⟩⟩
      · obtain ⟨c, hc⟩ := valAt_candidate data w hr p.y p.x hy hx
        rw [hc, valAt_flat data v hflat _ _ c hc]
      · cases p
        simp_all
      · exact noneAbove_flat data v hflat _ _
  · intro p
    constructor
    · intro hp
      obtain ⟨hy, hx, hv, _, ht⟩ := mem_lows data _ (findExtrema_eq data) p hp
      have hpv := valAt_flat data v hflat _ _ _ hv
      exact ⟨hpv ▸ ht, hpv, hy, hx⟩
    · rintro ⟨ht, hpv, hy, hx⟩
      simp only [List.mem_flatMap]
      refine ⟨p.y, hy, p.x, hx, (mem_loOf data p.y p.x p).mpr ⟨v, ?_, ?_, ?_, ht⟩⟩
      · obtain ⟨c, hc⟩ := valAt_candidate data w hr p.y p.x hy hx
        rw [hc, valAt_flat data v hflat _ _ c hc]
      · cases p
        simp_all
      · exact noneBelow_flat data v hflat _ _

theorem forRange_nil (fuel : ℕ) (i stop step : ℤ) (h : stop ≤ i) :
    forRange fuel i stop step = [] := by
  cases fuel with
  | zero => rfl
  | succ n => simp [forRange, not_lt.mpr h]

end FlatAndSmall

section ContourTheorems

variable {α : Type} [LinearOrderedField α]

/-- C3: in one cell of the contour tracer, when some corner exceeds the level and some
corner does not, at least one segment is emitted for the cell; when all four corners
exceed the level, or none does, no segment is emitted. -/
theorem contourCell_crossing (level p00 p10 p01 p11 : α) (x y : ℤ) (dataW dataH : ℕ)
    (width height : α) :
    ((level < p00 ∨ level < p10 ∨ level < p01 ∨ level < p11) ∧
        (¬ level < p00 ∨ ¬ level < p10 ∨ ¬ level < p01 ∨ ¬ level < p11) →
      1 ≤ (contourCell level p00 p10 p01 p11 x y dataW dataH width height).length) ∧
    ((level < p00 ∧ level < p10 ∧ level < p01 ∧ level < p11) ∨
        (¬ level < p00 ∧ ¬ level < p10 ∧ ¬ level < p01 ∧ ¬ level < p11) →
      contourCell level p00 p10 p01 p11 x y dataW dataH width height = []) := by
  by_cases h00 : level < p00 <;> by_cases h10 : level < p10 <;>
    by_cases h01 : level < p01 <;> by_cases h11 : level < p11 <;>
    simp [contourCell, cellPoints, h00, h10, h01, h11]

/-- A cell crossed by the level 1000 between its left and its right corners emits a
segment. -/
theorem contourCell_crossing_witness :
    1 ≤ (contourCell (1000 : ℚ) 999 1001 999 1001 0 0 360 180 1200 600).length :=
  (contourCell_crossing (1000 : ℚ) 999 1001 999 1001 0 0 360 180 1200 600).1
    ⟨by norm_num, by norm_num⟩

end ContourTheorems

section ColorTheorems

variable {α : Type} [LinearOrderedField α]

theorem interpolateColorLoop_one (stops : List (ColorStop α)) (last : ColorStop α)
    (hlen : 2 ≤ stops.length) (hp : stops.Pairwise (fun a b => a.stop < b.stop))
    (hl : stops.getLast? = some last) (h1 : last.stop = 1) :
    interpolateColorLoop 1 stops = some last.color := by
  induction stops with
  | nil => simp at hlen
  | cons a tl ih =>
    cases tl with
    | nil => simp at hlen
    | cons b rest =>
      have hab : a.stop < b.stop := (List.pairwise_cons.mp hp).1 b (List.mem_cons_self _ _)
      cases rest with
      | nil =>
        have hb : b = last := by simpa using hl
        subst hb
        have hne : (1 : α) - a.stop ≠ 0 := by
          rw [h1] at hab
          exact sub_ne_zero.mpr (ne_of_gt hab)
        have ha1 : a.stop ≤ 1 := by rw [h1] at hab; exact le_of_lt hab
        simp [interpolateColorLoop, h1, ha1, div_self hne]
      | cons c rest1 =>
        have hp1 : (b :: c :: rest1).Pairwise (fun a b => a.stop < b.stop) :=
          (List.pairwise_cons.mp hp).2
        have hl1 : (b :: c :: rest1).getLast? = some last := by
          simpa [List.getLast?_cons_cons] using hl
        have hmem : last ∈ c :: rest1 := by
          have : (c :: rest1).getLast? = some last := by
            simpa [List.getLast?_cons_cons] using hl1
          exact List.mem_of_getLast?_eq_some this
        have hb1 : b.stop < 1 := h1 ▸ (List.pairwise_cons.mp hp1).1 last hmem
        rw [interpolateColorLoop, if_neg (by
          rintro ⟨_, h⟩
          exact absurd h (not_le.mpr hb1))]
        exact ih (by simp) hp1 hl1

/-- C6: for a valid ramp, `interpolateColor(0, ramp)` is the colour of the first stop and
`interpolateColor(1, ramp)` the colour of the last stop, component for component. -/
theorem interpolateColor_endpoints (stops : List (ColorStop α)) (hv : ValidRamp stops) :
    (∃ first, stops.head? = some first ∧ interpolateColor 0 stops = .ok first.color) ∧
      (∃ last, stops.getLast? = some last ∧ interpolateColor 1 stops = .ok last.color) := by
  obtain ⟨hlen, hp, hfirst, hlast⟩ := hv
  constructor
  · cases stops with
    | nil => simp at hlen
    | cons a tl =>
      cases tl with
      | nil => simp at hlen
      | cons b rest =>
        have ha : a.stop = 0 := by simpa using hfirst
        have hab : a.stop < b.stop := (List.pairwise_cons.mp hp).1 b (List.mem_cons_self _ _)
        rw [ha] at hab
        exact ⟨a, rfl, by simp [interpolateColor, interpolateColorLoop, ha, le_of_lt hab]⟩
  · cases hl : stops.getLast? with
    | none => simp [hl] at hlast
    | some last =>
      have h1 : last.stop = 1 := by simpa [hl] using hlast
      exact ⟨last, rfl, by
        simp [interpolateColor, interpolateColorLoop_one stops last hlen hp hl h1]⟩

theorem validRamp_tempColors : ValidRamp tempColors := by
  unfold ValidRamp tempColors
  refine ⟨by decide, ?_, ?_, ?_⟩
  · simp; norm_num
  · simp; norm_num
  · simp; norm_num

/-- The gradient `tempColors` starts at its deep blue and ends at its dark red. -/
theorem interpolateColor_endpoints_witness :
    ValidRamp tempColors ∧
      (∃ first, tempColors.head? = some first ∧
        interpolateColor 0 tempColors = .ok first.color) ∧
      (∃ last, tempColors.getLast? = some last ∧
        interpolateColor 1 tempColors = .ok last.color) :=
  ⟨validRamp_tempColors, interpolateColor_endpoints tempColors validRamp_tempColors⟩

/-- C5 fails as stated: a value below the first stop does not get the first stop's colour.
On the valid ramp `tempColors`, whose first colour is `(0.1, 0.0, 0.4)`, the value `-1/10`
falls through the loop and gets the last stop's colour `(0.5, 0.0, 0.2)`, the same as the
value `11/10` above the last stop. -/
theorem interpolateColor_below_first_stop :
    ValidRamp tempColors ∧
      tempColors.head?.map (fun s => s.color) = some (0.1, 0.0, 0.4) ∧
      interpolateColor (-1 / 10) tempColors = .ok (0.5, 0.0, 0.2) ∧
      interpolateColor (11 / 10) tempColors = .ok (0.5, 0.0, 0.2) ∧
      ((0.5, 0.0, 0.2) : ℚ × ℚ × ℚ) ≠ (0.1, 0.0, 0.4) := by
  refine ⟨validRamp_tempColors, by simp [tempColors], ?_, ?_, ?_⟩
  · simp [interpolateColor, interpolateColorLoop, tempColors]
    norm_num
  · simp [interpolateColor, interpolateColorLoop, tempColors]
    norm_num
  · norm_num

end ColorTheorems

section SamplerFailures

/-- C4: coordinates outside the grid are not clamped.  On the 2 x 2 field
`[[1, 2], [3, 4]]` a row coordinate `y = 2` (the height) or `y = -1` raises a `TypeError`,
and a column coordinate `x = -1` or `x = 2` (the width) gives `NaN`, whereas the
coordinates clamped into the grid give the numbers 3, 1, 1 and 2. -/
theorem interpolatePressure_out_of_grid :
    interpolatePressure (α := ℚ) [[1, 2], [3, 4]] 0 2 = .error .typeError ∧
      interpolatePressure (α := ℚ) [[1, 2], [3, 4]] 0 1 = .ok (some 3) ∧
      interpolatePressure (α := ℚ) [[1, 2], [3, 4]] 0 (-1) = .error .typeError ∧
      interpolatePressure (α := ℚ) [[1, 2], [3, 4]] 0 0 = .ok (some 1) ∧
      interpolatePressure (α := ℚ) [[1, 2], [3, 4]] (-1) 0 = .ok none ∧
      interpolatePressure (α := ℚ) [[1, 2], [3, 4]] 2 0 = .ok none ∧
      interpolatePressure (α := ℚ) [[1, 2], [3, 4]] 1 0 = .ok (some 2) := by
  refine ⟨rfl, ?_, rfl, ?_, rfl, rfl, ?_⟩ <;>
    simp [interpolatePressure, rowLength, readCell, elemAt, bind, Except.bind, pure,
      Except.pure]

end SamplerFailures

section Scenario

theorem valAt_generate (exp : ℝ → ℝ) (random : ℕ → ℝ) (y x : ℕ) (hy : y < 180)
    (hx : x < 360) :
    valAt (generatePressureData exp random) (y : ℤ) (x : ℤ) =
      some (pressureAt exp (random (y * 360 + x)) x y) := by
  have h1 : ¬ ((y : ℤ) < 0) := by omega
  have h2 : ¬ ((x : ℤ) < 0) := by omega
  simp [valAt, readCell, elemAt, generatePressureData, List.getElem?_map,
    List.getElem?_range, hy, hx, h1, h2]

theorem exp_neg_le_inv (s : ℝ) (hs : 0 ≤ s) : Real.exp (-s) ≤ 1 / (1 + s) := by
  have h := Real.add_one_le_exp s
  rw [Real.exp_neg, one_div]
  exact inv_anti₀ (by linarith) (by linarith)

theorem one_sub_le_exp_neg (s : ℝ) : 1 - s ≤ Real.exp (-s) := by
  have h := Real.add_one_le_exp (-s)
  linarith

theorem exp_neg_le_small (t : ℝ) (ht : 10 ≤ t) : Real.exp (-t) ≤ 1 / 1024 := by
  have h1 : Real.exp (-1) ≤ 1 / 2 := by
    have := exp_neg_le_inv 1 (by norm_num)
    norm_num at this
    linarith
  have h2 : Real.exp (-10) = Real.exp (-1) ^ 10 := by
    rw [← Real.exp_nat_mul]
    norm_num
  have h3 : Real.exp (-1) ^ 10 ≤ (1 / 2) ^ 10 :=
    pow_le_pow_left₀ (le_of_lt (Real.exp_pos _)) h1 10
  calc Real.exp (-t) ≤ Real.exp (-10) := Real.exp_le_exp.mpr (by linarith)
    _ = Real.exp (-1) ^ 10 := h2
    _ ≤ (1 / 2) ^ 10 := h3
    _ = 1 / 1024 := by norm_num

theorem pressure_85_40 :
    pressureAt Real.exp (1 / 2) 85 40 < pressureAt Real.exp (1 / 2) 90 45 := by
  simp only [pressureAt]
  norm_num
  have p1 := Real.exp_pos (-(1 / 8))
  have u1 := exp_neg_le_inv (1 / 8) (by norm_num)
  norm_num at u1
  have l1 := one_sub_le_exp_neg (1 / 8)
  have p2 := Real.exp_pos (-(153 / 7))
  have s2 := exp_neg_le_small (153 / 7) (by norm_num)
  have p3 := Real.exp_pos (-(45 / 2))
  have s3 := exp_neg_le_small (45 / 2) (by norm_num)
  have p4 := Real.exp_pos (-(160 / 7))
  have s4 := exp_neg_le_small (160 / 7) (by norm_num)
  have p5 := Real.exp_pos (-(461 / 18))
  have s5 := exp_neg_le_small (461 / 18) (by norm_num)
  have p6 := Real.exp_pos (-(261 / 4))
  have s6 := exp_neg_le_small (261 / 4) (by norm_num)
  have p7 := Real.exp_pos (-(277 / 4))
  have s7 := exp_neg_le_small (277 / 4) (by norm_num)
  linarith

theorem pressure_100_40 :
    pressureAt Real.exp (1 / 2) 100 40 < pressureAt Real.exp (1 / 2) 95 45 := by
  simp only [pressureAt]
  norm_num
  have p1 := Real.exp_pos (-(1 / 16))
  have u1 := exp_neg_le_inv (1 / 16) (by norm_num)
  norm_num at u1
  have l1 := one_sub_le_exp_neg (1 / 16)
  have p2 := Real.exp_pos (-(5 / 16))
  have u2 := exp_neg_le_inv (5 / 16) (by norm_num)
  norm_num at u2
  have l2 := one_sub_le_exp_neg (5 / 16)
  have p3 := Real.exp_pos (-(178 / 9))
  have s3 := exp_neg_le_small (178 / 9) (by norm_num)
  have p4 := Real.exp_pos (-(185 / 9))
  have s4 := exp_neg_le_small (185 / 9) (by norm_num)
  have p5 := Real.exp_pos (-(325 / 14))
  have s5 := exp_neg_le_small (325 / 14) (by norm_num)
  have p6 := Real.exp_pos (-(377 / 14))
  have s6 := exp_neg_le_small (377 / 14) (by norm_num)
  have p7 := Real.exp_pos (-(293 / 5))
  have s7 := exp_neg_le_small (293 / 5) (by norm_num)
  have p8 := Real.exp_pos (-(617 / 10))
  have s8 := exp_neg_le_small (617 / 10) (by norm_num)
  linarith

theorem pressure_85_55 :
    pressureAt Real.exp (1 / 2) 85 55 < pressureAt Real.exp (1 / 2) 90 50 := by
  simp only [pressureAt]
  norm_num
  have p1 := Real.exp_pos (-(1 / 16))
  have u1 := exp_neg_le_inv (1 / 16) (by norm_num)
  norm_num at u1
  have l1 := one_sub_le_exp_neg (1 / 16)
  have p2 := Real.exp_pos (-(5 / 16))
  have u2 := exp_neg_le_inv (5 / 16) (by norm_num)
  norm_num at u2
  have l2 := one_sub_le_exp_neg (5 / 16)
  have p3 := Real.exp_pos (-(233 / 14))
  have s3 := exp_neg_le_small (233 / 14) (by norm_num)
  have p4 := Real.exp_pos (-(277 / 14))
  have s4 := exp_neg_le_small (277 / 14) (by norm_num)
  have p5 := Real.exp_pos (-(194 / 9))
  have s5 := exp_neg_le_small (194 / 9) (by norm_num)
  have p6 := Real.exp_pos (-(205 / 9))
  have s6 := exp_neg_le_small (205 / 9) (by norm_num)
  have p7 := Real.exp_pos (-65)
  have s7 := exp_neg_le_small 65 (by norm_num)
  have p8 := Real.exp_pos (-(137 / 2))
  have s8 := exp_neg_le_small (137 / 2) (by norm_num)
  linarith

theorem pressure_100_55 :
    pressureAt Real.exp (1 / 2) 100 55 < pressureAt Real.exp (1 / 2) 95 50 := by
  simp only [pressureAt]
  norm_num
  have p1 := Real.exp_pos (-(1 / 8))
  have u1 := exp_neg_le_inv (1 / 8) (by norm_num)
  norm_num at u1
  have l1 := one_sub_le_exp_neg (1 / 8)
  have p2 := Real.exp_pos (-(1 / 2))
  have u2 := exp_neg_le_inv (1 / 2) (by norm_num)
  norm_num at u2
  have l2 := one_sub_le_exp_neg (1 / 2)
  have p3 := Real.exp_pos (-(305 / 18))
  have s3 := exp_neg_le_small (305 / 18) (by norm_num)
  have p4 := Real.exp_pos (-(353 / 18))
  have s4 := exp_neg_le_small (353 / 18) (by norm_num)
  have p5 := Real.exp_pos (-(145 / 7))
  have s5 := exp_neg_le_small (145 / 7) (by norm_num)
  have p6 := Real.exp_pos (-(148 / 7))
  have s6 := exp_neg_le_small (148 / 7) (by norm_num)
  have p7 := Real.exp_pos (-(1157 / 20))
  have s7 := exp_neg_le_small (1157 / 20) (by norm_num)
  have p8 := Real.exp_pos (-(1229 / 20))
  have s8 := exp_neg_le_small (1229 / 20) (by norm_num)
  linarith

theorem pressure_175_85 :
    pressureAt Real.exp (1 / 2) 180 90 < pressureAt Real.exp (1 / 2) 175 85 := by
  simp only [pressureAt]
  norm_num
  have p1 := Real.exp_pos (-(1 / 9))
  have u1 := exp_neg_le_inv (1 / 9) (by norm_num)
  norm_num at u1
  have l1 := one_sub_le_exp_neg (1 / 9)
  have p2 := Real.exp_pos (-18)
  have s2 := exp_neg_le_small 18 (by norm_num)
  have p3 := Real.exp_pos (-(193 / 10))
  have s3 := exp_neg_le_small (193 / 10) (by norm_num)
  have p4 := Real.exp_pos (-(353 / 16))
  have s4 := exp_neg_le_small (353 / 16) (by norm_num)
  have p5 := Real.exp_pos (-(405 / 16))
  have s5 := exp_neg_le_small (405 / 16) (by norm_num)
  have p6 := Real.exp_pos (-(725 / 14))
  have s6 := exp_neg_le_small (725 / 14) (by norm_num)
  have p7 := Real.exp_pos (-(765 / 14))
  have s7 := exp_neg_le_small (765 / 14) (by norm_num)
  linarith

theorem pressure_190_85 :
    pressureAt Real.exp (1 / 2) 185 90 < pressureAt Real.exp (1 / 2) 190 85 := by
  simp only [pressureAt]
  norm_num
  have p1 := Real.exp_pos (-(1 / 18))
  have u1 := exp_neg_le_inv (1 / 18) (by norm_num)
  norm_num at u1
  have l1 := one_sub_le_exp_neg (1 / 18)
  have p2 := Real.exp_pos (-(5 / 18))
  have u2 := exp_neg_le_inv (5 / 18) (by norm_num)
  norm_num at u2
  have l2 := one_sub_le_exp_neg (5 / 18)
  have p3 := Real.exp_pos (-(281 / 20))
  have s3 := exp_neg_le_small (281 / 20) (by norm_num)
  have p4 := Real.exp_pos (-(65 / 4))
  have s4 := exp_neg_le_small (65 / 4) (by norm_num)
  have p5 := Real.exp_pos (-(221 / 8))
  have s5 := exp_neg_le_small (221 / 8) (by norm_num)
  have p6 := Real.exp_pos (-29)
  have s6 := exp_neg_le_small 29 (by norm_num)
  have p7 := Real.exp_pos (-(410 / 7))
  have s7 := exp_neg_le_small (410 / 7) (by norm_num)
  have p8 := Real.exp_pos (-(445 / 7))
  have s8 := exp_neg_le_small (445 / 7) (by norm_num)
  linarith

theorem pressure_175_100 :
    pressureAt Real.exp (1 / 2) 180 95 < pressureAt Real.exp (1 / 2) 175 100 := by
  simp only [pressureAt]
  norm_num
  have p1 := Real.exp_pos (-(1 / 18))
  have u1 := exp_neg_le_inv (1 / 18) (by norm_num)
  norm_num at u1
  have l1 := one_sub_le_exp_neg (1 / 18)
  have p2 := Real.exp_pos (-(5 / 18))
  have u2 := exp_neg_le_inv (5 / 18) (by norm_num)
  norm_num at u2
  have l2 := one_sub_le_exp_neg (5 / 18)
  have p3 := Real.exp_pos (-(373 / 20))
  have s3 := exp_neg_le_small (373 / 20) (by norm_num)
  have p4 := Real.exp_pos (-(85 / 4))
  have s4 := exp_neg_le_small (85 / 4) (by norm_num)
  have p5 := Real.exp_pos (-(205 / 8))
  have s5 := exp_neg_le_small (205 / 8) (by norm_num)
  have p6 := Real.exp_pos (-(53 / 2))
  have s6 := exp_neg_le_small (53 / 2) (by norm_num)
  have p7 := Real.exp_pos (-(346 / 7))
  have s7 := exp_neg_le_small (346 / 7) (by norm_num)
  have p8 := Real.exp_pos (-(377 / 7))
  have s8 := exp_neg_le_small (377 / 7) (by norm_num)
  linarith

theorem pressure_190_100 :
    pressureAt Real.exp (1 / 2) 185 95 < pressureAt Real.exp (1 / 2) 190 100 := by
  simp only [pressureAt]
  norm_num
  have p1 := Real.exp_pos (-(1 / 9))
  have u1 := exp_neg_le_inv (1 / 9) (by norm_num)
  norm_num at u1
  have l1 := one_sub_le_exp_neg (1 / 9)
  have p2 := Real.exp_pos (-(4 / 9))
  have u2 := exp_neg_le_inv (4 / 9) (by norm_num)
  norm_num at u2
  have l2 := one_sub_le_exp_neg (4 / 9)
  have p3 := Real.exp_pos (-16)
  have s3 := exp_neg_le_small 16 (by norm_num)
  have p4 := Real.exp_pos (-(169 / 10))
  have s4 := exp_neg_le_small (169 / 10) (by norm_num)
  have p5 := Real.exp_pos (-(461 / 16))
  have s5 := exp_neg_le_small (461 / 16) (by norm_num)
  have p6 := Real.exp_pos (-(521 / 16))
  have s6 := exp_neg_le_small (521 / 16) (by norm_num)
  have p7 := Real.exp_pos (-(809 / 14))
  have s7 := exp_neg_le_small (809 / 14) (by norm_num)
  have p8 := Real.exp_pos (-(857 / 14))
  have s8 := exp_neg_le_small (857 / 14) (by norm_num)
  linarith


theorem valAt_noiseless (y x : ℕ) (hy : y < 180) (hx : x < 360) :
    valAt (generatePressureData Real.exp (fun _ => 1 / 2)) (y : ℤ) (x : ℤ) =
      some (pressureAt Real.exp (1 / 2) x y) :=
  valAt_generate Real.exp (fun _ => 1 / 2) y x hy hx

theorem noiseless_not_high (y x y1 x1 : ℕ) (d : ℤ × ℤ) (hd : d ∈ neighbourOffsets)
    (hy : y < 180) (hx : x < 360) (hy1 : y1 < 180) (hx1 : x1 < 360)
    (hdy : (y : ℤ) + d.1 = y1) (hdx : (x : ℤ) + d.2 = x1)
    (hlt : pressureAt Real.exp (1 / 2) x y < pressureAt Real.exp (1 / 2) x1 y1) (c : ℝ)
    (hv : valAt (generatePressureData Real.exp (fun _ => 1 / 2)) (y : ℤ) (x : ℤ) = some c) :
    noneAbove (generatePressureData Real.exp (fun _ => 1 / 2)) (y : ℤ) (x : ℤ) c ≠ true := by
  intro h
  have hc : c = pressureAt Real.exp (1 / 2) x y := by
    rw [valAt_noiseless y x hy hx] at hv
    exact (Option.some.inj hv).symm
  have := (List.all_eq_true.mp h) d hd
  rw [hdy, hdx, valAt_noiseless y1 x1 hy1 hx1, hc] at this
  simp only [jsGt, Bool.not_eq_true', decide_eq_false_iff_not] at this
  exact this hlt

theorem noiseless_not_low (y x y1 x1 : ℕ) (d : ℤ × ℤ) (hd : d ∈ neighbourOffsets)
    (hy : y < 180) (hx : x < 360) (hy1 : y1 < 180) (hx1 : x1 < 360)
    (hdy : (y : ℤ) + d.1 = y1) (hdx : (x : ℤ) + d.2 = x1)
    (hlt : pressureAt Real.exp (1 / 2) x1 y1 < pressureAt Real.exp (1 / 2) x y) (c : ℝ)
    (hv : valAt (generatePressureData Real.exp (fun _ => 1 / 2)) (y : ℤ) (x : ℤ) = some c) :
    noneBelow (generatePressureData Real.exp (fun _ => 1 / 2)) (y : ℤ) (x : ℤ) c ≠ true := by
  intro h
  have hc : c = pressureAt Real.exp (1 / 2) x y := by
    rw [valAt_noiseless y x hy hx] at hv
    exact (Option.some.inj hv).symm
  have := (List.all_eq_true.mp h) d hd
  rw [hdy, hdx, valAt_noiseless y1 x1 hy1 hx1, hc] at this
  simp only [jsLt, Bool.not_eq_true', decide_eq_false_iff_not] at this
  exact this hlt

theorem diagonal_offsets :
    ((5, 5) : ℤ × ℤ) ∈ neighbourOffsets ∧ ((5, -5) : ℤ × ℤ) ∈ neighbourOffsets ∧
      ((-5, 5) : ℤ × ℤ) ∈ neighbourOffsets ∧ ((-5, -5) : ℤ × ℤ) ∈ neighbourOffsets := by
  decide

/-- C10: on the 360 x 180 field generated with the jitter term 0 (`Math.random()` giving
0.5 for every cell, `Math.exp` the real exponential) `findExtrema` returns, but no point of
`highs` lies within 15 cells of `(90, 45)` in each axis and no point of `lows` lies within
15 cells of `(180, 90)`: the only candidates there are `(85|100, 40|55)` and
`(175|190, 85|100)`, and each has a strictly larger (smaller) neighbour towards the centre
of the system. -/
theorem findExtrema_noiseless_misses_systems :
    ∃ ext, findExtrema (generatePressureData Real.exp (fun _ => 1 / 2)) = .ok ext ∧
      (∀ p ∈ ext.highs, ¬ (|p.x - 90| ≤ 15 ∧ |p.y - 45| ≤ 15)) ∧
      (∀ p ∈ ext.lows, ¬ (|p.x - 180| ≤ 15 ∧ |p.y - 90| ≤ 15)) := by
  obtain ⟨d1, d2, d3, d4⟩ := diagonal_offsets
  refine ⟨_, findExtrema_eq _, ?_, ?_⟩
  · rintro p hp ⟨hx, hy⟩
    obtain ⟨hyc, hxc, hv, ha, _⟩ := mem_highs _ _ (findExtrema_eq _) p hp
    obtain ⟨_, _, ky, hky⟩ := candidateRows_bounds _ _ hyc
    obtain ⟨_, _, kx, hkx⟩ := candidateCols_bounds _ _ hxc
    rw [abs_le] at hx hy
    have hx1 : p.x = 85 ∨ p.x = 100 := by omega
    have hy1 : p.y = 40 ∨ p.y = 55 := by omega
    rcases hx1 with hx1 | hx1 <;> rcases hy1 with hy1 | hy1 <;> rw [hx1, hy1] at hv ha
    · exact noiseless_not_high 40 85 45 90 (5, 5) d1 (by norm_num) (by norm_num)
        (by norm_num) (by norm_num) (by norm_num) (by norm_num) pressure_85_40 p.value hv ha
    · exact noiseless_not_high 55 85 50 90 (-5, 5) d3 (by norm_num) (by norm_num)
        (by norm_num) (by norm_num) (by norm_num) (by norm_num) pressure_85_55 p.value hv ha
    · exact noiseless_not_high 40 100 45 95 (5, -5) d2 (by norm_num) (by norm_num)
        (by norm_num) (by norm_num) (by norm_num) (by norm_num) pressure_100_40 p.value hv ha
    · exact noiseless_not_high 55 100 50 95 (-5, -5) d4 (by norm_num) (by norm_num)
        (by norm_num) (by norm_num) (by norm_num) (by norm_num) pressure_100_55 p.value hv ha
  · rintro p hp ⟨hx, hy⟩
    obtain ⟨hyc, hxc, hv, ha, _⟩ := mem_lows _ _ (findExtrema_eq _) p hp
    obtain ⟨_, _, ky, hky⟩ := candidateRows_bounds _ _ hyc
    obtain ⟨_, _, kx, hkx⟩ := candidateCols_bounds _ _ hxc
    rw [abs_le] at hx hy
    have hx1 : p.x = 175 ∨ p.x = 190 := by omega
    have hy1 : p.y = 85 ∨ p.y = 100 := by omega
    rcases hx1 with hx1 | hx1 <;> rcases hy1 with hy1 | hy1 <;> rw [hx1, hy1] at hv ha
    · exact noiseless_not_low 85 175 90 180 (5, 5) d1 (by norm_num) (by norm_num)
        (by norm_num) (by norm_num) (by norm_num) (by norm_num) pressure_175_85 p.value hv ha
    · exact noiseless_not_low 100 175 95 180 (-5, 5) d3 (by norm_num) (by norm_num)
        (by norm_num) (by norm_num) (by norm_num) (by norm_num) pressure_175_100 p.value hv ha
    · exact noiseless_not_low 85 190 90 185 (5, -5) d2 (by norm_num) (by norm_num)
        (by norm_num) (by norm_num) (by norm_num) (by norm_num) pressure_190_85 p.value hv ha
    · exact noiseless_not_low 100 190 95 185 (-5, -5) d4 (by norm_num) (by norm_num)
        (by norm_num) (by norm_num) (by norm_num) (by norm_num) pressure_190_100 p.value hv ha

end Scenario

section Witnesses

theorem rect_flatField {α : Type} (h w : ℕ) (v : α) : Rect (flatField h w v) w := by
  intro row hrow
  rw [flatField, List.mem_replicate] at hrow
  rw [hrow.2, List.length_replicate]

theorem flat_flatField {α : Type} (h w : ℕ) (v : α) :
    ∀ row ∈ flatField h w v, ∀ c ∈ row, c = v := by
  intro row hrow c hc
  rw [flatField, List.mem_replicate] at hrow
  rw [hrow.2, List.mem_replicate] at hc
  exact hc.2

theorem rect_peakField : Rect peakField 21 := by
  intro row hrow
  simp only [peakField, List.mem_map] at hrow
  obtain ⟨y, _, rfl⟩ := hrow
  simp

theorem rect_sample : Rect ([[1, 2], [3, 4]] : List (List ℚ)) 2 := by
  intro row hrow
  simp at hrow
  rcases hrow with rfl | rfl <;> rfl

/-- On the 2 x 2 field `[[1, 2], [3, 4]]` the sample at the grid point `(0, 1)` is the cell
`data[1][0]`. -/
theorem interpolatePressure_grid_point_witness :
    Rect ([[1, 2], [3, 4]] : List (List ℚ)) 2 ∧
      ∃ v, readCell ([[1, 2], [3, 4]] : List (List ℚ)) 1 0 = .ok (some v) ∧
        interpolatePressure ([[1, 2], [3, 4]] : List (List ℚ)) ((0 : ℤ) : ℚ) ((1 : ℤ) : ℚ) =
          .ok (some v) :=
  ⟨rect_sample,
    interpolatePressure_grid_point [[1, 2], [3, 4]] 2 rect_sample 0 1 (by decide) (by decide)
      (by decide) (by decide)⟩

/-- The field `peakField` is rectangular, so its reported points are weak extrema. -/
theorem findExtrema_weak_extrema_witness :
    Rect peakField 21 ∧
      ∃ ext, findExtrema peakField = .ok ext ∧
        (∀ p ∈ ext.highs, readCell peakField p.y p.x = .ok (some p.value) ∧
          ∀ d ∈ neighbourOffsets,
            ∃ n, readCell peakField (p.y + d.1) (p.x + d.2) = .ok (some n) ∧ n ≤ p.value) ∧
        (∀ p ∈ ext.lows, readCell peakField p.y p.x = .ok (some p.value) ∧
          ∀ d ∈ neighbourOffsets,
            ∃ n, readCell peakField (p.y + d.1) (p.x + d.2) = .ok (some n) ∧ p.value ≤ n) :=
  ⟨rect_peakField, findExtrema_weak_extrema peakField 21 rect_peakField⟩

/-- C2 fails as stated: on `plateauField` the centre `(10, 10)` is reported as a high with
value 1030 although its right neighbour `(11, 10)` holds 1030 as well. -/
theorem findExtrema_not_strict :
    ¬ ∀ ext, findExtrema plateauField = .ok ext →
      ∀ p ∈ ext.highs, ∀ d ∈ neighbourOffsets, ∀ n,
        readCell plateauField (p.y + d.1) (p.x + d.2) = .ok (some n) → n < p.value := by
  intro h
  have hrun : findExtrema plateauField = .ok ⟨[⟨10, 10, 1030⟩], []⟩ := by rfl
  have hd : ((0, 1) : ℤ × ℤ) ∈ neighbourOffsets := by decide
  have hread : readCell plateauField (10 + 0) (10 + 1) = .ok (some 1030) := by rfl
  exact absurd (h _ hrun ⟨10, 10, 1030⟩ (List.mem_singleton.mpr rfl) (0, 1) hd 1030 hread)
    (lt_irrefl _)

/-- The flat 21 x 21 field at 1010 lies between the thresholds: nothing is reported. -/
theorem findExtrema_flat_witness :
    Rect (flatField 21 21 (1010 : ℚ)) 21 ∧
      ∃ ext, findExtrema (flatField 21 21 (1010 : ℚ)) = .ok ext ∧
        (∀ p, p ∈ ext.highs ↔
          (1020 : ℚ) < 1010 ∧ p.value = 1010 ∧ p.y ∈ candidateRows (flatField 21 21 (1010 : ℚ)) ∧
            p.x ∈ candidateCols (flatField 21 21 (1010 : ℚ))) ∧
        (∀ p, p ∈ ext.lows ↔
          (1010 : ℚ) < 1005 ∧ p.value = 1010 ∧ p.y ∈ candidateRows (flatField 21 21 (1010 : ℚ)) ∧
            p.x ∈ candidateCols (flatField 21 21 (1010 : ℚ))) :=
  ⟨rect_flatField 21 21 1010,
    findExtrema_flat (flatField 21 21 (1010 : ℚ)) 21 1010 (rect_flatField 21 21 1010)
      (flat_flatField 21 21 1010)⟩

/-- C8 fails as stated: the flat 21 x 21 field at 1021 yields a high at `(10, 10)`, and the
flat field at 1000 a low. -/
theorem findExtrema_flat_reports :
    findExtrema (flatField 21 21 (1021 : ℚ)) = .ok ⟨[⟨10, 10, 1021⟩], []⟩ ∧
      findExtrema (flatField 21 21 (1000 : ℚ)) = .ok ⟨[], [⟨10, 10, 1000⟩]⟩ :=
  ⟨rfl, rfl⟩

end Witnesses

/-! ## The contour tracer on a rectangular field -/

section TraceLemmas

variable {α : Type} [LinearOrderedField α]

omit [LinearOrderedField α] in
theorem mem_of_valAt (data : List (List α)) (y x : ℤ) (v : α) (h : valAt data y x = some v) :
    ∃ row ∈ data, v ∈ row := by
  unfold valAt readCell at h
  cases hrow : elemAt data y with
  | none => simp [hrow] at h
  | some row =>
    simp only [hrow] at h
    exact ⟨row, mem_of_elemAt data y row hrow, mem_of_elemAt row x v h⟩

theorem isobarCell_eq (data : List (List α)) (w : ℕ) (hr : Rect data w)
    (level width height : α) (y x : ℤ) (hy0 : 0 ≤ y) (hy1 : y + 1 < data.length)
    (hx0 : 0 ≤ x) (hx1 : x + 1 < w) :
    isobarCell data level width height y x =
      .ok (some (cellSegs data level width height y x)) := by
  obtain ⟨a, ha⟩ := readCell_of_rect data w hr y x hy0 (by omega) hx0 (by omega)
  obtain ⟨b, hb⟩ := readCell_of_rect data w hr y (x + 1) hy0 (by omega) (by omega) hx1
  obtain ⟨c, hc⟩ := readCell_of_rect data w hr (y + 1) x (by omega) hy1 hx0 (by omega)
  obtain ⟨d, hd⟩ := readCell_of_rect data w hr (y + 1) (x + 1) (by omega) hy1 (by omega) hx1
  have hw := rowLength_eq_widthOf data (by omega)
  simp [isobarCell, cellSegs, ha, hb, hc, hd, hw, (valAt_eq_some_iff data _ _ _).mpr ha,
    (valAt_eq_some_iff data _ _ _).mpr hb, (valAt_eq_some_iff data _ _ _).mpr hc,
    (valAt_eq_some_iff data _ _ _).mpr hd, bind, Except.bind, pure, Except.pure]

theorem traceRow_eq (data : List (List α)) (w : ℕ) (hr : Rect data w)
    (level width height : α) (y : ℤ) (hy0 : 0 ≤ y) (hy1 : y + 1 < data.length)
    (xs : List ℤ) (acc : List (Segment α)) (hxs : ∀ x ∈ xs, 0 ≤ x ∧ x + 1 < w) :
    traceRow data level width height y xs acc =
      .ok (some (acc ++ xs.flatMap (cellSegs data level width height y))) := by
  induction xs generalizing acc with
  | nil => simp [traceRow]
  | cons x xs ih =>
    have hx := hxs x (List.mem_cons_self _ _)
    rw [traceRow, isobarCell_eq data w hr level width height y x hy0 hy1 hx.1 hx.2]
    simp only
    rw [ih _ (fun z hz => hxs z (List.mem_cons_of_mem _ hz))]
    simp [List.append_assoc]

omit [LinearOrderedField α] in
theorem cellRows_bounds (data : List (List α)) (y : ℤ) (hy : y ∈ cellRows data) :
    0 ≤ y ∧ y + 1 < data.length := by
  have := forRange_sound _ _ _ _ y (by norm_num) hy
  omega

omit [LinearOrderedField α] in
theorem cellCols_bounds (data : List (List α)) (x : ℤ) (hx : x ∈ cellCols data) :
    0 ≤ x ∧ x + 1 < widthOf data := by
  have := forRange_sound _ _ _ _ x (by norm_num) hx
  omega

theorem traceRows_eq (data : List (List α)) (w : ℕ) (hr : Rect data w)
    (level width height : α) (ys : List ℤ) (acc : List (Segment α))
    (hys : ∀ y ∈ ys, 0 ≤ y ∧ y + 1 < data.length) :
    traceRows data level width height ys acc =
      .ok (some (acc ++ ys.flatMap fun y =>
        (cellCols data).flatMap (cellSegs data level width height y))) := by
  induction ys generalizing acc with
  | nil => simp [traceRows]
  | cons y ys ih =>
    have hy := hys y (List.mem_cons_self _ _)
    have hw : widthOf data = w := widthOf_of_rect data w hr (by omega)
    rw [traceRows, rowLength_eq_widthOf data (by omega)]
    simp only
    rw [show forRange (widthOf data).toNat 0 (widthOf data - 1) 1 = cellCols data from rfl,
      traceRow_eq data w hr level width height y hy.1 hy.2 _ acc (fun x hx => by
        have := cellCols_bounds data x hx
        omega)]
    simp only
    rw [ih _ (fun z hz => hys z (List.mem_cons_of_mem _ hz))]
    simp [List.append_assoc]

/-- On a rectangular field the cell loops never raise: they return the cells' segments in
loop order. -/
theorem traceLevel_eq (data : List (List α)) (w : ℕ) (hr : Rect data w)
    (level width height : α) :
    traceLevel data level width height =
      .ok (some ((cellRows data).flatMap fun y =>
        (cellCols data).flatMap (cellSegs data level width height y))) := by
  unfold traceLevel
  rw [show forRange data.length 0 ((data.length : ℤ) - 1) 1 = cellRows data from rfl,
    traceRows_eq data w hr level width height (cellRows data) []
      (fun y hy => cellRows_bounds data y hy)]
  simp

theorem contourCell_nil_of_none_above (level p00 p10 p01 p11 : α) (x y : ℤ)
    (dataW dataH : ℕ) (width height : α) (h00 : ¬ level < p00) (h10 : ¬ level < p10)
    (h01 : ¬ level < p01) (h11 : ¬ level < p11) :
    contourCell level p00 p10 p01 p11 x y dataW dataH width height = [] := by
  simp [contourCell, h00, h10, h01, h11]

theorem contourCell_nil_of_all_above (level p00 p10 p01 p11 : α) (x y : ℤ)
    (dataW dataH : ℕ) (width height : α) (h00 : level < p00) (h10 : level < p10)
    (h01 : level < p01) (h11 : level < p11) :
    contourCell level p00 p10 p01 p11 x y dataW dataH width height = [] := by
  simp [contourCell, h00, h10, h01, h11]

theorem cellSegs_nil_of_none_above (data : List (List α)) (level width height : α)
    (h : ∀ row ∈ data, ∀ v ∈ row, ¬ level < v) (y x : ℤ) :
    cellSegs data level width height y x = [] := by
  have key : ∀ (r c : ℤ) (v : α), valAt data r c = some v → ¬ level < v := by
    intro r c v hv
    obtain ⟨row, hrow, hmem⟩ := mem_of_valAt data r c v hv
    exact h row hrow v hmem
  unfold cellSegs
  split
  · next a b c d ha hb hc hd =>
    exact contourCell_nil_of_none_above _ _ _ _ _ _ _ _ _ _ _ (key _ _ _ ha) (key _ _ _ hb)
      (key _ _ _ hc) (key _ _ _ hd)
  · rfl

theorem cellSegs_nil_of_all_above (data : List (List α)) (level width height : α)
    (h : ∀ row ∈ data, ∀ v ∈ row, level < v) (y x : ℤ) :
    cellSegs data level width height y x = [] := by
  have key : ∀ (r c : ℤ) (v : α), valAt data r c = some v → level < v := by
    intro r c v hv
    obtain ⟨row, hrow, hmem⟩ := mem_of_valAt data r c v hv
    exact h row hrow v hmem
  unfold cellSegs
  split
  · next a b c d ha hb hc hd =>
    exact contourCell_nil_of_all_above _ _ _ _ _ _ _ _ _ _ _ (key _ _ _ ha) (key _ _ _ hb)
      (key _ _ _ hc) (key _ _ _ hd)
  · rfl

omit [LinearOrderedField α] in
theorem flatMap_nil_of_forall {β γ : Type} (l : List β) (f : β → List γ)
    (h : ∀ a ∈ l, f a = []) : l.flatMap f = [] := by
  induction l with
  | nil => rfl
  | cons a l ih =>
    rw [List.flatMap_cons, h a (List.mem_cons_self _ _),
      ih (fun b hb => h b (List.mem_cons_of_mem _ hb))]
    rfl

/-- C12: on a rectangular field, for a level strictly greater than every value of the
field, or strictly less than every value, the contour tracer emits no segment over the
whole grid. -/
theorem traceLevel_outside_range (data : List (List α)) (w : ℕ) (hr : Rect data w)
    (level width height : α)
    (h : (∀ row ∈ data, ∀ v ∈ row, v < level) ∨ (∀ row ∈ data, ∀ v ∈ row, level < v)) :
    traceLevel data level width height = .ok (some []) := by
  rw [traceLevel_eq data w hr]
  congr 2
  apply flatMap_nil_of_forall
  intro y _
  apply flatMap_nil_of_forall
  intro x _
  rcases h with h | h
  · exact cellSegs_nil_of_none_above data level width height
      (fun row hrow v hv => not_lt.mpr (le_of_lt (h row hrow v hv))) y x
  · exact cellSegs_nil_of_all_above data level width height h y x

end TraceLemmas

section LatitudeScenario

theorem traceLevel_nil_of_none_above {α : Type} [LinearOrderedField α]
    (data : List (List α)) (w : ℕ) (hr : Rect data w) (level width height : α)
    (h : ∀ row ∈ data, ∀ v ∈ row, ¬ level < v) :
    traceLevel data level width height = .ok (some []) := by
  rw [traceLevel_eq data w hr]
  congr 2
  exact flatMap_nil_of_forall _ _ fun y _ => flatMap_nil_of_forall _ _ fun c _ =>
    cellSegs_nil_of_none_above data level width height h y c

theorem rect_latitudeField : Rect latitudeField 360 := by
  intro row hrow
  simp only [latitudeField, List.mem_map] at hrow
  obtain ⟨y, _, rfl⟩ := hrow
  simp only [List.length_map, List.length_range]

theorem latitudeField_le (row : List ℚ) (hrow : row ∈ latitudeField) (v : ℚ) (hv : v ∈ row) :
    ¬ (1013 : ℚ) < v := by
  simp only [latitudeField, List.mem_map] at hrow
  obtain ⟨y, _, rfl⟩ := hrow
  simp only [List.mem_map] at hv
  obtain ⟨x, _, rfl⟩ := hv
  have := abs_nonneg (latitudeOf y : ℚ)
  norm_num

theorem readCell_latitudeField (y x : ℕ) (hy : y < 180) (hx : x < 360) :
    readCell latitudeField (y : ℤ) (x : ℤ) = .ok (some (1013 - |latitudeOf y| * 0.15)) := by
  have h1 : ¬ ((y : ℤ) < 0) := by omega
  have h2 : ¬ ((x : ℤ) < 0) := by omega
  simp only [readCell, elemAt, latitudeField, List.getElem?_map, List.getElem?_range hy,
    List.getElem?_range hx, h1, h2, if_false, Int.toNat_ofNat, Option.map_some']

theorem isobarCell_latitudeField (level width height : ℚ) (y x : ℕ) (hy : y + 1 < 180)
    (hx : x + 1 < 360) :
    isobarCell latitudeField level width height (y : ℤ) (x : ℤ) =
      .ok (some (contourCell level (1013 - |latitudeOf y| * 0.15)
        (1013 - |latitudeOf y| * 0.15) (1013 - |latitudeOf (y + 1)| * 0.15)
        (1013 - |latitudeOf (y + 1)| * 0.15) x y 360 180 width height)) := by
  have a := readCell_latitudeField y x (by omega) (by omega)
  have b := readCell_latitudeField y (x + 1) (by omega) (by omega)
  have c := readCell_latitudeField (y + 1) x (by omega) (by omega)
  have d := readCell_latitudeField (y + 1) (x + 1) (by omega) (by omega)
  push_cast at a b c d
  have hw : rowLength latitudeField = .ok 360 := by
    simpa using rowLength_of_rect latitudeField 360 rect_latitudeField (by simp only [latitudeField, List.length_map, List.length_range]; norm_num)
  have hlen : latitudeField.length = 180 := by
    simp only [latitudeField, List.length_map, List.length_range]
  simp [isobarCell, a, b, c, d, hw, hlen, bind, Except.bind, pure, Except.pure]

/-- C11 (amended): on the 360 x 180 field `1013 - 0.15 * |90 - y|` the tracer emits no
segment at all at level 1013 (no value exceeds 1013 and the test is strict), while at the
traced level 1012 every cell of row 83, north of the equator row 90, and every cell of
row 96, south of it, emits one horizontal segment: two horizontal bands. -/
theorem latitudeField_bands (width height : ℚ) (x : ℕ) (hx : x + 1 < 360) :
    traceLevel latitudeField 1013 width height = .ok (some []) ∧
      isobarCell latitudeField 1012 width height 83 (x : ℤ) =
        .ok (some [⟨((x : ℚ) + 1) / 360 * width, 25 / 54 * height,
          (x : ℚ) / 360 * width, 25 / 54 * height⟩]) ∧
      isobarCell latitudeField 1012 width height 96 (x : ℤ) =
        .ok (some [⟨((x : ℚ) + 1) / 360 * width, 29 / 54 * height,
          (x : ℚ) / 360 * width, 29 / 54 * height⟩]) := by
  refine ⟨?_, ?_, ?_⟩
  · exact traceLevel_nil_of_none_above latitudeField 360 rect_latitudeField 1013 width height
      latitudeField_le
  · have h := isobarCell_latitudeField 1012 width height 83 x (by norm_num) hx
    norm_num [latitudeOf, contourCell, cellPoints] at h
    exact h
  · have h := isobarCell_latitudeField 1012 width height 96 x (by norm_num) hx
    norm_num [latitudeOf, contourCell, cellPoints] at h
    exact h

/-- At level 1012 the cell `(5, 83)` of the latitude field, drawn on a 1200 x 600 canvas,
emits the horizontal segment from `(20, 2500/9)` to `(50/3, 2500/9)`. -/
theorem latitudeField_bands_witness :
    traceLevel latitudeField 1013 1200 600 = .ok (some []) ∧
      isobarCell latitudeField 1012 1200 600 83 ((5 : ℕ) : ℤ) =
        .ok (some [⟨(((5 : ℕ) : ℚ) + 1) / 360 * 1200, 25 / 54 * 600,
          ((5 : ℕ) : ℚ) / 360 * 1200, 25 / 54 * 600⟩]) ∧
      isobarCell latitudeField 1012 1200 600 96 ((5 : ℕ) : ℤ) =
        .ok (some [⟨(((5 : ℕ) : ℚ) + 1) / 360 * 1200, 29 / 54 * 600,
          ((5 : ℕ) : ℚ) / 360 * 1200, 29 / 54 * 600⟩]) :=
  latitudeField_bands 1200 600 5 (by decide)

/-- C11 fails as stated: at level 1013 the tracer emits nothing on the latitude field, in
particular nothing in the cells of rows 89 and 90 on either side of the equator row. -/
theorem latitudeField_no_segment_at_1013 :
    traceLevel latitudeField 1013 1200 600 = .ok (some []) ∧
      isobarCell latitudeField 1013 1200 600 89 0 = .ok (some []) ∧
      isobarCell latitudeField 1013 1200 600 90 0 = .ok (some []) := by
  refine ⟨?_, ?_, ?_⟩
  · exact traceLevel_nil_of_none_above latitudeField 360 rect_latitudeField 1013 1200 600
      latitudeField_le
  · have h := isobarCell_latitudeField 1013 1200 600 89 0 (by norm_num) (by norm_num)
    norm_num [latitudeOf, contourCell, cellPoints] at h
    exact h
  · have h := isobarCell_latitudeField 1013 1200 600 90 0 (by norm_num) (by norm_num)
    norm_num [latitudeOf, contourCell, cellPoints] at h
    exact h

end LatitudeScenario

section SamplerFormula

variable {α : Type} [LinearOrderedField α] [FloorRing α]

/-- C13: on a rectangular field, for `0 ≤ x ≤ width - 1` and `0 ≤ y ≤ height - 1`, the four
corner reads at `x0 = floor(x)`, `x1 = min(x0 + 1, width - 1)`, `y0 = floor(y)`,
`y1 = min(y0 + 1, height - 1)` hold numbers and `interpolatePressure` returns their
bilinear combination with the weights `fx = x - x0`, `fy = y - y0`. -/
theorem interpolatePressure_bilinear (data : List (List α)) (w : ℕ) (hr : Rect data w)
    (x y : α) (hx0 : 0 ≤ x) (hx1 : x ≤ (w : α) - 1) (hy0 : 0 ≤ y)
    (hy1 : y ≤ (data.length : α) - 1) :
    ∃ p00 p10 p01 p11 : α,
      readCell data ⌊y⌋ ⌊x⌋ = .ok (some p00) ∧
      readCell data ⌊y⌋ (min (⌊x⌋ + 1) ((w : ℤ) - 1)) = .ok (some p10) ∧
      readCell data (min (⌊y⌋ + 1) ((data.length : ℤ) - 1)) ⌊x⌋ = .ok (some p01) ∧
      readCell data (min (⌊y⌋ + 1) ((data.length : ℤ) - 1)) (min (⌊x⌋ + 1) ((w : ℤ) - 1)) =
        .ok (some p11) ∧
      interpolatePressure data x y = .ok (some
        (p00 * (1 - (x - (⌊x⌋ : α))) * (1 - (y - (⌊y⌋ : α))) +
          p10 * (x - (⌊x⌋ : α)) * (1 - (y - (⌊y⌋ : α))) +
          p01 * (1 - (x - (⌊x⌋ : α))) * (y - (⌊y⌋ : α)) +
          p11 * (x - (⌊x⌋ : α)) * (y - (⌊y⌋ : α)))) := by
  have fx0 : 0 ≤ ⌊x⌋ := Int.floor_nonneg.mpr hx0
  have fy0 : 0 ≤ ⌊y⌋ := Int.floor_nonneg.mpr hy0
  have fx1 : ⌊x⌋ ≤ (w : ℤ) - 1 := by
    have h : ((⌊x⌋ : ℤ) : α) ≤ (((w : ℤ) - 1 : ℤ) : α) := by
      push_cast
      exact le_trans (Int.floor_le x) hx1
    exact Int.cast_le.mp h
  have fy1 : ⌊y⌋ ≤ (data.length : ℤ) - 1 := by
    have h : ((⌊y⌋ : ℤ) : α) ≤ (((data.length : ℤ) - 1 : ℤ) : α) := by
      push_cast
      exact le_trans (Int.floor_le y) hy1
    exact Int.cast_le.mp h
  obtain ⟨a, ha⟩ := readCell_of_rect data w hr ⌊y⌋ ⌊x⌋ fy0 (by omega) fx0 (by omega)
  obtain ⟨b, hb⟩ := readCell_of_rect data w hr ⌊y⌋ (min (⌊x⌋ + 1) ((w : ℤ) - 1)) fy0
    (by omega) (by omega) (by omega)
  obtain ⟨c, hc⟩ := readCell_of_rect data w hr (min (⌊y⌋ + 1) ((data.length : ℤ) - 1)) ⌊x⌋
    (by omega) (by omega) fx0 (by omega)
  obtain ⟨d, hd⟩ := readCell_of_rect data w hr (min (⌊y⌋ + 1) ((data.length : ℤ) - 1))
    (min (⌊x⌋ + 1) ((w : ℤ) - 1)) (by omega) (by omega) (by omega) (by omega)
  refine ⟨a, b, c, d, ha, hb, hc, hd, ?_⟩
  simp [interpolatePressure, rowLength_of_rect data w hr (by omega), ha, hb, hc, hd, bind,
    Except.bind, pure, Except.pure]

/-- On the 2 x 2 field `[[1, 2], [3, 4]]` the sample at `(1/2, 1/2)` is the bilinear
combination of the four cells. -/
theorem interpolatePressure_bilinear_witness :
    ∃ p00 p10 p01 p11 : ℚ,
      readCell ([[1, 2], [3, 4]] : List (List ℚ)) ⌊(1 / 2 : ℚ)⌋ ⌊(1 / 2 : ℚ)⌋ =
        .ok (some p00) ∧
      readCell ([[1, 2], [3, 4]] : List (List ℚ)) ⌊(1 / 2 : ℚ)⌋
        (min (⌊(1 / 2 : ℚ)⌋ + 1) (((2 : ℕ) : ℤ) - 1)) = .ok (some p10) ∧
      readCell ([[1, 2], [3, 4]] : List (List ℚ))
        (min (⌊(1 / 2 : ℚ)⌋ + 1) ((([[1, 2], [3, 4]] : List (List ℚ)).length : ℤ) - 1))
        ⌊(1 / 2 : ℚ)⌋ = .ok (some p01) ∧
      readCell ([[1, 2], [3, 4]] : List (List ℚ))
        (min (⌊(1 / 2 : ℚ)⌋ + 1) ((([[1, 2], [3, 4]] : List (List ℚ)).length : ℤ) - 1))
        (min (⌊(1 / 2 : ℚ)⌋ + 1) (((2 : ℕ) : ℤ) - 1)) = .ok (some p11) ∧
      interpolatePressure ([[1, 2], [3, 4]] : List (List ℚ)) (1 / 2) (1 / 2) = .ok (some
        (p00 * (1 - (1 / 2 - (⌊(1 / 2 : ℚ)⌋ : ℚ))) * (1 - (1 / 2 - (⌊(1 / 2 : ℚ)⌋ : ℚ))) +
          p10 * (1 / 2 - (⌊(1 / 2 : ℚ)⌋ : ℚ)) * (1 - (1 / 2 - (⌊(1 / 2 : ℚ)⌋ : ℚ))) +
          p01 * (1 - (1 / 2 - (⌊(1 / 2 : ℚ)⌋ : ℚ))) * (1 / 2 - (⌊(1 / 2 : ℚ)⌋ : ℚ)) +
          p11 * (1 / 2 - (⌊(1 / 2 : ℚ)⌋ : ℚ)) * (1 / 2 - (⌊(1 / 2 : ℚ)⌋ : ℚ)))) :=
  interpolatePressure_bilinear [[1, 2], [3, 4]] 2 rect_sample (1 / 2) (1 / 2) (by norm_num)
    (by norm_num) (by norm_num) (by norm_num)

end SamplerFormula

section ScanOrder

variable {α : Type} [LinearOrderedField α]

/-- C14: on a rectangular field every point `findExtrema` returns, in `highs` or in
`lows`, is a stride candidate: `x = 10 + 15 i` and `y = 10 + 15 j` for naturals `i`, `j`,
with `10 ≤ x < width - 10` and `10 ≤ y < height - 10`. -/
theorem findExtrema_points_are_candidates (data : List (List α)) (w : ℕ)
    (hr : Rect data w) :
    ∃ ext, findExtrema data = .ok ext ∧
      ∀ p, p ∈ ext.highs ∨ p ∈ ext.lows →
        (∃ i j : ℕ, p.x = 10 + 15 * (i : ℤ) ∧ p.y = 10 + 15 * (j : ℤ)) ∧
          10 ≤ p.x ∧ p.x < (w : ℤ) - 10 ∧ 10 ≤ p.y ∧ p.y < (data.length : ℤ) - 10 := by
  refine ⟨_, findExtrema_eq data, ?_⟩
  intro p hp
  have hcand : p.y ∈ candidateRows data ∧ p.x ∈ candidateCols data := by
    rcases hp with hp | hp
    · exact ⟨(mem_highs data _ (findExtrema_eq data) p hp).1,
        (mem_highs data _ (findExtrema_eq data) p hp).2.1⟩
    · exact ⟨(mem_lows data _ (findExtrema_eq data) p hp).1,
        (mem_lows data _ (findExtrema_eq data) p hp).2.1⟩
  obtain ⟨hy0, hy1, j, hj⟩ := candidateRows_bounds data p.y hcand.1
  obtain ⟨hx0, hx1, i, hi⟩ := candidateCols_bounds data p.x hcand.2
  rw [widthOf_of_rect data w hr (by omega)] at hx1
  exact ⟨⟨i, j, hi, hj⟩, hx0, hx1, hy0, hy1⟩

theorem forRange_pairwise (fuel : ℕ) (i stop step : ℤ) (hs : 0 < step) :
    (forRange fuel i stop step).Pairwise (· < ·) := by
  induction fuel generalizing i with
  | zero => simp [forRange]
  | succ n ih =>
    unfold forRange
    split_ifs with h
    · refine List.pairwise_cons.mpr ⟨fun z hz => ?_, ih (i + step)⟩
      have := forRange_sound n (i + step) stop step z (le_of_lt hs) hz
      omega
    · exact List.Pairwise.nil

theorem hiOf_coords (data : List (List α)) (y x : ℤ) (p : ExtremumPoint α)
    (hp : p ∈ hiOf data y x) : p.x = x ∧ p.y = y := by
  obtain ⟨c, _, rfl, _, _⟩ := (mem_hiOf data y x p).mp hp
  exact ⟨rfl, rfl⟩

theorem loOf_coords (data : List (List α)) (y x : ℤ) (p : ExtremumPoint α)
    (hp : p ∈ loOf data y x) : p.x = x ∧ p.y = y := by
  obtain ⟨c, _, rfl, _, _⟩ := (mem_loOf data y x p).mp hp
  exact ⟨rfl, rfl⟩

theorem hiOf_pairwise (data : List (List α)) (y x : ℤ)
    (R : ExtremumPoint α → ExtremumPoint α → Prop) :
    (hiOf data y x).Pairwise R := by
  unfold hiOf
  split
  · exact List.Pairwise.nil
  · split_ifs
    · exact List.pairwise_singleton _ _
    · exact List.Pairwise.nil

theorem loOf_pairwise (data : List (List α)) (y x : ℤ)
    (R : ExtremumPoint α → ExtremumPoint α → Prop) :
    (loOf data y x).Pairwise R := by
  unfold loOf
  split
  · exact List.Pairwise.nil
  · split_ifs
    · exact List.Pairwise.nil
    · exact List.pairwise_singleton _ _
    · exact List.Pairwise.nil

omit [LinearOrderedField α] in
theorem scan_pairwise (g : ℤ → ℤ → List (ExtremumPoint α)) (ys xs : List ℤ)
    (hcoords : ∀ y x p, p ∈ g y x → p.x = x ∧ p.y = y)
    (hone : ∀ y x, (g y x).Pairwise rowMajorLt)
    (hys : ys.Pairwise (· < ·)) (hxs : xs.Pairwise (· < ·)) :
    (ys.flatMap fun y => xs.flatMap (g y)).Pairwise rowMajorLt := by
  rw [List.pairwise_flatMap]
  constructor
  · intro y _
    rw [List.pairwise_flatMap]
    refine ⟨fun x _ => hone y x, hxs.imp ?_⟩
    intro x1 x2 hlt p hp q hq
    obtain ⟨hpx, hpy⟩ := hcoords y x1 p hp
    obtain ⟨hqx, hqy⟩ := hcoords y x2 q hq
    exact Or.inr ⟨by rw [hpy, hqy], by rw [hpx, hqx]; exact hlt⟩
  · refine hys.imp ?_
    intro y1 y2 hlt p hp q hq
    obtain ⟨x1, _, hp1⟩ := List.mem_flatMap.mp hp
    obtain ⟨x2, _, hq1⟩ := List.mem_flatMap.mp hq
    obtain ⟨_, hpy⟩ := hcoords y1 x1 p hp1
    obtain ⟨_, hqy⟩ := hcoords y2 x2 q hq1
    exact Or.inl (by rw [hpy, hqy]; exact hlt)

/-- C15: `findExtrema` returns its points in grid scan order: the list `highs` and the
list `lows` are strictly increasing in row-major order (by `y`, then by `x`), so no grid
position occurs twice in either list. -/
theorem findExtrema_scan_order (data : List (List α)) :
    ∃ ext, findExtrema data = .ok ext ∧
      ext.highs.Pairwise rowMajorLt ∧ ext.lows.Pairwise rowMajorLt ∧
      ext.highs.Pairwise (fun p q => (p.x, p.y) ≠ (q.x, q.y)) ∧
      ext.lows.Pairwise (fun p q => (p.x, p.y) ≠ (q.x, q.y)) := by
  have hys : (candidateRows data).Pairwise (· < ·) := forRange_pairwise _ _ _ _ (by norm_num)
  have hxs : (candidateCols data).Pairwise (· < ·) := forRange_pairwise _ _ _ _ (by norm_num)
  have hh := scan_pairwise (hiOf data) _ _ (hiOf_coords data)
    (fun y x => hiOf_pairwise data y x _) hys hxs
  have hl := scan_pairwise (loOf data) _ _ (loOf_coords data)
    (fun y x => loOf_pairwise data y x _) hys hxs
  have hne : ∀ {p q : ExtremumPoint α}, rowMajorLt p q → (p.x, p.y) ≠ (q.x, q.y) := by
    intro p q h heq
    have h1 : p.x = q.x := congrArg Prod.fst heq
    have h2 : p.y = q.y := congrArg Prod.snd heq
    rcases h with h | ⟨_, h⟩ <;> omega
  exact ⟨_, findExtrema_eq data, hh, hl, hh.imp hne, hl.imp hne⟩

end ScanOrder

section FirstTwoCrossings

variable {α : Type} [LinearOrderedField α]

theorem cellPoints_length (level p00 p10 p01 p11 : α) (x y : ℤ) (dataW dataH : ℕ)
    (width height : α) :
    (cellPoints level p00 p10 p01 p11 x y dataW dataH width height).length =
      (if (decide (level < p00) != decide (level < p10)) = true then 1 else 0) +
      (if (decide (level < p10) != decide (level < p11)) = true then 1 else 0) +
      (if (decide (level < p11) != decide (level < p01)) = true then 1 else 0) +
      (if (decide (level < p01) != decide (level < p00)) = true then 1 else 0) := by
  unfold cellPoints
  simp only [List.length_append]
  split_ifs <;> rfl

theorem crossings_of_mixed : ∀ b00 b10 b01 b11 : Bool,
    (b00 || b10 || b01 || b11) = true → (b00 && b10 && b01 && b11) = false →
      2 ≤ (if (b00 != b10) = true then 1 else 0) + (if (b10 != b11) = true then 1 else 0) +
          (if (b11 != b01) = true then 1 else 0) + (if (b01 != b00) = true then 1 else 0) ∧
        0 < ([b00, b10, b11, b01].filter id).length ∧
        ([b00, b10, b11, b01].filter id).length < 4 := by
  decide

theorem contourCell_of_points (level p00 p10 p01 p11 : α) (x y : ℤ) (dataW dataH : ℕ)
    (width height : α)
    (hsome : level < p00 ∨ level < p10 ∨ level < p01 ∨ level < p11)
    (hnot : ¬ level < p00 ∨ ¬ level < p10 ∨ ¬ level < p01 ∨ ¬ level < p11) :
    ∃ a b rest,
      cellPoints level p00 p10 p01 p11 x y dataW dataH width height = a :: b :: rest ∧
      contourCell level p00 p10 p01 p11 x y dataW dataH width height =
        [⟨a.1, a.2, b.1, b.2⟩] := by
  have hb := crossings_of_mixed (decide (level < p00)) (decide (level < p10))
    (decide (level < p01)) (decide (level < p11))
    (by
      by_cases h00 : level < p00 <;> by_cases h10 : level < p10 <;>
        by_cases h01 : level < p01 <;> by_cases h11 : level < p11 <;> simp_all)
    (by
      by_cases h00 : level < p00 <;> by_cases h10 : level < p10 <;>
        by_cases h01 : level < p01 <;> by_cases h11 : level < p11 <;> simp_all)
  have hlen := hb.1
  rw [← cellPoints_length level p00 p10 p01 p11 x y dataW dataH width height] at hlen
  have hcount := hb.2
  unfold contourCell
  simp only [if_pos hcount]
  match hpts : cellPoints level p00 p10 p01 p11 x y dataW dataH width height with
  | [] => simp [hpts] at hlen
  | [a] => simp [hpts] at hlen
  | a :: b :: rest => exact ⟨a, b, rest, rfl, rfl⟩

/-- C16: in a crossing cell (some corner exceeds the level, some does not) the tracer
emits exactly one segment, joining the first two entries of `points`, the crossings being
collected in the order top, right, bottom, left; in a saddle cell (the two diagonals
disagree, so all four edges are crossed) it joins the top-edge crossing to the right-edge
crossing, the bottom and left crossings being ignored. -/
theorem contourCell_first_two (level p00 p10 p01 p11 : α) (x y : ℤ) (dataW dataH : ℕ)
    (width height : α) :
    ((level < p00 ∨ level < p10 ∨ level < p01 ∨ level < p11) ∧
        (¬ level < p00 ∨ ¬ level < p10 ∨ ¬ level < p01 ∨ ¬ level < p11) →
      ∃ a b rest,
        cellPoints level p00 p10 p01 p11 x y dataW dataH width height = a :: b :: rest ∧
        contourCell level p00 p10 p01 p11 x y dataW dataH width height =
          [⟨a.1, a.2, b.1, b.2⟩]) ∧
    ((level < p00 ∧ ¬ level < p10 ∧ level < p11 ∧ ¬ level < p01) ∨
        (¬ level < p00 ∧ level < p10 ∧ ¬ level < p11 ∧ level < p01) →
      (cellPoints level p00 p10 p01 p11 x y dataW dataH width height).length = 4 ∧
      contourCell level p00 p10 p01 p11 x y dataW dataH width height =
        [⟨((x : α) + (level - p00) / (p10 - p00)) / (dataW : α) * width,
          (y : α) / (dataH : α) * height,
          ((x : α) + 1) / (dataW : α) * width,
          ((y : α) + (level - p10) / (p11 - p10)) / (dataH : α) * height⟩]) := by
  refine ⟨fun h => contourCell_of_points level p00 p10 p01 p11 x y dataW dataH width height
    h.1 h.2, ?_⟩
  rintro (⟨h00, h10, h11, h01⟩ | ⟨h00, h10, h11, h01⟩) <;>
    simp [contourCell, cellPoints, h00, h10, h01, h11]

/-- A saddle cell at level 1000 joins its top crossing to its right crossing. -/
theorem contourCell_first_two_witness :
    (cellPoints (1000 : ℚ) 1001 999 999 1001 0 0 360 180 1200 600).length = 4 ∧
      contourCell (1000 : ℚ) 1001 999 999 1001 0 0 360 180 1200 600 =
        [⟨(((0 : ℤ) : ℚ) + (1000 - 1001) / (999 - 1001)) / ((360 : ℕ) : ℚ) * 1200,
          ((0 : ℤ) : ℚ) / ((180 : ℕ) : ℚ) * 600,
          (((0 : ℤ) : ℚ) + 1) / ((360 : ℕ) : ℚ) * 1200,
          (((0 : ℤ) : ℚ) + (1000 - 999) / (1001 - 999)) / ((180 : ℕ) : ℚ) * 600⟩] :=
  (contourCell_first_two (1000 : ℚ) 1001 999 999 1001 0 0 360 180 1200 600).2
    (Or.inl ⟨by norm_num, by norm_num, by norm_num, by norm_num⟩)

end FirstTwoCrossings

section NoValidation

variable {α : Type} [LinearOrderedField α]

theorem interpolateColorLoop_singleton (value : α) (s : ColorStop α) :
    interpolateColorLoop value [s] = none := by
  simp [interpolateColorLoop]

/-- C19 (amended): `interpolateColor` validates nothing.  For every non-empty ramp, valid
or not, and every value it returns a colour; for a ramp of a single stop it returns that
stop's colour; only the empty ramp fails, by the `TypeError` of the final
`colorStops[-1].color`. -/
theorem interpolateColor_no_validation (value : α) (stops : List (ColorStop α)) :
    (stops ≠ [] → ∃ c, interpolateColor value stops = .ok c) ∧
      (∀ s : ColorStop α, interpolateColor value [s] = .ok s.color) ∧
      interpolateColor value ([] : List (ColorStop α)) = .error .typeError := by
  refine ⟨?_, ?_, ?_⟩
  · intro hne
    unfold interpolateColor
    cases hloop : interpolateColorLoop value stops with
    | some c => exact ⟨c, rfl⟩
    | none =>
      cases hlast : stops.getLast? with
      | none => exact absurd (List.getLast?_eq_none_iff.mp hlast) hne
      | some last => exact ⟨last.color, rfl⟩
  · intro s
    simp [interpolateColor, interpolateColorLoop]
  · simp [interpolateColor, interpolateColorLoop]

/-- The one-stop ramp `[{ stop: 0.3, color: [0.1, 0.2, 0.3] }]` is accepted. -/
theorem interpolateColor_no_validation_witness :
    ∃ c, interpolateColor (1 / 2 : ℚ) [⟨0.3, (0.1, 0.2, 0.3)⟩] = .ok c :=
  (interpolateColor_no_validation (1 / 2 : ℚ) [⟨0.3, (0.1, 0.2, 0.3)⟩]).1 (by simp)

/-- C19 fails as stated: a ramp of one stop and a ramp whose stops cover only
`[0.2, 0.6]` both get a colour. -/
theorem interpolateColor_accepts_degenerate_ramps :
    interpolateColor (1 / 2 : ℚ) [⟨0.3, (0.1, 0.2, 0.3)⟩] = .ok (0.1, 0.2, 0.3) ∧
      interpolateColor (2 / 5 : ℚ) [⟨0.2, (0, 0, 0)⟩, ⟨0.6, (1, 1, 1)⟩] =
        .ok (1 / 2, 1 / 2, 1 / 2) ∧
      interpolateColor (9 / 10 : ℚ) [⟨0.2, (0, 0, 0)⟩, ⟨0.6, (1, 1, 1)⟩] = .ok (1, 1, 1) := by
  refine ⟨?_, ?_, ?_⟩
  · simp [interpolateColor, interpolateColorLoop]
  · simp [interpolateColor, interpolateColorLoop]
    norm_num
  · simp [interpolateColor, interpolateColorLoop]
    norm_num

end NoValidation

section HoverTheorems

variable {α : Type} [LinearOrderedField α] [FloorRing α]

/-- C18: for a pointer at the pixel position `(x, y)` of a `width` by `height` canvas the
hover readout of `handleMouseMove` is the value `drawPressureGradient` samples for the
raster pixel `(x, y)`, and on a non-empty rectangular field of `w` columns both are
`interpolatePressure(data, x / width * w, y / height * data.length)`.  The bounds
`x < width`, `y < height` of the raster loops are not needed. -/
theorem handleMouseMove_eq_gradientSample (data : List (List α)) (w : ℕ) (hr : Rect data w)
    (hne : 0 < data.length) (width height x y : ℕ) :
    handleMouseMove data (width : α) (height : α) (x : α) (y : α) =
        gradientSample data width height x y ∧
      gradientSample data width height x y =
        interpolatePressure data ((x : α) / (width : α) * (w : α))
          ((y : α) / (height : α) * (data.length : α)) := by
  refine ⟨rfl, ?_⟩
  simp [gradientSample, rowLength_of_rect data w hr hne, bind, Except.bind]

/-- On the 2 x 2 field `[[1, 2], [3, 4]]` drawn on a 4 x 4 canvas the pixel `(1, 2)` is
sampled alike by the hover readout and by the raster fill. -/
theorem handleMouseMove_eq_gradientSample_witness :
    handleMouseMove ([[1, 2], [3, 4]] : List (List ℚ)) ((4 : ℕ) : ℚ) ((4 : ℕ) : ℚ)
        ((1 : ℕ) : ℚ) ((2 : ℕ) : ℚ) =
        gradientSample ([[1, 2], [3, 4]] : List (List ℚ)) 4 4 1 2 ∧
      gradientSample ([[1, 2], [3, 4]] : List (List ℚ)) 4 4 1 2 =
        interpolatePressure ([[1, 2], [3, 4]] : List (List ℚ))
          (((1 : ℕ) : ℚ) / ((4 : ℕ) : ℚ) * ((2 : ℕ) : ℚ))
          (((2 : ℕ) : ℚ) / ((4 : ℕ) : ℚ) *
            ((([[1, 2], [3, 4]] : List (List ℚ)).length : ℕ) : ℚ)) :=
  handleMouseMove_eq_gradientSample [[1, 2], [3, 4]] 2 rect_sample (by decide) 4 4 1 2

end HoverTheorems

section IsobarStyle

variable {α : Type} [LinearOrderedField α]

theorem labelCol_ok (data : List (List α)) (level width height : α) (w x : ℤ)
    (ys : List ℤ) (acc : List (α × α)) (hys : ∀ y ∈ ys, 0 ≤ y ∧ y < data.length) :
    ∃ r, labelCol data level width height w x ys acc = .ok r := by
  induction ys generalizing acc with
  | nil => exact ⟨acc, rfl⟩
  | cons y ys ih =>
    have hy := hys y (List.mem_cons_self _ _)
    rw [labelCol, readCell_eq_valAt data y x hy.1 hy.2]
    exact ih _ (fun z hz => hys z (List.mem_cons_of_mem _ hz))

theorem labelCols_ok (data : List (List α)) (level width height : α) (w : ℤ)
    (xs : List ℤ) (acc : List (α × α)) :
    ∃ r, labelCols data level width height w xs acc = .ok r := by
  induction xs generalizing acc with
  | nil => exact ⟨acc, rfl⟩
  | cons x xs ih =>
    obtain ⟨r, hr⟩ := labelCol_ok data level width height w x
      (forRange data.length 20 (data.length : ℤ) 60) acc (fun y hy => by
        have := forRange_sound _ _ _ _ y (by norm_num) hy
        omega)
    rw [labelCols, hr]
    exact ih r

theorem isobarLabels_ok (data : List (List α)) (level width height : α)
    (hne : 0 < data.length) : ∃ r, isobarLabels data level width height = .ok r := by
  unfold isobarLabels
  rw [rowLength_eq_widthOf data hne]
  exact labelCols_ok data level width height _ _ []

theorem drawLevel_ok (data : List (List α)) (w : ℕ) (hr : Rect data w)
    (hne : 0 < data.length) (width height : α) (level : ℤ) :
    ∃ pass, drawLevel data width height level = .ok (some pass) ∧ pass.level = level ∧
      pass.lineWidth = (if level % 8 = 0 then 2 else 1) ∧
      pass.globalAlpha = (if level % 8 = 0 then 0.8 else 0.4) := by
  obtain ⟨labels, hl⟩ := isobarLabels_ok data (level : α) width height hne
  obtain ⟨segs, hs⟩ : ∃ segs, traceLevel data (level : α) width height = .ok (some segs) :=
    ⟨_, traceLevel_eq data w hr (level : α) width height⟩
  unfold drawLevel
  simp only [hs, hl]
  by_cases h : level % 8 = 0
  · refine ⟨⟨level, 2, 0.8, segs, labels⟩, ?_, rfl, by simp [h], by simp [h]⟩
    simp only [h, decide_True, if_true]
  · refine ⟨⟨level, 1, 0.4, segs, []⟩, ?_, rfl, by simp [h], by simp [h]⟩
    simp only [h, decide_False]
    rfl

theorem drawLevels_ok (data : List (List α)) (w : ℕ) (hr : Rect data w)
    (hne : 0 < data.length) (width height : α) (levels : List ℤ) :
    ∃ passes, drawLevels data width height levels = .ok (some passes) ∧
      passes.map (fun p => p.level) = levels ∧
      ∀ p ∈ passes, p.lineWidth = (if p.level % 8 = 0 then 2 else 1) ∧
        p.globalAlpha = (if p.level % 8 = 0 then 0.8 else 0.4) := by
  induction levels with
  | nil => exact ⟨[], rfl, rfl, by simp⟩
  | cons level rest ih =>
    obtain ⟨pass, hp, hlev, hw, ha⟩ := drawLevel_ok data w hr hne width height level
    obtain ⟨passes, hps, hmap, hall⟩ := ih
    refine ⟨pass :: passes, by simp only [drawLevels, hp, hps], by simp [hlev, hmap], ?_⟩
    intro p hmem
    rcases List.mem_cons.mp hmem with rfl | hmem
    · rw [hlev]
      exact ⟨hw, ha⟩
    · exact hall p hmem

/-- C17: on a non-empty rectangular field `drawIsobars` makes exactly 16 passes, for the
levels 980, 984, ..., 1040 in increasing order; a pass is drawn with line width 2 and
alpha 0.8 if and only if its level is a multiple of 8, and with line width 1 and alpha
0.4 otherwise. -/
theorem drawIsobars_levels_and_style (data : List (List α)) (w : ℕ) (hr : Rect data w)
    (hne : 0 < data.length) (width height : α) :
    ∃ passes, drawIsobars data width height = .ok (some passes) ∧
      passes.map (fun p => p.level) =
        [980, 984, 988, 992, 996, 1000, 1004, 1008, 1012, 1016, 1020, 1024, 1028, 1032,
          1036, 1040] ∧
      ∀ p ∈ passes,
        (8 ∣ p.level → p.lineWidth = 2 ∧ p.globalAlpha = 0.8) ∧
        (¬ 8 ∣ p.level → p.lineWidth = 1 ∧ p.globalAlpha = 0.4) := by
  obtain ⟨passes, hps, hmap, hall⟩ := drawLevels_ok data w hr hne width height isobarLevels
  refine ⟨passes, hps, by rw [hmap]; decide, ?_⟩
  intro p hp
  obtain ⟨hw, ha⟩ := hall p hp
  constructor
  · intro hdiv
    have : p.level % 8 = 0 := Int.emod_eq_zero_of_dvd hdiv
    rw [if_pos this] at hw ha
    exact ⟨hw, ha⟩
  · intro hdiv
    have : ¬ p.level % 8 = 0 := fun h => hdiv (Int.dvd_of_emod_eq_zero h)
    rw [if_neg this] at hw ha
    exact ⟨hw, ha⟩

/-- The passes drawn for the field `peakField` on a 1200 x 600 canvas. -/
theorem drawIsobars_levels_and_style_witness :
    ∃ passes, drawIsobars peakField 1200 600 = .ok (some passes) ∧
      passes.map (fun p => p.level) =
        [980, 984, 988, 992, 996, 1000, 1004, 1008, 1012, 1016, 1020, 1024, 1028, 1032,
          1036, 1040] ∧
      ∀ p ∈ passes,
        (8 ∣ p.level → p.lineWidth = 2 ∧ p.globalAlpha = 0.8) ∧
        (¬ 8 ∣ p.level → p.lineWidth = 1 ∧ p.globalAlpha = 0.4) :=
  drawIsobars_levels_and_style peakField 21 rect_peakField (by decide) 1200 600

end IsobarStyle

section GeneratorTheorems

variable {α : Type} [LinearOrderedField α]

theorem rect_generatePressureData (exp : α → α) (random : ℕ → α) :
    Rect (generatePressureData exp random) 360 := by
  intro row hrow
  simp only [generatePressureData, List.mem_map] at hrow
  obtain ⟨y, _, rfl⟩ := hrow
  simp only [List.length_map, List.length_range]

theorem readCell_generatePressureData (exp : α → α) (random : ℕ → α) (y x : ℕ)
    (hy : y < 180) (hx : x < 360) :
    readCell (generatePressureData exp random) (y : ℤ) (x : ℤ) =
      .ok (some (pressureAt exp (random (y * 360 + x)) x y)) := by
  have h1 : ¬ ((y : ℤ) < 0) := by omega
  have h2 : ¬ ((x : ℤ) < 0) := by omega
  simp only [readCell, elemAt, generatePressureData, List.getElem?_map,
    List.getElem?_range hy, List.getElem?_range hx, h1, h2, if_false, Int.toNat_ofNat,
    Option.map_some']

/-- C20: `generatePressureData` builds 180 rows of 360 cells; for the cell `(x, y)` the
latitude is `90 - y`, in `[-90, 90]`, the longitude is `x - 180`, in `[-180, 180]`, and the
cell holds the base term `1013 - 0.15 |lat|` plus the two highs, minus the two lows, plus
the jitter `(r - 0.5) * 3` of its random draw `r`. -/
theorem generatePressureData_cell (exp : α → α) (random : ℕ → α) (y x : ℕ) (hy : y < 180)
    (hx : x < 360) :
    (generatePressureData exp random).length = 180 ∧
      Rect (generatePressureData exp random) 360 ∧
      (latitudeOf y : α) = 90 - (y : α) ∧ -90 ≤ (latitudeOf y : α) ∧
      (latitudeOf y : α) ≤ 90 ∧
      (longitudeOf x : α) = (x : α) - 180 ∧ -180 ≤ (longitudeOf x : α) ∧
      (longitudeOf x : α) ≤ 180 ∧
      readCell (generatePressureData exp random) (y : ℤ) (x : ℤ) = .ok (some
        (1013 - 0.15 * |(latitudeOf y : α)| +
          25 * exp (-(((x : α) - 90) ^ 2 + ((y : α) - 45) ^ 2) / 400) +
          20 * exp (-(((x : α) - 270) ^ 2 + ((y : α) - 60) ^ 2) / 500) -
          30 * exp (-(((x : α) - 180) ^ 2 + ((y : α) - 90) ^ 2) / 450) -
          25 * exp (-(((x : α) - 45) ^ 2 + ((y : α) - 120) ^ 2) / 350) +
          (random (y * 360 + x) - 0.5) * 3)) := by
  have hlat : (latitudeOf y : α) = 90 - (y : α) := by
    unfold latitudeOf
    ring
  have hlon : (longitudeOf x : α) = (x : α) - 180 := by
    unfold longitudeOf
    ring
  have hy0 : (0 : α) ≤ (y : α) := Nat.cast_nonneg y
  have hx0 : (0 : α) ≤ (x : α) := Nat.cast_nonneg x
  have hy1 : (y : α) ≤ 180 := by exact_mod_cast le_of_lt hy
  have hx1 : (x : α) ≤ 360 := by exact_mod_cast le_of_lt hx
  refine ⟨by simp only [generatePressureData, List.length_map, List.length_range],
    rect_generatePressureData exp random, hlat, by rw [hlat]; linarith,
    by rw [hlat]; linarith, hlon, by rw [hlon]; linarith, by rw [hlon]; linarith, ?_⟩
  rw [readCell_generatePressureData exp random y x hy hx]
  simp only [pressureAt, latitudeOf]
  congr 2
  ring

/-- The cell `(90, 45)`, centre of the first high, of the field generated with the real
exponential and the jitter term 0. -/
theorem generatePressureData_cell_witness :
    (generatePressureData Real.exp (fun _ => 1 / 2)).length = 180 ∧
      Rect (generatePressureData Real.exp (fun _ => 1 / 2)) 360 ∧
      (latitudeOf 45 : ℝ) = 90 - ((45 : ℕ) : ℝ) ∧ -90 ≤ (latitudeOf 45 : ℝ) ∧
      (latitudeOf 45 : ℝ) ≤ 90 ∧
      (longitudeOf 90 : ℝ) = ((90 : ℕ) : ℝ) - 180 ∧ -180 ≤ (longitudeOf 90 : ℝ) ∧
      (longitudeOf 90 : ℝ) ≤ 180 ∧
      readCell (generatePressureData Real.exp (fun _ => 1 / 2)) ((45 : ℕ) : ℤ)
          ((90 : ℕ) : ℤ) = .ok (some
        (1013 - 0.15 * |(latitudeOf 45 : ℝ)| +
          25 * Real.exp (-((((90 : ℕ) : ℝ) - 90) ^ 2 + (((45 : ℕ) : ℝ) - 45) ^ 2) / 400) +
          20 * Real.exp (-((((90 : ℕ) : ℝ) - 270) ^ 2 + (((45 : ℕ) : ℝ) - 60) ^ 2) / 500) -
          30 * Real.exp (-((((90 : ℕ) : ℝ) - 180) ^ 2 + (((45 : ℕ) : ℝ) - 90) ^ 2) / 450) -
          25 * Real.exp (-((((90 : ℕ) : ℝ) - 45) ^ 2 + (((45 : ℕ) : ℝ) - 120) ^ 2) / 350) +
          ((fun _ => 1 / 2 : ℕ → ℝ) (45 * 360 + 90) - 0.5) * 3)) :=
  generatePressureData_cell Real.exp (fun _ => 1 / 2) 45 90 (by decide) (by decide)

end GeneratorTheorems

section MoreWitnesses

theorem peakField_lt (row : List ℚ) (hrow : row ∈ peakField) (v : ℚ) (hv : v ∈ row) :
    v < 1040 := by
  simp only [peakField, List.mem_map] at hrow
  obtain ⟨y, _, rfl⟩ := hrow
  simp only [List.mem_map] at hv
  obtain ⟨x, _, rfl⟩ := hv
  split_ifs <;> norm_num

/-- No value of `peakField` reaches 1040: the tracer emits nothing at that level. -/
theorem traceLevel_outside_range_witness :
    Rect peakField 21 ∧ (∀ row ∈ peakField, ∀ v ∈ row, v < (1040 : ℚ)) ∧
      traceLevel peakField 1040 1200 600 = .ok (some []) :=
  ⟨rect_peakField, peakField_lt,
    traceLevel_outside_range peakField 21 rect_peakField 1040 1200 600 (Or.inl peakField_lt)⟩

/-- The points reported on `peakField` are stride candidates. -/
theorem findExtrema_points_are_candidates_witness :
    Rect peakField 21 ∧
      ∃ ext, findExtrema peakField = .ok ext ∧
        ∀ p, p ∈ ext.highs ∨ p ∈ ext.lows →
          (∃ i j : ℕ, p.x = 10 + 15 * (i : ℤ) ∧ p.y = 10 + 15 * (j : ℤ)) ∧
            10 ≤ p.x ∧ p.x < ((21 : ℕ) : ℤ) - 10 ∧ 10 ≤ p.y ∧
            p.y < (peakField.length : ℤ) - 10 :=
  ⟨rect_peakField, findExtrema_points_are_candidates peakField 21 rect_peakField⟩

end MoreWitnesses

section Determinism

variable {α : Type} [LinearOrderedField α]

theorem pressureAt_sub (exp : α → α) (r1 r2 : α) (x y : ℕ) :
    pressureAt exp r1 x y - pressureAt exp r2 x y = 3 * (r1 - r2) := by
  simp only [pressureAt]
  ring

theorem generatePressureData_congr (exp : α → α) (random1 random2 : ℕ → α)
    (h : ∀ n, n < 180 * 360 → random1 n = random2 n) :
    generatePressureData exp random1 = generatePressureData exp random2 := by
  unfold generatePressureData
  apply List.map_congr_left
  intro y hy
  apply List.map_congr_left
  intro x hx
  have hy1 : y < 180 := List.mem_range.mp hy
  have hx1 : x < 360 := List.mem_range.mp hx
  rw [h (y * 360 + x) (by omega)]

theorem generatePressureData_draws_of_eq (exp : α → α) (random1 random2 : ℕ → α)
    (h : generatePressureData exp random1 = generatePressureData exp random2) (n : ℕ)
    (hn : n < 180 * 360) : random1 n = random2 n := by
  have hy : n / 360 < 180 := by omega
  have hx : n % 360 < 360 := by omega
  have h1 := readCell_generatePressureData exp random1 (n / 360) (n % 360) hy hx
  have h2 := readCell_generatePressureData exp random2 (n / 360) (n % 360) hy hx
  rw [h, h2] at h1
  have hn1 : n / 360 * 360 + n % 360 = n := by omega
  rw [hn1] at h1
  have hp : pressureAt exp (random2 n) (n % 360) (n / 360) =
      pressureAt exp (random1 n) (n % 360) (n / 360) := by
    injection h1 with h1
    injection h1
  have := pressureAt_sub exp (random1 n) (random2 n) (n % 360) (n / 360)
  rw [hp, sub_self] at this
  linarith

/-- C21 (amended): `generatePressureData` has no seed.  The field a call returns is a
function of the 64800 values `Math.random()` returns during that call: two calls return
the same field exactly when those values agree draw for draw, and the cells `(x, y)` of
two calls differ by three times the difference of their two draws. -/
theorem generatePressureData_determined_by_draws (exp : α → α) (random1 random2 : ℕ → α) :
    (generatePressureData exp random1 = generatePressureData exp random2 ↔
        ∀ n, n < 180 * 360 → random1 n = random2 n) ∧
      ∀ y x : ℕ, y < 180 → x < 360 →
        ∃ v1 v2, readCell (generatePressureData exp random1) (y : ℤ) (x : ℤ) = .ok (some v1) ∧
          readCell (generatePressureData exp random2) (y : ℤ) (x : ℤ) = .ok (some v2) ∧
          v1 - v2 = 3 * (random1 (y * 360 + x) - random2 (y * 360 + x)) :=
  ⟨⟨generatePressureData_draws_of_eq exp random1 random2,
      generatePressureData_congr exp random1 random2⟩,
    fun y x hy hx => ⟨_, _, readCell_generatePressureData exp random1 y x hy hx,
      readCell_generatePressureData exp random2 y x hy hx, pressureAt_sub exp _ _ x y⟩⟩

/-- Two draw sequences that differ only after the 64800 draws a call consumes give the
same field. -/
theorem generatePressureData_determined_by_draws_witness :
    (∀ n, n < 180 * 360 →
        (fun n => if n < 64800 then (1 / 2 : ℝ) else 0) n = (fun _ => (1 / 2 : ℝ)) n) ∧
      generatePressureData Real.exp (fun n => if n < 64800 then (1 / 2 : ℝ) else 0) =
        generatePressureData Real.exp (fun _ => (1 / 2 : ℝ)) :=
  ⟨fun n hn => by
      show (if n < 64800 then (1 / 2 : ℝ) else 0) = 1 / 2
      rw [if_pos (by omega)],
    (generatePressureData_determined_by_draws Real.exp _ _).1.mpr (fun n hn => by
      show (if n < 64800 then (1 / 2 : ℝ) else 0) = 1 / 2
      rw [if_pos (by omega)])⟩

/-- C21 fails as stated: the code offers no seed, and two calls need not return the same
field.  When `Math.random()` returns 0 throughout one call and 1/2 throughout another, the
two fields differ; their cells `(90, 45)` differ by 1.5. -/
theorem generatePressureData_two_calls_differ :
    generatePressureData Real.exp (fun _ => (0 : ℝ)) ≠
        generatePressureData Real.exp (fun _ => (1 / 2 : ℝ)) ∧
      ∃ v1 v2 : ℝ,
        readCell (generatePressureData Real.exp (fun _ => (0 : ℝ))) 45 90 = .ok (some v1) ∧
        readCell (generatePressureData Real.exp (fun _ => (1 / 2 : ℝ))) 45 90 =
          .ok (some v2) ∧
        v2 - v1 = 3 / 2 := by
  refine ⟨fun h => ?_, _, _,
    readCell_generatePressureData Real.exp (fun _ => (0 : ℝ)) 45 90 (by decide) (by decide),
    readCell_generatePressureData Real.exp (fun _ => (1 / 2 : ℝ)) 45 90 (by decide)
      (by decide), ?_⟩
  · have := generatePressureData_draws_of_eq Real.exp _ _ h 0 (by decide)
    norm_num at this
  · rw [pressureAt_sub]
    norm_num

end Determinism

section GradientTheorems

variable {α : Type} [LinearOrderedField α] [FloorRing α]

theorem gradientChannels_eq (pressure : α) :
    gradientChannels pressure =
      channelsOfClamped (max 0 (min 1 ((pressure - 980) / (1040 - 980)))) := rfl

omit [FloorRing α] in
theorem clamped_of_clamp (pressure : α) :
    max 0 (min 1 ((max 980 (min 1040 pressure) - 980) / (1040 - 980))) =
      max (0 : α) (min 1 ((pressure - 980) / (1040 - 980))) := by
  have h60 : (1040 : α) - 980 = 60 := by norm_num
  rw [h60]
  rcases le_total pressure 980 with h | h
  · have h1 : max 980 (min 1040 pressure) = 980 := by
      rw [min_eq_right (by linarith), max_eq_left h]
    have h2 : (pressure - 980) / 60 ≤ 0 :=
      div_nonpos_of_nonpos_of_nonneg (by linarith) (by norm_num)
    have hl : max (0 : α) (min 1 ((980 - 980) / 60)) = 0 := by norm_num
    have hr : max (0 : α) (min 1 ((pressure - 980) / 60)) = 0 := by
      rw [min_eq_right (le_trans h2 zero_le_one), max_eq_left h2]
    rw [h1, hl, hr]
  · rcases le_total pressure 1040 with h3 | h3
    · rw [min_eq_right h3, max_eq_right h]
    · have h1 : max 980 (min 1040 pressure) = 1040 := by
        rw [min_eq_left h3, max_eq_right (by norm_num)]
      have h2 : (1 : α) ≤ (pressure - 980) / 60 := by
        rw [le_div_iff₀ (by norm_num)]
        linarith
      have hl : max (0 : α) (min 1 ((1040 - 980) / 60)) = 1 := by norm_num
      have hr : max (0 : α) (min 1 ((pressure - 980) / 60)) = 1 := by
        rw [min_eq_left h2, max_eq_right zero_le_one]
      rw [h1, hl, hr]

theorem floor_between (r : α) (lo hi : ℤ) (h1 : (lo : α) ≤ r) (h2 : r ≤ (hi : α)) :
    lo ≤ ⌊r⌋ ∧ ⌊r⌋ ≤ hi :=
  ⟨Int.le_floor.mpr h1, Int.cast_le.mp (le_trans (Int.floor_le r) h2)⟩

theorem channelsOfClamped_range (c : α) (h0 : 0 ≤ c) (h1 : c ≤ 1) :
    (0 ≤ (channelsOfClamped c).1 ∧ (channelsOfClamped c).1 ≤ 255) ∧
      (0 ≤ (channelsOfClamped c).2.1 ∧ (channelsOfClamped c).2.1 ≤ 255) ∧
      (0 ≤ (channelsOfClamped c).2.2.1 ∧ (channelsOfClamped c).2.2.1 ≤ 255) ∧
      (channelsOfClamped c).2.2.2 = 180 := by
  unfold channelsOfClamped
  split_ifs with h
  · have hc : c < 1 / 2 := by norm_num at h; linarith
    have r := floor_between (180 + c * 2 * 75) 0 255 (by push_cast; linarith)
      (by push_cast; linarith)
    have g := floor_between (200 + c * 2 * 55) 0 255 (by push_cast; linarith)
      (by push_cast; linarith)
    have b := floor_between (255 : α) 0 255 (by push_cast; norm_num) (by push_cast; norm_num)
    exact ⟨r, g, b, rfl⟩
  · have hc : 1 / 2 ≤ c := by norm_num at h; linarith
    have g := floor_between (255 - (c - 0.5) * 2 * 100) 0 255 (by push_cast; norm_num; linarith)
      (by push_cast; norm_num; linarith)
    have b := floor_between (255 - (c - 0.5) * 2 * 255) 0 255 (by push_cast; norm_num; linarith)
      (by push_cast; norm_num; linarith)
    exact ⟨⟨by norm_num, by norm_num⟩, g, b, rfl⟩

omit [FloorRing α] in
theorem clamped_unit (pressure : α) :
    0 ≤ max (0 : α) (min 1 ((pressure - 980) / (1040 - 980))) ∧
      max (0 : α) (min 1 ((pressure - 980) / (1040 - 980))) ≤ 1 :=
  ⟨le_max_left _ _, max_le zero_le_one (min_le_left _ _)⟩

theorem toUint8Clamped_of_range (v : ℤ) (h0 : 0 ≤ v) (h1 : v ≤ 255) : toUint8Clamped v = v := by
  unfold toUint8Clamped
  omega

/-- C22: the pixel written for a sampled pressure `p` is the pixel written for `p` clamped
into `[980, 1040]`; the three colour channels computed by `Math.floor` are integers in
`0 .. 255`, stored unchanged, and alpha is 180; `p ≤ 980` gives `(180, 200, 255)` and
`p ≥ 1040` gives `(255, 155, 0)`. -/
theorem gradientPixel_clamped (p : α) :
    gradientPixel p = gradientPixel (max 980 (min 1040 p)) ∧
      gradientPixel p = gradientChannels p ∧
      (0 ≤ (gradientPixel p).1 ∧ (gradientPixel p).1 ≤ 255) ∧
      (0 ≤ (gradientPixel p).2.1 ∧ (gradientPixel p).2.1 ≤ 255) ∧
      (0 ≤ (gradientPixel p).2.2.1 ∧ (gradientPixel p).2.2.1 ≤ 255) ∧
      (gradientPixel p).2.2.2 = 180 ∧
      (p ≤ 980 → gradientPixel p = (180, 200, 255, 180)) ∧
      (1040 ≤ p → gradientPixel p = (255, 155, 0, 180)) := by
  have hu := clamped_unit p
  have hr := channelsOfClamped_range _ hu.1 hu.2
  rw [← gradientChannels_eq] at hr
  obtain ⟨⟨r0, r1⟩, ⟨g0, g1⟩, ⟨b0, b1⟩, ha⟩ := hr
  have hstore : gradientPixel p = gradientChannels p := by
    unfold gradientPixel
    have a0 : 0 ≤ (gradientChannels p).2.2.2 := by rw [ha]; norm_num
    have a1 : (gradientChannels p).2.2.2 ≤ 255 := by rw [ha]; norm_num
    simp only [toUint8Clamped_of_range _ r0 r1, toUint8Clamped_of_range _ g0 g1,
      toUint8Clamped_of_range _ b0 b1, toUint8Clamped_of_range _ a0 a1]
  have hclamp : gradientChannels (max 980 (min 1040 p)) = gradientChannels p := by
    rw [gradientChannels_eq, gradientChannels_eq, clamped_of_clamp]
  refine ⟨?_, hstore, ?_, ?_, ?_, ?_, ?_, ?_⟩
  · unfold gradientPixel
    rw [hclamp]
  · rw [hstore]; exact ⟨r0, r1⟩
  · rw [hstore]; exact ⟨g0, g1⟩
  · rw [hstore]; exact ⟨b0, b1⟩
  · rw [hstore]; exact ha
  · intro hp
    have h2 : (p - 980) / (1040 - 980) ≤ (0 : α) :=
      div_nonpos_of_nonpos_of_nonneg (by linarith) (by norm_num)
    have hc : max (0 : α) (min 1 ((p - 980) / (1040 - 980))) = 0 := by
      rw [min_eq_right (le_trans h2 zero_le_one), max_eq_left h2]
    rw [hstore, gradientChannels_eq, hc]
    norm_num [channelsOfClamped]
  · intro hp
    have h2 : (1 : α) ≤ (p - 980) / (1040 - 980) := by
      rw [le_div_iff₀ (by norm_num)]
      linarith
    have hc : max (0 : α) (min 1 ((p - 980) / (1040 - 980))) = 1 := by
      rw [min_eq_left h2, max_eq_right zero_le_one]
    rw [hstore, gradientChannels_eq, hc]
    norm_num [channelsOfClamped]

/-- The pixels written for the pressures 900 and 1100, outside the colour range. -/
theorem gradientPixel_clamped_witness :
    gradientPixel (900 : ℚ) = (180, 200, 255, 180) ∧
      gradientPixel (1100 : ℚ) = (255, 155, 0, 180) :=
  ⟨(gradientPixel_clamped (900 : ℚ)).2.2.2.2.2.2.1 (by norm_num),
    (gradientPixel_clamped (1100 : ℚ)).2.2.2.2.2.2.2 (by norm_num)⟩

end GradientTheorems

section ComfortTheorems

variable {α : Type} [LinearOrderedField α] [FloorRing α]

/-- C23 (amended): `generateDewPointData` classifies the dew point it computes by
`comfortOf`, which assigns exactly one level: Dry iff `dp < 10`, Comfortable iff
`10 ≤ dp < 15`, Moderate iff `15 ≤ dp < 18`, Humid iff `18 ≤ dp < 21`, Oppressive iff
`dp ≥ 21` (the value 21 itself included). -/
theorem comfortOf_bands (sin : α → α) (lat lon dp : α) :
    (generateDewPointData sin lat lon).2 =
        comfortOf (20 + sin (lat * 0.1) * 15 - |sin (lon * 0.05)| * 20) ∧
      ((comfortOf dp).level = "Dry" ↔ dp < 10) ∧
      ((comfortOf dp).level = "Comfortable" ↔ 10 ≤ dp ∧ dp < 15) ∧
      ((comfortOf dp).level = "Moderate" ↔ 15 ≤ dp ∧ dp < 18) ∧
      ((comfortOf dp).level = "Humid" ↔ 18 ≤ dp ∧ dp < 21) ∧
      ((comfortOf dp).level = "Oppressive" ↔ 21 ≤ dp) := by
  have h1 : (10 : α) < 15 := by norm_num
  have h2 : (15 : α) < 18 := by norm_num
  have h3 : (18 : α) < 21 := by norm_num
  refine ⟨rfl, ?_⟩
  unfold comfortOf
  split_ifs with a b c d
  · refine ⟨by simp [a], ?_, ?_, ?_, ?_⟩ <;>
      simp only [String.reduceEq, false_iff, not_and, not_le, not_lt] <;> intros <;> linarith
  · refine ⟨?_, by simp [b, not_lt.mp a], ?_, ?_, ?_⟩ <;>
      simp only [String.reduceEq, false_iff, not_and, not_le, not_lt] <;> intros <;> linarith
  · refine ⟨?_, ?_, by simp [c, not_lt.mp b], ?_, ?_⟩ <;>
      simp only [String.reduceEq, false_iff, not_and, not_le, not_lt] <;> intros <;> linarith
  · refine ⟨?_, ?_, ?_, by simp [d, not_lt.mp c], ?_⟩ <;>
      simp only [String.reduceEq, false_iff, not_and, not_le, not_lt] <;> intros <;> linarith
  · refine ⟨?_, ?_, ?_, ?_, by simp [not_lt.mp d]⟩ <;>
      simp only [String.reduceEq, false_iff, not_and, not_le, not_lt] <;> intros <;> linarith

/-- C23 fails as stated: the dew point 21 is classified Oppressive although it is not
above 21, and `generateDewPointData` stores that classification. -/
theorem comfortOf_at_21 :
    (comfortOf (21 : ℚ)).level = "Oppressive" ∧ ¬ ((21 : ℚ) > 21) ∧
      ∀ (sin : ℚ → ℚ) (lat lon : ℚ),
        (generateDewPointData sin lat lon).2 =
          comfortOf (20 + sin (lat * 0.1) * 15 - |sin (lon * 0.05)| * 20) := by
  refine ⟨?_, by norm_num, fun _ _ _ => rfl⟩
  simp [comfortOf]
  norm_num

end ComfortTheorems

section TabTheorems

theorem foldl_tabStep_locked (events : List TabEvent) (s : TabState) :
    (events.foldl tabStep s).lockedTab =
      (mostRecentClick events).or s.lockedTab := by
  induction events generalizing s with
  | nil => simp [mostRecentClick]
  | cons e es ih =>
    rw [List.foldl_cons, ih]
    unfold mostRecentClick
    rw [List.reverse_cons, List.findSome?_append]
    cases e <;> simp [tabStep, Option.or_assoc]

theorem foldl_tabStep_hovered (events : List TabEvent) (s : TabState) :
    (events.foldl tabStep s).hoveredTab =
      ((events.reverse.findSome? fun e =>
        match e with
        | .mouseEnter tab => some (some tab)
        | .mouseLeave => some none
        | .click _ => none).or (some s.hoveredTab)).join := by
  induction events generalizing s with
  | nil => simp
  | cons e es ih =>
    rw [List.foldl_cons, ih, List.reverse_cons, List.findSome?_append]
    cases e <;> simp [tabStep, Option.or_assoc]

/-- C24: after every sequence of hover and click events from the initial state, the
locked tab is the most recently clicked tab (`null` when nothing was clicked, and not
`null` from the first click on, whatever follows), the active tab is the hovered tab when
there is one and the locked tab otherwise, and the placeholder is rendered exactly when
the active tab is `null`. -/
theorem analysisPage_tabs (events more : List TabEvent) :
    (runTabs events).lockedTab = mostRecentClick events ∧
      (runTabs events).hoveredTab = currentHover events ∧
      ((runTabs events).lockedTab ≠ none → (runTabs (events ++ more)).lockedTab ≠ none) ∧
      activeTab (runTabs events) =
        (match currentHover events with
          | some tab => some tab
          | none => mostRecentClick events) ∧
      (renderActive (runTabs events) = .placeholder ↔ activeTab (runTabs events) = none) := by
  have hl : ∀ ev, (runTabs ev).lockedTab = mostRecentClick ev := fun ev => by
    rw [runTabs, foldl_tabStep_locked]
    simp [initialTabState]
  have hh : (runTabs events).hoveredTab = currentHover events := by
    rw [runTabs, foldl_tabStep_hovered, currentHover]
    cases events.reverse.findSome? _ <;> simp [initialTabState]
  refine ⟨hl events, hh, ?_, ?_, ?_⟩
  · intro hne
    rw [runTabs, List.foldl_append, foldl_tabStep_locked]
    change ((mostRecentClick more).or (runTabs events).lockedTab) ≠ none
    cases hm : mostRecentClick more with
    | none => simpa using hne
    | some t => simp
  · unfold activeTab
    rw [hh, hl events]
  · unfold renderActive
    cases h : activeTab (runTabs events) with
    | none => simp
    | some t => cases t <;> simp

/-- Hover wind, click wind, leave, hover UV: wind stays locked and UV is shown. -/
theorem analysisPage_tabs_witness :
    (runTabs [.mouseEnter .wind, .click .wind, .mouseLeave, .mouseEnter .uv]).lockedTab =
        some .wind ∧
      renderActive (runTabs [.mouseEnter .wind, .click .wind, .mouseLeave, .mouseEnter .uv]) =
        .uvIndex ∧
      (runTabs ([.mouseEnter .wind, .click .wind, .mouseLeave, .mouseEnter .uv] ++
        [.mouseLeave])).lockedTab ≠ none :=
  ⟨by decide, by decide,
    (analysisPage_tabs [.mouseEnter .wind, .click .wind, .mouseLeave, .mouseEnter .uv]
      [.mouseLeave]).2.2.1 (by decide)⟩

end TabTheorems

section EdgeInterpolation

variable {α : Type} [LinearOrderedField α]

theorem edge_parameter (level a b : α)
    (h : (decide (level < a) != decide (level < b)) = true) :
    b - a ≠ 0 ∧ 0 ≤ (level - a) / (b - a) ∧ (level - a) / (b - a) ≤ 1 := by
  by_cases ha : level < a <;> by_cases hb : level < b <;> simp [ha, hb] at h
  · have hlt : b - a < 0 := by linarith [not_lt.mp hb]
    refine ⟨ne_of_lt hlt, div_nonneg_of_nonpos (by linarith) (le_of_lt hlt), ?_⟩
    rw [div_le_one_of_neg hlt]
    linarith [not_lt.mp hb]
  · have hlt : 0 < b - a := by linarith [not_lt.mp ha]
    refine ⟨ne_of_gt hlt, div_nonneg (by linarith [not_lt.mp ha]) (le_of_lt hlt), ?_⟩
    rw [div_le_one hlt]
    linarith

theorem edge_parameter_swapped (level a b : α)
    (h : (decide (level < b) != decide (level < a)) = true) :
    b - a ≠ 0 ∧ 0 ≤ (level - a) / (b - a) ∧ (level - a) / (b - a) ≤ 1 := by
  apply edge_parameter
  by_cases ha : level < a <;> by_cases hb : level < b <;> simp [ha, hb] at h ⊢

theorem scale_mono (a b w size : α) (hab : a ≤ b) (hw : 0 < w) (hs : 0 ≤ size) :
    a / w * size ≤ b / w * size :=
  mul_le_mul_of_nonneg_right (div_le_div_of_nonneg_right hab (le_of_lt hw)) hs

theorem cellPoints_in_cell (level p00 p10 p01 p11 : α) (x y : ℤ) (dataW dataH : ℕ)
    (width height : α) (hW : 0 < dataW) (hH : 0 < dataH) (hw : 0 ≤ width) (hh : 0 ≤ height)
    (pt : α × α) (hpt : pt ∈ cellPoints level p00 p10 p01 p11 x y dataW dataH width height) :
    ((x : α) / (dataW : α) * width ≤ pt.1 ∧ pt.1 ≤ ((x : α) + 1) / (dataW : α) * width ∧
      (y : α) / (dataH : α) * height ≤ pt.2 ∧
      pt.2 ≤ ((y : α) + 1) / (dataH : α) * height) ∧
    (pt.2 = (y : α) / (dataH : α) * height ∨ pt.1 = ((x : α) + 1) / (dataW : α) * width ∨
      pt.2 = ((y : α) + 1) / (dataH : α) * height ∨ pt.1 = (x : α) / (dataW : α) * width) := by
  have hW1 : (0 : α) < (dataW : α) := by exact_mod_cast hW
  have hH1 : (0 : α) < (dataH : α) := by exact_mod_cast hH
  have sx := fun a b (hab : a ≤ b) => scale_mono a b (dataW : α) width hab hW1 hw
  have sy := fun a b (hab : a ≤ b) => scale_mono a b (dataH : α) height hab hH1 hh
  unfold cellPoints at hpt
  simp only [List.mem_append] at hpt
  rcases hpt with ((h | h) | h) | h <;> split_ifs at h with hc <;>
    simp only [List.mem_singleton, List.not_mem_nil] at h
  · obtain ⟨_, t0, t1⟩ := edge_parameter level p00 p10 hc
    subst h
    exact ⟨⟨sx _ _ (by linarith), sx _ _ (by linarith), le_refl _, sy _ _ (by linarith)⟩,
      Or.inl rfl⟩
  · obtain ⟨_, t0, t1⟩ := edge_parameter level p10 p11 hc
    subst h
    exact ⟨⟨sx _ _ (by linarith), le_refl _, sy _ _ (by linarith), sy _ _ (by linarith)⟩,
      Or.inr (Or.inl rfl)⟩
  · obtain ⟨_, t0, t1⟩ := edge_parameter_swapped level p01 p11 hc
    subst h
    exact ⟨⟨sx _ _ (by linarith), sx _ _ (by linarith), sy _ _ (by linarith), le_refl _⟩,
      Or.inr (Or.inr (Or.inl rfl))⟩
  · obtain ⟨_, t0, t1⟩ := edge_parameter_swapped level p00 p01 hc
    subst h
    exact ⟨⟨le_refl _, sx _ _ (by linarith), sy _ _ (by linarith), sy _ _ (by linarith)⟩,
      Or.inr (Or.inr (Or.inr rfl))⟩

/-- C25: wherever the tracer interpolates along an edge (its two corners disagree on
exceeding the level) the divisor is non-zero and the parameter `t` lies in `[0, 1]`; every
crossing point of a cell lies on the boundary of that cell, and both endpoints of every
emitted segment lie inside the canvas rectangle `[0, width] x [0, height]`. -/
theorem contourCell_inside_canvas (level p00 p10 p01 p11 : α) (x y : ℤ) (dataW dataH : ℕ)
    (width height : α) (hx0 : 0 ≤ x) (hx1 : x + 1 < dataW) (hy0 : 0 ≤ y)
    (hy1 : y + 1 < dataH) (hw : 0 ≤ width) (hh : 0 ≤ height) :
    (∀ a b : α, (decide (level < a) != decide (level < b)) = true →
        b - a ≠ 0 ∧ 0 ≤ (level - a) / (b - a) ∧ (level - a) / (b - a) ≤ 1) ∧
      (∀ pt ∈ cellPoints level p00 p10 p01 p11 x y dataW dataH width height,
        ((x : α) / (dataW : α) * width ≤ pt.1 ∧ pt.1 ≤ ((x : α) + 1) / (dataW : α) * width ∧
          (y : α) / (dataH : α) * height ≤ pt.2 ∧
          pt.2 ≤ ((y : α) + 1) / (dataH : α) * height) ∧
        (pt.2 = (y : α) / (dataH : α) * height ∨
          pt.1 = ((x : α) + 1) / (dataW : α) * width ∨
          pt.2 = ((y : α) + 1) / (dataH : α) * height ∨
          pt.1 = (x : α) / (dataW : α) * width)) ∧
      (∀ s ∈ contourCell level p00 p10 p01 p11 x y dataW dataH width height,
        (0 ≤ s.x0 ∧ s.x0 ≤ width) ∧ (0 ≤ s.y0 ∧ s.y0 ≤ height) ∧
          (0 ≤ s.x1 ∧ s.x1 ≤ width) ∧ (0 ≤ s.y1 ∧ s.y1 ≤ height)) := by
  have hW : 0 < dataW := by omega
  have hH : 0 < dataH := by omega
  have hW1 : (0 : α) < (dataW : α) := by exact_mod_cast hW
  have hH1 : (0 : α) < (dataH : α) := by exact_mod_cast hH
  have hxa : (0 : α) ≤ (x : α) := by exact_mod_cast hx0
  have hya : (0 : α) ≤ (y : α) := by exact_mod_cast hy0
  have hxb : (x : α) + 1 ≤ (dataW : α) := by exact_mod_cast le_of_lt hx1
  have hyb : (y : α) + 1 ≤ (dataH : α) := by exact_mod_cast le_of_lt hy1
  have lowx : 0 ≤ (x : α) / (dataW : α) * width :=
    mul_nonneg (div_nonneg hxa (le_of_lt hW1)) hw
  have lowy : 0 ≤ (y : α) / (dataH : α) * height :=
    mul_nonneg (div_nonneg hya (le_of_lt hH1)) hh
  have highx : ((x : α) + 1) / (dataW : α) * width ≤ width := by
    have := scale_mono _ _ (dataW : α) width hxb hW1 hw
    rwa [div_self (ne_of_gt hW1), one_mul] at this
  have highy : ((y : α) + 1) / (dataH : α) * height ≤ height := by
    have := scale_mono _ _ (dataH : α) height hyb hH1 hh
    rwa [div_self (ne_of_gt hH1), one_mul] at this
  have hpts := cellPoints_in_cell level p00 p10 p01 p11 x y dataW dataH width height hW hH
    hw hh
  have inside : ∀ pt ∈ cellPoints level p00 p10 p01 p11 x y dataW dataH width height,
      (0 ≤ pt.1 ∧ pt.1 ≤ width) ∧ (0 ≤ pt.2 ∧ pt.2 ≤ height) := by
    intro pt hpt
    obtain ⟨⟨a, b, c, d⟩, _⟩ := hpts pt hpt
    exact ⟨⟨le_trans lowx a, le_trans b highx⟩, ⟨le_trans lowy c, le_trans d highy⟩⟩
  refine ⟨fun a b h => edge_parameter level a b h, hpts, ?_⟩
  intro s hs
  simp only [contourCell] at hs
  split_ifs at hs
  · split at hs
    · next a b rest hpts2 =>
      rw [List.mem_singleton] at hs
      subst hs
      have ha := inside a (by rw [hpts2]; exact List.mem_cons_self _ _)
      have hb := inside b (by
        rw [hpts2]
        exact List.mem_cons_of_mem _ (List.mem_cons_self _ _))
      exact ⟨ha.1, ha.2, hb.1, hb.2⟩
    · simp at hs
  · simp at hs

/-- The segment of the cell `(10, 20)` crossed by the level 1000 on a 1200 x 600 canvas
lies inside the canvas. -/
theorem contourCell_inside_canvas_witness :
    contourCell (1000 : ℚ) 999 1001 999 1001 10 20 360 180 1200 600 =
        [⟨35, 200 / 3, 35, 70⟩] ∧
      (0 ≤ (⟨35, 200 / 3, 35, 70⟩ : Segment ℚ).x0 ∧
        (⟨35, 200 / 3, 35, 70⟩ : Segment ℚ).x0 ≤ 1200) ∧
      (0 ≤ (⟨35, 200 / 3, 35, 70⟩ : Segment ℚ).y0 ∧
        (⟨35, 200 / 3, 35, 70⟩ : Segment ℚ).y0 ≤ 600) ∧
      (0 ≤ (⟨35, 200 / 3, 35, 70⟩ : Segment ℚ).x1 ∧
        (⟨35, 200 / 3, 35, 70⟩ : Segment ℚ).x1 ≤ 1200) ∧
      (0 ≤ (⟨35, 200 / 3, 35, 70⟩ : Segment ℚ).y1 ∧
        (⟨35, 200 / 3, 35, 70⟩ : Segment ℚ).y1 ≤ 600) :=
  have hseg : contourCell (1000 : ℚ) 999 1001 999 1001 10 20 360 180 1200 600 =
      [⟨35, 200 / 3, 35, 70⟩] := by
    norm_num [contourCell, cellPoints]
  ⟨hseg,
    (contourCell_inside_canvas (1000 : ℚ) 999 1001 999 1001 10 20 360 180 1200 600
      (by decide) (by decide) (by decide) (by decide) (by norm_num) (by norm_num)).2.2
      ⟨35, 200 / 3, 35, 70⟩ (by rw [hseg]; exact List.mem_singleton.mpr rfl)⟩

end EdgeInterpolation

section Completeness

variable {α : Type} [LinearOrderedField α]

/-- C26: on a rectangular field `findExtrema` misses no candidate: a stride candidate
`(10 + 15 i, 10 + 15 j)` inside the margins whose value `c` exceeds 1020 and is strictly
greater than each of its 120 neighbours is in `highs`, and one whose value is below 1005
and strictly less than each of its 120 neighbours is in `lows`. -/
theorem findExtrema_complete (data : List (List α)) (w : ℕ) (hr : Rect data w) (i j : ℕ)
    (hx : 10 + 15 * (i : ℤ) < (w : ℤ) - 10) (hy : 10 + 15 * (j : ℤ) < (data.length : ℤ) - 10)
    (c : α)
    (hc : readCell data (10 + 15 * (j : ℤ)) (10 + 15 * (i : ℤ)) = .ok (some c)) :
    ∃ ext, findExtrema data = .ok ext ∧
      ((1020 < c ∧ ∀ d ∈ neighbourOffsets, ∀ n,
          readCell data (10 + 15 * (j : ℤ) + d.1) (10 + 15 * (i : ℤ) + d.2) = .ok (some n) →
            n < c) →
        ⟨10 + 15 * (i : ℤ), 10 + 15 * (j : ℤ), c⟩ ∈ ext.highs) ∧
      ((c < 1005 ∧ ∀ d ∈ neighbourOffsets, ∀ n,
          readCell data (10 + 15 * (j : ℤ) + d.1) (10 + 15 * (i : ℤ) + d.2) = .ok (some n) →
            c < n) →
        ⟨10 + 15 * (i : ℤ), 10 + 15 * (j : ℤ), c⟩ ∈ ext.lows) := by
  have hrow : 10 + 15 * (j : ℤ) ∈ candidateRows data :=
    forRange_complete _ _ _ _ (by norm_num) (by omega) j hy
  have hwid : widthOf data = w := widthOf_of_rect data w hr (by omega)
  have hcol : 10 + 15 * (i : ℤ) ∈ candidateCols data := by
    unfold candidateCols
    rw [hwid]
    exact forRange_complete _ _ _ _ (by norm_num) (by omega) i hx
  have hval := (valAt_eq_some_iff data _ _ c).mpr hc
  refine ⟨_, findExtrema_eq data, ?_, ?_⟩
  · rintro ⟨hthr, hnb⟩
    simp only [List.mem_flatMap]
    refine ⟨_, hrow, _, hcol, (mem_hiOf data _ _ _).mpr ⟨c, hval, rfl, ?_, hthr⟩⟩
    unfold noneAbove
    rw [List.all_eq_true]
    intro d hd
    cases hn : valAt data (10 + 15 * (j : ℤ) + d.1) (10 + 15 * (i : ℤ) + d.2) with
    | none => simp [jsGt]
    | some n =>
      have := hnb d hd n ((valAt_eq_some_iff data _ _ n).mp hn)
      simp [jsGt, not_lt.mpr (le_of_lt this)]
  · rintro ⟨hthr, hnb⟩
    simp only [List.mem_flatMap]
    refine ⟨_, hrow, _, hcol, (mem_loOf data _ _ _).mpr ⟨c, hval, rfl, ?_, hthr⟩⟩
    unfold noneBelow
    rw [List.all_eq_true]
    intro d hd
    cases hn : valAt data (10 + 15 * (j : ℤ) + d.1) (10 + 15 * (i : ℤ) + d.2) with
    | none => simp [jsLt]
    | some n =>
      have := hnb d hd n ((valAt_eq_some_iff data _ _ n).mp hn)
      simp [jsLt, not_lt.mpr (le_of_lt this)]

end Completeness

section CompletenessWitness

/-- The centre `(10, 10)` of `peakField` is a candidate holding 1030. -/
theorem findExtrema_complete_witness :
    Rect peakField 21 ∧
      readCell peakField (10 + 15 * ((0 : ℕ) : ℤ)) (10 + 15 * ((0 : ℕ) : ℤ)) =
        .ok (some 1030) ∧
      ∃ ext, findExtrema peakField = .ok ext ∧
        (((1020 : ℚ) < 1030 ∧ ∀ d ∈ neighbourOffsets, ∀ n,
            readCell peakField (10 + 15 * ((0 : ℕ) : ℤ) + d.1)
              (10 + 15 * ((0 : ℕ) : ℤ) + d.2) = .ok (some n) → n < 1030) →
          ⟨10 + 15 * ((0 : ℕ) : ℤ), 10 + 15 * ((0 : ℕ) : ℤ), 1030⟩ ∈ ext.highs) ∧
        (((1030 : ℚ) < 1005 ∧ ∀ d ∈ neighbourOffsets, ∀ n,
            readCell peakField (10 + 15 * ((0 : ℕ) : ℤ) + d.1)
              (10 + 15 * ((0 : ℕ) : ℤ) + d.2) = .ok (some n) → 1030 < n) →
          ⟨10 + 15 * ((0 : ℕ) : ℤ), 10 + 15 * ((0 : ℕ) : ℤ), 1030⟩ ∈ ext.lows) :=
  ⟨rect_peakField, rfl,
    findExtrema_complete peakField 21 rect_peakField 0 0 (by decide) (by decide) 1030 rfl⟩

end CompletenessWitness

section SamplerBounds

variable {α : Type} [LinearOrderedField α] [FloorRing α]

theorem floor_index (v : α) (n : ℕ) (h0 : 0 ≤ v) (h1 : v < (n : α)) :
    0 ≤ ⌊v⌋ ∧ ⌊v⌋ ≤ (n : ℤ) - 1 := by
  refine ⟨Int.floor_nonneg.mpr h0, ?_⟩
  have : ⌊v⌋ < (n : ℤ) := Int.floor_lt.mpr (by exact_mod_cast h1)
  omega

/-- The four corner reads of `interpolatePressure` inside the grid, and its value. -/
theorem interpolatePressure_eq (data : List (List α)) (w : ℕ) (hr : Rect data w)
    (x y : α) (hx0 : 0 ≤ x) (hx1 : x < (w : α)) (hy0 : 0 ≤ y)
    (hy1 : y < (data.length : α)) :
    ∃ p00 p10 p01 p11 : α,
      valAt data ⌊y⌋ ⌊x⌋ = some p00 ∧
      valAt data ⌊y⌋ (min (⌊x⌋ + 1) ((w : ℤ) - 1)) = some p10 ∧
      valAt data (min (⌊y⌋ + 1) ((data.length : ℤ) - 1)) ⌊x⌋ = some p01 ∧
      valAt data (min (⌊y⌋ + 1) ((data.length : ℤ) - 1)) (min (⌊x⌋ + 1) ((w : ℤ) - 1)) =
        some p11 ∧
      interpolatePressure data x y = .ok (some
        (p00 * (1 - (x - (⌊x⌋ : α))) * (1 - (y - (⌊y⌋ : α))) +
          p10 * (x - (⌊x⌋ : α)) * (1 - (y - (⌊y⌋ : α))) +
          p01 * (1 - (x - (⌊x⌋ : α))) * (y - (⌊y⌋ : α)) +
          p11 * (x - (⌊x⌋ : α)) * (y - (⌊y⌋ : α)))) := by
  obtain ⟨fx0, fx1⟩ := floor_index x w hx0 hx1
  obtain ⟨fy0, fy1⟩ := floor_index y data.length hy0 hy1
  obtain ⟨a, ha⟩ := readCell_of_rect data w hr ⌊y⌋ ⌊x⌋ fy0 (by omega) fx0 (by omega)
  obtain ⟨b, hb⟩ := readCell_of_rect data w hr ⌊y⌋ (min (⌊x⌋ + 1) ((w : ℤ) - 1)) fy0
    (by omega) (by omega) (by omega)
  obtain ⟨c, hc⟩ := readCell_of_rect data w hr (min (⌊y⌋ + 1) ((data.length : ℤ) - 1)) ⌊x⌋
    (by omega) (by omega) fx0 (by omega)
  obtain ⟨d, hd⟩ := readCell_of_rect data w hr (min (⌊y⌋ + 1) ((data.length : ℤ) - 1))
    (min (⌊x⌋ + 1) ((w : ℤ) - 1)) (by omega) (by omega) (by omega) (by omega)
  refine ⟨a, b, c, d, (valAt_eq_some_iff data _ _ _).mpr ha,
    (valAt_eq_some_iff data _ _ _).mpr hb, (valAt_eq_some_iff data _ _ _).mpr hc,
    (valAt_eq_some_iff data _ _ _).mpr hd, ?_⟩
  simp [interpolatePressure, rowLength_of_rect data w hr (by omega), ha, hb, hc, hd, bind,
    Except.bind, pure, Except.pure]

omit [FloorRing α] in
theorem bilinear_between (a b c d fx fy lo hi : α) (hfx0 : 0 ≤ fx) (hfx1 : fx ≤ 1)
    (hfy0 : 0 ≤ fy) (hfy1 : fy ≤ 1) (ha : lo ≤ a ∧ a ≤ hi) (hb : lo ≤ b ∧ b ≤ hi)
    (hc : lo ≤ c ∧ c ≤ hi) (hd : lo ≤ d ∧ d ≤ hi) :
    lo ≤ a * (1 - fx) * (1 - fy) + b * fx * (1 - fy) + c * (1 - fx) * fy + d * fx * fy ∧
      a * (1 - fx) * (1 - fy) + b * fx * (1 - fy) + c * (1 - fx) * fy + d * fx * fy ≤ hi := by
  have w1 : 0 ≤ (1 - fx) * (1 - fy) := mul_nonneg (by linarith) (by linarith)
  have w2 : 0 ≤ fx * (1 - fy) := mul_nonneg hfx0 (by linarith)
  have w3 : 0 ≤ (1 - fx) * fy := mul_nonneg (by linarith) hfy0
  have w4 : 0 ≤ fx * fy := mul_nonneg hfx0 hfy0
  constructor
  · have e : a * (1 - fx) * (1 - fy) + b * fx * (1 - fy) + c * (1 - fx) * fy + d * fx * fy - lo
        = (a - lo) * ((1 - fx) * (1 - fy)) + (b - lo) * (fx * (1 - fy)) +
          (c - lo) * ((1 - fx) * fy) + (d - lo) * (fx * fy) := by ring
    have := mul_nonneg (sub_nonneg.mpr ha.1) w1
    have := mul_nonneg (sub_nonneg.mpr hb.1) w2
    have := mul_nonneg (sub_nonneg.mpr hc.1) w3
    have := mul_nonneg (sub_nonneg.mpr hd.1) w4
    linarith
  · have e : hi - (a * (1 - fx) * (1 - fy) + b * fx * (1 - fy) + c * (1 - fx) * fy +
        d * fx * fy)
        = (hi - a) * ((1 - fx) * (1 - fy)) + (hi - b) * (fx * (1 - fy)) +
          (hi - c) * ((1 - fx) * fy) + (hi - d) * (fx * fy) := by ring
    have := mul_nonneg (sub_nonneg.mpr ha.2) w1
    have := mul_nonneg (sub_nonneg.mpr hb.2) w2
    have := mul_nonneg (sub_nonneg.mpr hc.2) w3
    have := mul_nonneg (sub_nonneg.mpr hd.2) w4
    linarith

/-- C27 (amended): in exact arithmetic, on a rectangular field, for `0 ≤ x < width` and
`0 ≤ y < height`, `interpolatePressure` returns a number between the minimum and the
maximum of the four corner values it reads, hence between any bounds `lo`, `hi` that hold
for every cell of the field. -/
theorem interpolatePressure_between (data : List (List α)) (w : ℕ) (hr : Rect data w)
    (x y : α) (hx0 : 0 ≤ x) (hx1 : x < (w : α)) (hy0 : 0 ≤ y)
    (hy1 : y < (data.length : α)) :
    ∃ p00 p10 p01 p11 r : α,
      readCell data ⌊y⌋ ⌊x⌋ = .ok (some p00) ∧
      readCell data ⌊y⌋ (min (⌊x⌋ + 1) ((w : ℤ) - 1)) = .ok (some p10) ∧
      readCell data (min (⌊y⌋ + 1) ((data.length : ℤ) - 1)) ⌊x⌋ = .ok (some p01) ∧
      readCell data (min (⌊y⌋ + 1) ((data.length : ℤ) - 1)) (min (⌊x⌋ + 1) ((w : ℤ) - 1)) =
        .ok (some p11) ∧
      interpolatePressure data x y = .ok (some r) ∧
      min (min p00 p10) (min p01 p11) ≤ r ∧ r ≤ max (max p00 p10) (max p01 p11) ∧
      ∀ lo hi : α, (∀ row ∈ data, ∀ v ∈ row, lo ≤ v ∧ v ≤ hi) → lo ≤ r ∧ r ≤ hi := by
  obtain ⟨a, b, c, d, ha, hb, hc, hd, hval⟩ :=
    interpolatePressure_eq data w hr x y hx0 hx1 hy0 hy1
  have hfx0 : 0 ≤ x - (⌊x⌋ : α) := sub_nonneg.mpr (Int.floor_le x)
  have hfx1 : x - (⌊x⌋ : α) ≤ 1 := by linarith [Int.lt_floor_add_one x]
  have hfy0 : 0 ≤ y - (⌊y⌋ : α) := sub_nonneg.mpr (Int.floor_le y)
  have hfy1 : y - (⌊y⌋ : α) ≤ 1 := by linarith [Int.lt_floor_add_one y]
  refine ⟨a, b, c, d, _, (valAt_eq_some_iff data _ _ _).mp ha,
    (valAt_eq_some_iff data _ _ _).mp hb, (valAt_eq_some_iff data _ _ _).mp hc,
    (valAt_eq_some_iff data _ _ _).mp hd, hval, ?_, ?_, ?_⟩
  · exact (bilinear_between a b c d _ _ (min (min a b) (min c d)) (max (max a b) (max c d))
      hfx0 hfx1 hfy0 hfy1
      ⟨le_trans (min_le_left _ _) (min_le_left _ _),
        le_trans (le_max_left _ _) (le_max_left _ _)⟩
      ⟨le_trans (min_le_left _ _) (min_le_right _ _),
        le_trans (le_max_right _ _) (le_max_left _ _)⟩
      ⟨le_trans (min_le_right _ _) (min_le_left _ _),
        le_trans (le_max_left _ _) (le_max_right _ _)⟩
      ⟨le_trans (min_le_right _ _) (min_le_right _ _),
        le_trans (le_max_right _ _) (le_max_right _ _)⟩).1
  · exact (bilinear_between a b c d _ _ (min (min a b) (min c d)) (max (max a b) (max c d))
      hfx0 hfx1 hfy0 hfy1
      ⟨le_trans (min_le_left _ _) (min_le_left _ _),
        le_trans (le_max_left _ _) (le_max_left _ _)⟩
      ⟨le_trans (min_le_left _ _) (min_le_right _ _),
        le_trans (le_max_right _ _) (le_max_left _ _)⟩
      ⟨le_trans (min_le_right _ _) (min_le_left _ _),
        le_trans (le_max_left _ _) (le_max_right _ _)⟩
      ⟨le_trans (min_le_right _ _) (min_le_right _ _),
        le_trans (le_max_right _ _) (le_max_right _ _)⟩).2
  · intro lo hi hall
    have key : ∀ (r c : ℤ) (v : α), valAt data r c = some v → lo ≤ v ∧ v ≤ hi := by
      intro r c v hv
      obtain ⟨row, hrow, hmem⟩ := mem_of_valAt data r c v hv
      exact hall row hrow v hmem
    exact bilinear_between a b c d _ _ lo hi hfx0 hfx1 hfy0 hfy1 (key _ _ _ ha)
      (key _ _ _ hb) (key _ _ _ hc) (key _ _ _ hd)

/-- C28: on a non-empty rectangular field, for a raster pixel `(x, y)` of a `width` by
`height` canvas, the indices `x0 = floor(dataX)`, `x1 = min(x0 + 1, dataWidth - 1)`,
`y0`, `y1` that `interpolatePressure` reads for `drawPressureGradient` satisfy
`0 ≤ x0 ≤ x1 ≤ dataWidth - 1` and `0 ≤ y0 ≤ y1 ≤ dataHeight - 1`, and the sample is a
number. -/
theorem gradientSample_reads_in_grid (data : List (List α)) (w : ℕ) (hr : Rect data w)
    (hw : 0 < w) (hne : 0 < data.length) (width height x y : ℕ) (hx : x < width)
    (hy : y < height) :
    (0 ≤ ⌊(x : α) / (width : α) * (w : α)⌋ ∧
        ⌊(x : α) / (width : α) * (w : α)⌋ ≤
          min (⌊(x : α) / (width : α) * (w : α)⌋ + 1) ((w : ℤ) - 1) ∧
        min (⌊(x : α) / (width : α) * (w : α)⌋ + 1) ((w : ℤ) - 1) ≤ (w : ℤ) - 1) ∧
      (0 ≤ ⌊(y : α) / (height : α) * (data.length : α)⌋ ∧
        ⌊(y : α) / (height : α) * (data.length : α)⌋ ≤
          min (⌊(y : α) / (height : α) * (data.length : α)⌋ + 1)
            ((data.length : ℤ) - 1) ∧
        min (⌊(y : α) / (height : α) * (data.length : α)⌋ + 1) ((data.length : ℤ) - 1) ≤
          (data.length : ℤ) - 1) ∧
      ∃ v, gradientSample data width height x y = .ok (some v) := by
  have scale : ∀ (a b n : ℕ), a < b → 0 < n →
      0 ≤ (a : α) / (b : α) * (n : α) ∧ (a : α) / (b : α) * (n : α) < (n : α) := by
    intro a b n hab hn
    have hb : (0 : α) < (b : α) := by exact_mod_cast (by omega : 0 < b)
    have hn1 : (0 : α) < (n : α) := by exact_mod_cast hn
    have ha : (0 : α) ≤ (a : α) := Nat.cast_nonneg a
    have hlt : (a : α) / (b : α) < 1 := by
      rw [div_lt_one hb]
      exact_mod_cast hab
    exact ⟨mul_nonneg (div_nonneg ha (le_of_lt hb)) (le_of_lt hn1), by
      calc (a : α) / (b : α) * (n : α) < 1 * (n : α) := mul_lt_mul_of_pos_right hlt hn1
        _ = (n : α) := one_mul _⟩
  obtain ⟨hx0, hx1⟩ := scale x width w hx hw
  obtain ⟨hy0, hy1⟩ := scale y height data.length hy hne
  obtain ⟨fx0, fx1⟩ := floor_index _ w hx0 hx1
  obtain ⟨fy0, fy1⟩ := floor_index _ data.length hy0 hy1
  obtain ⟨a, b, c, d, _, _, _, _, hval⟩ :=
    interpolatePressure_eq data w hr _ _ hx0 hx1 hy0 hy1
  obtain ⟨v, hv⟩ : ∃ v, interpolatePressure data ((x : α) / (width : α) * (w : α))
      ((y : α) / (height : α) * (data.length : α)) = .ok (some v) := ⟨_, hval⟩
  refine ⟨⟨fx0, by omega, by omega⟩, ⟨fy0, by omega, by omega⟩, v, ?_⟩
  simp only [gradientSample, rowLength_of_rect data w hr hne, bind, Except.bind]
  exact_mod_cast hv

/-- The sample at `(1/2, 1/2)` of the field `[[1, 2], [3, 4]]` lies between 1 and 4. -/
theorem interpolatePressure_between_witness :
    ∃ p00 p10 p01 p11 r : ℚ,
      readCell ([[1, 2], [3, 4]] : List (List ℚ)) ⌊(1 / 2 : ℚ)⌋ ⌊(1 / 2 : ℚ)⌋ =
        .ok (some p00) ∧
      readCell ([[1, 2], [3, 4]] : List (List ℚ)) ⌊(1 / 2 : ℚ)⌋
        (min (⌊(1 / 2 : ℚ)⌋ + 1) (((2 : ℕ) : ℤ) - 1)) = .ok (some p10) ∧
      readCell ([[1, 2], [3, 4]] : List (List ℚ))
        (min (⌊(1 / 2 : ℚ)⌋ + 1) ((([[1, 2], [3, 4]] : List (List ℚ)).length : ℤ) - 1))
        ⌊(1 / 2 : ℚ)⌋ = .ok (some p01) ∧
      readCell ([[1, 2], [3, 4]] : List (List ℚ))
        (min (⌊(1 / 2 : ℚ)⌋ + 1) ((([[1, 2], [3, 4]] : List (List ℚ)).length : ℤ) - 1))
        (min (⌊(1 / 2 : ℚ)⌋ + 1) (((2 : ℕ) : ℤ) - 1)) = .ok (some p11) ∧
      interpolatePressure ([[1, 2], [3, 4]] : List (List ℚ)) (1 / 2) (1 / 2) =
        .ok (some r) ∧
      min (min p00 p10) (min p01 p11) ≤ r ∧ r ≤ max (max p00 p10) (max p01 p11) ∧
      ∀ lo hi : ℚ, (∀ row ∈ ([[1, 2], [3, 4]] : List (List ℚ)), ∀ v ∈ row, lo ≤ v ∧ v ≤ hi) →
        lo ≤ r ∧ r ≤ hi :=
  interpolatePressure_between [[1, 2], [3, 4]] 2 rect_sample (1 / 2) (1 / 2) (by norm_num)
    (by norm_num) (by norm_num) (by norm_num)

/-- The raster pixel `(3, 3)` of a 4 x 4 canvas over the field `[[1, 2], [3, 4]]`. -/
theorem gradientSample_reads_in_grid_witness :
    ∃ v, gradientSample ([[1, 2], [3, 4]] : List (List ℚ)) 4 4 3 3 = .ok (some v) :=
  (gradientSample_reads_in_grid [[1, 2], [3, 4]] 2 rect_sample (by decide) (by decide) 4 4 3 3
    (by decide) (by decide)).2.2

end SamplerBounds

section AnimationTier

theorem toFixed1_example : toFixed1 (249 / 25 : ℚ) = 10 := by
  have hfl : ⌊(10 : ℚ) * (249 / 25) + 1 / 2⌋ = 100 := by
    rw [Int.floor_eq_iff]
    constructor <;> norm_num
  unfold toFixed1
  rw [if_neg (by norm_num), hfl]
  norm_num

/-- C29 fails as stated: the animation tier is not always the tier of the comfort level
that was computed.  The dew point 9.96 is classified Dry, whose tier is `dryParams`
(35 particles), but it is stored as `"10.0"`, which `getAnimationParams` reads back as 10
and maps to the Comfortable tier (50 particles). -/
theorem animation_tier_differs_after_rounding :
    (comfortOf (249 / 25 : ℚ)).level = "Dry" ∧
      paramsOfLevel (comfortOf (249 / 25 : ℚ)).level = some (dryParams : AnimationParams ℚ) ∧
      toFixed1 (249 / 25 : ℚ) = 10 ∧
      (∀ temperature humidity : ℚ,
        (getAnimationParams (some ⟨toFixed1 (249 / 25 : ℚ), temperature, humidity⟩)).particleCount
          = (comfortableParams : AnimationParams ℚ).particleCount) ∧
      (comfortableParams : AnimationParams ℚ).particleCount = 50 ∧
      (dryParams : AnimationParams ℚ).particleCount = 35 ∧
      ∀ (sin : ℚ → ℚ) (lat lon : ℚ),
        (generateDewPointData sin lat lon).1.value =
            toFixed1 (20 + sin (lat * 0.1) * 15 - |sin (lon * 0.05)| * 20) ∧
          (generateDewPointData sin lat lon).2 =
            comfortOf (20 + sin (lat * 0.1) * 15 - |sin (lon * 0.05)| * 20) := by
  have hdry : (comfortOf (249 / 25 : ℚ)).level = "Dry" := by
    unfold comfortOf
    rw [if_pos (by norm_num)]
  refine ⟨hdry, ?_, toFixed1_example, ?_, rfl, rfl, fun _ _ _ => ⟨rfl, rfl⟩⟩
  · rw [hdry]
    rfl
  · intro temperature humidity
    rw [toFixed1_example]
    unfold getAnimationParams
    simp only
    rw [if_neg (by norm_num), if_pos (by norm_num)]

end AnimationTier

section WindTheorems

variable {α : Type} [LinearOrderedField α] [FloorRing α]

omit [FloorRing α] in
theorem respawn_in_range (r : α) (h0 : 0 ≤ r) (h1 : r < 1) :
    -2 ≤ (r - 0.5) * 4 ∧ (r - 0.5) * 4 ≤ 2 := by
  constructor <;> norm_num <;> linarith

omit [FloorRing α] in
theorem gridCoordinate_bounds (gridSize : ℕ) (hgs : 1 ≤ gridSize) (c : α) (h0 : -2 ≤ c)
    (h1 : c ≤ 2) :
    0 ≤ gridCoordinate gridSize c ∧ gridCoordinate gridSize c ≤ (gridSize : α) - 1 := by
  have hg : (0 : α) ≤ (gridSize : α) - 1 := by
    have : (1 : α) ≤ (gridSize : α) := by exact_mod_cast hgs
    linarith
  have hu0 : (0 : α) ≤ (c / 2 + 1) / 2 := by linarith
  have hu1 : (c / 2 + 1) / 2 ≤ (1 : α) := by linarith
  unfold gridCoordinate
  exact ⟨mul_nonneg hu0 hg, by
    calc (c / 2 + 1) / 2 * ((gridSize : α) - 1) ≤ 1 * ((gridSize : α) - 1) :=
          mul_le_mul_of_nonneg_right hu1 hg
      _ = (gridSize : α) - 1 := one_mul _⟩

theorem gridIndices_bounds (gridSize : ℕ) (hgs : 1 ≤ gridSize) (c : α) (h0 : -2 ≤ c)
    (h1 : c ≤ 2) : IndicesInGrid gridSize c := by
  obtain ⟨g0, g1⟩ := gridCoordinate_bounds gridSize hgs c h0 h1
  have f0 : 0 ≤ ⌊gridCoordinate gridSize c⌋ := Int.floor_nonneg.mpr g0
  have f1 : ⌊gridCoordinate gridSize c⌋ ≤ (gridSize : ℤ) - 1 := by
    have h : ((⌊gridCoordinate gridSize c⌋ : ℤ) : α) ≤ (((gridSize : ℤ) - 1 : ℤ) : α) := by
      push_cast
      exact le_trans (Int.floor_le _) g1
    exact Int.cast_le.mp h
  unfold IndicesInGrid gridIndices
  simp only
  omega

omit [LinearOrderedField α] [FloorRing α] in
theorem getWind_some (data : List α) (gridSize : ℕ)
    (hlen : data.length = gridSize * gridSize * gridSize * 3) (i j k : ℤ)
    (hi : 0 ≤ i ∧ i ≤ (gridSize : ℤ) - 1) (hj : 0 ≤ j ∧ j ≤ (gridSize : ℤ) - 1)
    (hk : 0 ≤ k ∧ k ≤ (gridSize : ℤ) - 1) : ∃ v, getWind data gridSize i j k = some v := by
  have hG : (0 : ℤ) ≤ (gridSize : ℤ) := Int.natCast_nonneg _
  have hGG : (0 : ℤ) ≤ (gridSize : ℤ) * (gridSize : ℤ) := mul_nonneg hG hG
  have h1 : i * ((gridSize : ℤ) * (gridSize : ℤ)) ≤
      ((gridSize : ℤ) - 1) * ((gridSize : ℤ) * (gridSize : ℤ)) :=
    mul_le_mul_of_nonneg_right hi.2 hGG
  have h2 : j * (gridSize : ℤ) ≤ ((gridSize : ℤ) - 1) * (gridSize : ℤ) :=
    mul_le_mul_of_nonneg_right hj.2 hG
  have h3 : 0 ≤ i * ((gridSize : ℤ) * (gridSize : ℤ)) := mul_nonneg hi.1 hGG
  have h4 : 0 ≤ j * (gridSize : ℤ) := mul_nonneg hj.1 hG
  have hlen1 : (data.length : ℤ) = (gridSize : ℤ) * (gridSize : ℤ) * (gridSize : ℤ) * 3 := by
    rw [hlen]
    push_cast
    ring
  have lo : 0 ≤ (i * (gridSize : ℤ) * (gridSize : ℤ) + j * (gridSize : ℤ) + k) * 3 := by
    nlinarith [hk.1]
  have hi2 : (i * (gridSize : ℤ) * (gridSize : ℤ) + j * (gridSize : ℤ) + k) * 3 + 2 <
      (data.length : ℤ) := by
    rw [hlen1]
    nlinarith [hk.2]
  obtain ⟨a, _, ha⟩ := elemAt_of_lt data _ lo (by omega)
  obtain ⟨b, _, hb⟩ := elemAt_of_lt data
    ((i * (gridSize : ℤ) * (gridSize : ℤ) + j * (gridSize : ℤ) + k) * 3 + 1) (by omega)
    (by omega)
  obtain ⟨c, _, hc⟩ := elemAt_of_lt data
    ((i * (gridSize : ℤ) * (gridSize : ℤ) + j * (gridSize : ℤ) + k) * 3 + 2) (by omega)
    (by omega)
  exact ⟨(a, b, c), by simp [getWind, ha, hb, hc]⟩

theorem sampleWindField_some (data : List α) (gridSize : ℕ) (hgs : 1 ≤ gridSize)
    (hlen : data.length = gridSize * gridSize * gridSize * 3) (position : α × α × α)
    (hp : InCube position) : ∃ wind, sampleWindField data gridSize position = some wind := by
  obtain ⟨⟨x0, x1⟩, ⟨y0, y1⟩, ⟨z0, z1⟩⟩ := hp
  obtain ⟨xa, xb⟩ := gridIndices_bounds gridSize hgs position.1 x0 x1
  obtain ⟨ya, yb⟩ := gridIndices_bounds gridSize hgs position.2.1 y0 y1
  obtain ⟨za, zb⟩ := gridIndices_bounds gridSize hgs position.2.2 z0 z1
  obtain ⟨c000, h000⟩ := getWind_some data gridSize hlen _ _ _ xa ya za
  obtain ⟨c001, h001⟩ := getWind_some data gridSize hlen _ _ _ xa ya zb
  obtain ⟨c010, h010⟩ := getWind_some data gridSize hlen _ _ _ xa yb za
  obtain ⟨c011, h011⟩ := getWind_some data gridSize hlen _ _ _ xa yb zb
  obtain ⟨c100, h100⟩ := getWind_some data gridSize hlen _ _ _ xb ya za
  obtain ⟨c101, h101⟩ := getWind_some data gridSize hlen _ _ _ xb ya zb
  obtain ⟨c110, h110⟩ := getWind_some data gridSize hlen _ _ _ xb yb za
  obtain ⟨c111, h111⟩ := getWind_some data gridSize hlen _ _ _ xb yb zb
  unfold sampleWindField
  simp only [h000, h001, h010, h011, h100, h101, h110, h111, Option.bind_eq_bind,
    Option.some_bind, Option.pure_def]
  exact ⟨_, rfl⟩

theorem stepParticle_inCube (data : List α) (gridSize : ℕ) (hgs : 1 ≤ gridSize)
    (hlen : data.length = gridSize * gridSize * gridSize * 3) (particleSpeed fadeSpeed : α)
    (r : α × α × α) (hr : UnitDraws r) (p : Particle α) (hp : InCube p.position) :
    ∃ q, stepParticle data gridSize particleSpeed fadeSpeed r p = some q ∧
      InCube q.position := by
  obtain ⟨wind, hwind⟩ := sampleWindField_some data gridSize hgs hlen p.position hp
  obtain ⟨⟨a0, a1⟩, ⟨b0, b1⟩, ⟨c0, c1⟩⟩ := hr
  unfold stepParticle
  simp only [hwind, Option.bind_eq_bind, Option.some_bind, Option.pure_def]
  split_ifs with hcond
  · exact ⟨_, rfl, respawn_in_range _ a0 a1, respawn_in_range _ b0 b1,
      respawn_in_range _ c0 c1⟩
  · refine ⟨_, rfl, ?_⟩
    simp only [not_or, not_lt, gt_iff_lt] at hcond
    obtain ⟨_, hx, hy, hz⟩ := hcond
    exact ⟨abs_le.mp hx, abs_le.mp hy, abs_le.mp hz⟩

theorem stepParticles_inCube (data : List α) (gridSize : ℕ) (hgs : 1 ≤ gridSize)
    (hlen : data.length = gridSize * gridSize * gridSize * 3) (particleSpeed fadeSpeed : α)
    (random : ℕ → α × α × α) (hrand : ∀ i, UnitDraws (random i)) (ps : List (Particle α))
    (i : ℕ) (hps : ∀ p ∈ ps, InCube p.position) :
    ∃ qs, stepParticles data gridSize particleSpeed fadeSpeed random i ps = some qs ∧
      qs.length = ps.length ∧ ∀ q ∈ qs, InCube q.position := by
  induction ps generalizing i with
  | nil => exact ⟨[], rfl, rfl, by simp⟩
  | cons p ps ih =>
    obtain ⟨q, hq, hqc⟩ := stepParticle_inCube data gridSize hgs hlen particleSpeed fadeSpeed
      (random i) (hrand i) p (hps p (List.mem_cons_self _ _))
    obtain ⟨qs, hqs, hl, hall⟩ := ih (i + 1) (fun z hz => hps z (List.mem_cons_of_mem _ hz))
    refine ⟨q :: qs, by simp only [stepParticles, hq, hqs], by simp [hl], ?_⟩
    intro z hz
    rcases List.mem_cons.mp hz with rfl | hz
    · exact hqc
    · exact hall z hz

theorem animateFrames_inCube (data : List α) (gridSize : ℕ) (hgs : 1 ≤ gridSize)
    (hlen : data.length = gridSize * gridSize * gridSize * 3) (particleSpeed fadeSpeed : α)
    (frames : List (Bool × (ℕ → α × α × α)))
    (hframes : ∀ f ∈ frames, ∀ i, UnitDraws (f.2 i)) (ps : List (Particle α))
    (hps : ∀ p ∈ ps, InCube p.position) :
    ∃ qs, animateFrames data gridSize particleSpeed fadeSpeed frames ps = some qs ∧
      qs.length = ps.length ∧ ∀ q ∈ qs, InCube q.position := by
  induction frames generalizing ps with
  | nil => exact ⟨ps, rfl, rfl, hps⟩
  | cons f rest ih =>
    have hstep : ∃ qs, animate data gridSize particleSpeed fadeSpeed f.1 f.2 ps = some qs ∧
        qs.length = ps.length ∧ ∀ q ∈ qs, InCube q.position := by
      unfold animate
      split_ifs
      · exact stepParticles_inCube data gridSize hgs hlen particleSpeed fadeSpeed f.2
          (hframes f (List.mem_cons_self _ _)) ps 0 hps
      · exact ⟨ps, rfl, rfl, hps⟩
    obtain ⟨qs, hqs, hl, hall⟩ := hstep
    obtain ⟨rs, hrs, hl2, hall2⟩ := ih (fun g hg => hframes g (List.mem_cons_of_mem _ hg)) qs
      hall
    exact ⟨rs, by simp only [animateFrames, hqs, hrs], by rw [hl2, hl], hall2⟩

/-- C30: in the wind particle simulation (a wind field of `gridSize ^ 3` vectors,
`gridSize ≥ 1`, random values in `[0, 1)`), the particles as initialised and after any
number of calls of `animate` all have every coordinate in `[-2, 2]`, no frame produces
`NaN`, and every grid index `sampleWindField` computes for them lies in
`0 .. gridSize - 1`. -/
theorem wind_particles_stay_in_cube (data : List α) (gridSize : ℕ) (hgs : 1 ≤ gridSize)
    (hlen : data.length = gridSize * gridSize * gridSize * 3) (particleSpeed fadeSpeed : α)
    (inits : List (α × α × α × α))
    (hinits : ∀ r ∈ inits, UnitDraws (r.1, r.2.1, r.2.2.1))
    (frames : List (Bool × (ℕ → α × α × α)))
    (hframes : ∀ f ∈ frames, ∀ i, UnitDraws (f.2 i)) :
    ∃ ps, animateFrames data gridSize particleSpeed fadeSpeed frames
        (inits.map fun r => initParticle r.1 r.2.1 r.2.2.1 r.2.2.2) = some ps ∧
      ps.length = inits.length ∧
      ∀ p ∈ ps, InCube p.position ∧ IndicesInGrid gridSize p.position.1 ∧
        IndicesInGrid gridSize p.position.2.1 ∧ IndicesInGrid gridSize p.position.2.2 := by
  have hinit : ∀ p ∈ inits.map (fun r => initParticle r.1 r.2.1 r.2.2.1 r.2.2.2),
      InCube p.position := by
    intro p hp
    obtain ⟨r, hr, rfl⟩ := List.mem_map.mp hp
    obtain ⟨⟨a0, a1⟩, ⟨b0, b1⟩, ⟨c0, c1⟩⟩ := hinits r hr
    exact ⟨respawn_in_range _ a0 a1, respawn_in_range _ b0 b1, respawn_in_range _ c0 c1⟩
  obtain ⟨ps, hps, hl, hall⟩ := animateFrames_inCube data gridSize hgs hlen particleSpeed
    fadeSpeed frames hframes _ hinit
  refine ⟨ps, hps, by rw [hl, List.length_map], ?_⟩
  intro p hp
  obtain ⟨⟨x0, x1⟩, ⟨y0, y1⟩, ⟨z0, z1⟩⟩ := hall p hp
  exact ⟨hall p hp, gridIndices_bounds gridSize hgs _ x0 x1,
    gridIndices_bounds gridSize hgs _ y0 y1, gridIndices_bounds gridSize hgs _ z0 z1⟩

end WindTheorems

section WindWitness

theorem unit_field_length :
    (List.replicate 24 (1 : ℚ)).length = 2 * 2 * 2 * 3 := by
  decide

/-- One particle on a 2 x 2 x 2 wind field of constant wind `(1, 1, 1)`, for one playing
frame and one paused frame. -/
theorem wind_particles_stay_in_cube_witness :
    ∃ ps, animateFrames (List.replicate 24 (1 : ℚ)) 2 1 (24 / 25)
        [(true, fun _ => (1 / 2, 1 / 2, 1 / 2)), (false, fun _ => (0, 0, 0))]
        ([(1 / 4, 1 / 2, 3 / 4, 1 / 2)].map fun r =>
          initParticle r.1 r.2.1 r.2.2.1 r.2.2.2) = some ps ∧
      ps.length = [((1 / 4 : ℚ), (1 / 2 : ℚ), (3 / 4 : ℚ), (1 / 2 : ℚ))].length ∧
      ∀ p ∈ ps, InCube p.position ∧ IndicesInGrid 2 p.position.1 ∧
        IndicesInGrid 2 p.position.2.1 ∧ IndicesInGrid 2 p.position.2.2 :=
  wind_particles_stay_in_cube (List.replicate 24 (1 : ℚ)) 2 (by decide) unit_field_length 1
    (24 / 25) [(1 / 4, 1 / 2, 3 / 4, 1 / 2)]
    (by
      intro r hr
      rw [List.mem_singleton] at hr
      subst hr
      simp only [UnitDraws]
      norm_num)
    [(true, fun _ => (1 / 2, 1 / 2, 1 / 2)), (false, fun _ => (0, 0, 0))]
    (by
      intro f hf i
      simp only [List.mem_cons, List.mem_singleton, List.not_mem_nil, or_false] at hf
      rcases hf with rfl | rfl <;> simp only [UnitDraws] <;> norm_num)

end WindWitness

section ColorOutside

variable {α : Type} [LinearOrderedField α]

theorem interpolateColorLoop_below (value : α) (stops : List (ColorStop α))
    (h : ∀ s ∈ stops, value < s.stop) : interpolateColorLoop value stops = none := by
  induction stops with
  | nil => rfl
  | cons a tl ih =>
    cases tl with
    | nil => rfl
    | cons b rest =>
      rw [interpolateColorLoop, if_neg (by
        rintro ⟨h1, _⟩
        exact absurd h1 (not_le.mpr (h a (List.mem_cons_self _ _))))]
      exact ih (fun s hs => h s (List.mem_cons_of_mem _ hs))

theorem interpolateColorLoop_above (value : α) (stops : List (ColorStop α))
    (h : ∀ s ∈ stops, s.stop < value) : interpolateColorLoop value stops = none := by
  induction stops with
  | nil => rfl
  | cons a tl ih =>
    cases tl with
    | nil => rfl
    | cons b rest =>
      rw [interpolateColorLoop, if_neg (by
        rintro ⟨_, h1⟩
        exact absurd h1 (not_le.mpr
          (h b (List.mem_cons_of_mem _ (List.mem_cons_self _ _)))))]
      exact ih (fun s hs => h s (List.mem_cons_of_mem _ hs))

theorem validRamp_stops_ge (stops : List (ColorStop α)) (hv : ValidRamp stops) :
    ∀ s ∈ stops, 0 ≤ s.stop := by
  obtain ⟨hlen, hp, hfirst, _⟩ := hv
  cases stops with
  | nil => simp at hlen
  | cons a tl =>
    have ha : a.stop = 0 := by simpa using hfirst
    intro s hs
    rcases List.mem_cons.mp hs with rfl | hs
    · exact le_of_eq ha.symm
    · exact ha ▸ le_of_lt ((List.pairwise_cons.mp hp).1 s hs)

theorem validRamp_stops_le (stops : List (ColorStop α)) (hv : ValidRamp stops) :
    ∀ s ∈ stops, s.stop ≤ 1 := by
  obtain ⟨hlen, hp, _, hlast⟩ := hv
  cases hl : stops.getLast? with
  | none => simp [hl] at hlast
  | some last =>
    have h1 : last.stop = 1 := by simpa [hl] using hlast
    have hsplit : stops = stops.dropLast ++ [last] :=
      (List.dropLast_append_getLast? last hl).symm
    intro s hs
    rw [hsplit] at hs hp
    rcases List.mem_append.mp hs with hs | hs
    · have := (List.pairwise_append.mp hp).2.2 s hs last (List.mem_singleton_self _)
      exact h1 ▸ le_of_lt this
    · rw [List.mem_singleton.mp hs, h1]

/-- C5 (amended): for every valid ramp, `interpolateColor` returns the colour of the last
stop for every value above the last stop, and also for every value below the first stop:
no interval of the loop contains such a value, and the return after the loop takes the
last stop. -/
theorem interpolateColor_outside_stops (stops : List (ColorStop α)) (hv : ValidRamp stops) :
    ∃ first last, stops.head? = some first ∧ stops.getLast? = some last ∧
      (∀ value, last.stop < value → interpolateColor value stops = .ok last.color) ∧
      (∀ value, value < first.stop → interpolateColor value stops = .ok last.color) := by
  have hge := validRamp_stops_ge stops hv
  have hle := validRamp_stops_le stops hv
  obtain ⟨hlen, hp, hfirst, hlast⟩ := hv
  cases hf : stops.head? with
  | none => simp [hf] at hfirst
  | some first =>
    cases hl : stops.getLast? with
    | none => simp [hl] at hlast
    | some last =>
      have h0 : first.stop = 0 := by simpa [hf] using hfirst
      have h1 : last.stop = 1 := by simpa [hl] using hlast
      refine ⟨first, last, rfl, rfl, ?_, ?_⟩
      · intro value hvalue
        rw [h1] at hvalue
        simp [interpolateColor, hl, interpolateColorLoop_above value stops
          (fun s hs => lt_of_le_of_lt (hle s hs) hvalue)]
      · intro value hvalue
        rw [h0] at hvalue
        simp [interpolateColor, hl, interpolateColorLoop_below value stops
          (fun s hs => lt_of_lt_of_le hvalue (hge s hs))]

/-- On `tempColors` the values 3/2 and -1/2 both get the dark red of the last stop. -/
theorem interpolateColor_outside_stops_witness :
    ValidRamp tempColors ∧
      ∃ first last, tempColors.head? = some first ∧ tempColors.getLast? = some last ∧
        (∀ value, last.stop < value → interpolateColor value tempColors = .ok last.color) ∧
        (∀ value, value < first.stop → interpolateColor value tempColors = .ok last.color) :=
  ⟨validRamp_tempColors, interpolateColor_outside_stops tempColors validRamp_tempColors⟩

end ColorOutside

section StoredTier

variable {α : Type} [LinearOrderedField α] [FloorRing α]

theorem toFixed1_lt_iff (dp : α) (k : ℤ) (hk : 1 ≤ k) :
    toFixed1 dp < (k : α) / 10 ↔ dp + 1 / 20 < (k : α) / 10 := by
  have hk1 : (1 : α) ≤ (k : α) := by exact_mod_cast hk
  unfold toFixed1
  split_ifs with hneg
  · have hfl : (0 : ℤ) ≤ ⌊10 * (-dp) + 1 / 2⌋ := by
      apply Int.floor_nonneg.mpr
      linarith
    have hfl1 : (0 : α) ≤ ((⌊10 * (-dp) + 1 / 2⌋ : ℤ) : α) := by exact_mod_cast hfl
    constructor
    · intro _
      linarith
    · intro _
      have : -((⌊10 * (-dp) + 1 / 2⌋ : ℤ) : α) / 10 ≤ 0 := by
        rw [neg_div]
        exact neg_nonpos.mpr (div_nonneg hfl1 (by norm_num))
      linarith
  · rw [div_lt_div_iff_of_pos_right (by norm_num : (0 : α) < 10)]
    rw [show ((⌊10 * dp + 1 / 2⌋ : ℤ) : α) < (k : α) ↔ ⌊10 * dp + 1 / 2⌋ < k from Int.cast_lt,
      Int.floor_lt]
    constructor <;> intro h <;> linarith

theorem comfortOf_toFixed1 (dp : α) : comfortOf (toFixed1 dp) = comfortOf (dp + 1 / 20) := by
  have h10 := toFixed1_lt_iff dp 100 (by norm_num)
  have h15 := toFixed1_lt_iff dp 150 (by norm_num)
  have h18 := toFixed1_lt_iff dp 180 (by norm_num)
  have h21 := toFixed1_lt_iff dp 210 (by norm_num)
  norm_num at h10 h15 h18 h21
  simp only [comfortOf, h10, h15, h18, h21]

omit [FloorRing α] in
theorem getAnimationParams_of_comfort (v temperature humidity : α) :
    paramsOfLevel (comfortOf v).level =
      some (getAnimationParams (some ⟨v, temperature, humidity⟩)) := by
  unfold comfortOf getAnimationParams
  simp only
  split_ifs <;> rfl

omit [FloorRing α] in
theorem comfortOf_shift (dp : α)
    (h10 : ¬ (10 - 1 / 20 ≤ dp ∧ dp < 10)) (h15 : ¬ (15 - 1 / 20 ≤ dp ∧ dp < 15))
    (h18 : ¬ (18 - 1 / 20 ≤ dp ∧ dp < 18)) (h21 : ¬ (21 - 1 / 20 ≤ dp ∧ dp < 21)) :
    comfortOf (dp + 1 / 20) = comfortOf dp := by
  have key : ∀ T : α, ¬ (T - 1 / 20 ≤ dp ∧ dp < T) → (dp + 1 / 20 < T ↔ dp < T) := by
    intro T hT
    constructor
    · intro h
      linarith
    · intro h
      by_contra hc
      exact hT ⟨by linarith [not_lt.mp hc], h⟩
  simp only [comfortOf, key 10 h10, key 15 h15, key 18 h18, key 21 h21]

/-- C29 (amended): `getAnimationParams` selects the tier of the comfort level of the stored
value `dp.toFixed(1)`, which is the comfort level of `dp + 0.05`: every band boundary is
lowered by 0.05 for the animation.  It is the tier of the comfort level that
`generateDewPointData` computed from `dp` whenever `dp` lies in none of the intervals
`[9.95, 10)`, `[14.95, 15)`, `[17.95, 18)`, `[20.95, 21)`. -/
theorem animation_tier_of_stored_value (dp temperature humidity : α) :
    paramsOfLevel (comfortOf (toFixed1 dp)).level =
        some (getAnimationParams (some ⟨toFixed1 dp, temperature, humidity⟩)) ∧
      comfortOf (toFixed1 dp) = comfortOf (dp + 1 / 20) ∧
      (¬ (10 - 1 / 20 ≤ dp ∧ dp < 10) ∧ ¬ (15 - 1 / 20 ≤ dp ∧ dp < 15) ∧
          ¬ (18 - 1 / 20 ≤ dp ∧ dp < 18) ∧ ¬ (21 - 1 / 20 ≤ dp ∧ dp < 21) →
        paramsOfLevel (comfortOf dp).level =
          some (getAnimationParams (some ⟨toFixed1 dp, temperature, humidity⟩))) ∧
      ∀ (sin : α → α) (lat lon : α),
        (generateDewPointData sin lat lon).1.value =
            toFixed1 (20 + sin (lat * 0.1) * 15 - |sin (lon * 0.05)| * 20) ∧
          (generateDewPointData sin lat lon).2 =
            comfortOf (20 + sin (lat * 0.1) * 15 - |sin (lon * 0.05)| * 20) := by
  refine ⟨getAnimationParams_of_comfort _ _ _, comfortOf_toFixed1 dp, ?_,
    fun _ _ _ => ⟨rfl, rfl⟩⟩
  rintro ⟨h10, h15, h18, h21⟩
  rw [← comfortOf_shift dp h10 h15 h18 h21, ← comfortOf_toFixed1 dp]
  exact getAnimationParams_of_comfort _ _ _

/-- The dew point 20 lies in none of the four intervals: the animation uses the tier of
its comfort level. -/
theorem animation_tier_of_stored_value_witness :
    (¬ (10 - 1 / 20 ≤ (20 : ℚ) ∧ (20 : ℚ) < 10) ∧ ¬ (15 - 1 / 20 ≤ (20 : ℚ) ∧ (20 : ℚ) < 15) ∧
        ¬ (18 - 1 / 20 ≤ (20 : ℚ) ∧ (20 : ℚ) < 18) ∧
        ¬ (21 - 1 / 20 ≤ (20 : ℚ) ∧ (20 : ℚ) < 21)) ∧
      paramsOfLevel (comfortOf (20 : ℚ)).level =
        some (getAnimationParams (some ⟨toFixed1 (20 : ℚ), 35, 0⟩)) :=
  ⟨by norm_num, (animation_tier_of_stored_value (20 : ℚ) 35 0).2.2.1 (by norm_num)⟩

end StoredTier

section ReadsOfTheScan

variable {α : Type} [LinearOrderedField α]

theorem scanNeighboursLogged_eq (data : List (List α)) (center : Option α) (y x : ℤ)
    (ds : List (ℤ × ℤ)) (st : Bool × Bool) (log : List (ℤ × ℤ)) :
    scanNeighboursLogged data center y x ds (st, log) =
      (scanNeighbours data center y x ds st).map
        (fun r => (r, log ++ ds.map (fun d => (y + d.1, x + d.2)))) := by
  induction ds generalizing st log with
  | nil => simp [scanNeighboursLogged, scanNeighbours, Except.map]
  | cons d ds ih =>
    rw [scanNeighboursLogged, scanNeighbours, readCellLogged]
    cases hread : readCell data (y + d.1) (x + d.2) with
    | error e => simp [Except.map]
    | ok neighbor =>
      simp only
      rw [ih]
      simp [List.append_assoc]

theorem classifyLogged_eq (data : List (List α)) (y x : ℤ) (acc : Extrema α)
    (log : List (ℤ × ℤ)) :
    classifyLogged data y x (acc, log) =
      (classify data y x acc).map (fun r => (r, log ++ candidateReads y x)) := by
  rw [classifyLogged, classify, readCellLogged]
  cases hread : readCell data y x with
  | error e => simp [Except.map]
  | ok center =>
    simp only
    rw [scanNeighboursLogged_eq]
    cases hscan : scanNeighbours data center y x neighbourOffsets (true, true) with
    | error e => simp [Except.map]
    | ok flags =>
      obtain ⟨isHigh, isLow⟩ := flags
      cases center with
      | none => simp [Except.map, candidateReads, List.append_assoc]
      | some c =>
        simp only [Except.map]
        split_ifs <;> simp [candidateReads, List.append_assoc]

theorem scanRowLogged_eq (data : List (List α)) (y : ℤ) (xs : List ℤ) (acc : Extrema α)
    (log : List (ℤ × ℤ)) :
    scanRowLogged data y xs (acc, log) =
      (scanRow data y xs acc).map (fun r => (r, log ++ xs.flatMap (candidateReads y))) := by
  induction xs generalizing acc log with
  | nil => simp [scanRowLogged, scanRow, Except.map]
  | cons x xs ih =>
    rw [scanRowLogged, scanRow, classifyLogged_eq]
    cases hc : classify data y x acc with
    | error e => simp [Except.map]
    | ok acc1 =>
      simp only [Except.map]
      rw [ih]
      simp [List.append_assoc, Except.map]

theorem scanRowsLogged_eq (data : List (List α)) (ys : List ℤ) (acc : Extrema α)
    (log : List (ℤ × ℤ)) :
    scanRowsLogged data ys (acc, log) =
      (scanRows data ys acc).map (fun r => (r, log ++ ys.flatMap
        (fun y => (candidateCols data).flatMap (candidateReads y)))) := by
  induction ys generalizing acc log with
  | nil => simp [scanRowsLogged, scanRows, Except.map]
  | cons y ys ih =>
    rw [scanRowsLogged, scanRows]
    cases data with
    | nil => simp [rowLength, elemAt, Except.map]
    | cons row rest =>
      rw [rowLength_eq_widthOf (row :: rest) (by simp)]
      simp only
      rw [scanRowLogged_eq]
      cases hr : scanRow (row :: rest) y
          (forRange (widthOf (row :: rest)).toNat 10 (widthOf (row :: rest) - 10) 15) acc with
      | error e => simp [Except.map]
      | ok acc1 =>
        simp only [Except.map]
        rw [ih]
        simp [List.append_assoc, candidateCols, Except.map]

/-- The recording scan returns what `findExtrema` returns, on every field, together with
the index pairs of the candidate centres and of their neighbours in scan order. -/
theorem findExtremaLogged_eq (data : List (List α)) :
    findExtremaLogged data =
      (findExtrema data).map (fun r => (r, (candidateRows data).flatMap
        (fun y => (candidateCols data).flatMap (candidateReads y)))) := by
  unfold findExtremaLogged findExtrema
  rw [scanRowsLogged_eq]
  simp [candidateRows]

omit [LinearOrderedField α] in
theorem findExtremaReads_eq (data : List (List α)) (w : ℕ) (hr : Rect data w) :
    (candidateRows data).flatMap (fun y => (candidateCols data).flatMap (candidateReads y)) =
      findExtremaReads data.length w := by
  unfold findExtremaReads
  by_cases hne : 0 < data.length
  · simp only [candidateRows, candidateCols, widthOf_of_rect data w hr hne, Int.toNat_ofNat]
    rfl
  · have h0 : data.length = 0 := by omega
    simp [candidateRows, h0, forRange]

end ReadsOfTheScan

section SmallFieldsAndReads

variable {α : Type} [LinearOrderedField α]

/-- C9: on every rectangular field (the empty one included) `findExtrema` returns without
error; when the height or the width is at most 20 both lists are empty; and every index
pair the scan reads lies inside the grid and holds a number.  The reads are those recorded
by `findExtremaLogged`, the scan with each read `data[y][x]`, `data[y + dy][x + dx]`
logged, which returns the result of `findExtrema`. -/
theorem findExtrema_small_and_reads_in_grid (data : List (List α)) (w : ℕ)
    (hr : Rect data w) :
    (∃ ext, findExtrema data = .ok ext) ∧
      ((data.length ≤ 20 ∨ w ≤ 20) → findExtrema data = .ok ⟨[], []⟩) ∧
      (∃ ext reads, findExtremaLogged data = .ok (ext, reads) ∧
        findExtrema data = .ok ext ∧
        reads = findExtremaReads data.length w ∧
        ∀ rc ∈ reads,
          (0 ≤ rc.1 ∧ rc.1 < data.length ∧ 0 ≤ rc.2 ∧ rc.2 < w) ∧
            ∃ v, readCell data rc.1 rc.2 = .ok (some v)) := by
  refine ⟨⟨_, findExtrema_eq data⟩, ?_, ?_⟩
  · intro hsmall
    rw [findExtrema_eq]
    by_cases hh : data.length ≤ 20
    · have : candidateRows data = [] := forRange_nil _ _ _ _ (by omega)
      simp [this]
    · have hw : w ≤ 20 := by omega
      have : candidateCols data = [] := by
        unfold candidateCols
        rw [widthOf_of_rect data w hr (by omega)]
        exact forRange_nil _ _ _ _ (by omega)
      simp [this]
  · refine ⟨_, findExtremaReads data.length w, ?_, findExtrema_eq data, rfl, ?_⟩
    · rw [findExtremaLogged_eq, findExtrema_eq, findExtremaReads_eq data w hr]
      rfl
    · intro rc hrc
      simp only [findExtremaReads, List.mem_flatMap] at hrc
      obtain ⟨y, hy, x, hx, hrc⟩ := hrc
      have hyb := forRange_sound _ _ _ _ y (by norm_num) hy
      have hxb := forRange_sound _ _ _ _ x (by norm_num) hx
      have key : 0 ≤ rc.1 ∧ rc.1 < data.length ∧ 0 ≤ rc.2 ∧ rc.2 < w := by
        rcases List.mem_cons.mp hrc with rfl | hmem
        · simp only
          omega
        · obtain ⟨d, hd, rfl⟩ := List.mem_map.mp hmem
          have := neighbourOffsets_bounds d hd
          simp only
          omega
      exact ⟨key, readCell_of_rect data w hr _ _ key.1 key.2.1 key.2.2.1 key.2.2.2⟩

end SmallFieldsAndReads

section SmallFieldsAndReadsWitness

/-- The 2 x 2 field `[[1, 2], [3, 4]]` is too small to hold a candidate, and on the
21 x 21 field `peakField` the scan reads the centre `(10, 10)` and its 120 neighbours, all
inside the grid. -/
theorem findExtrema_small_and_reads_in_grid_witness :
    Rect ([[1, 2], [3, 4]] : List (List ℚ)) 2 ∧ Rect peakField 21 ∧
      findExtrema ([[1, 2], [3, 4]] : List (List ℚ)) = .ok ⟨[], []⟩ ∧
      (∃ ext reads, findExtremaLogged peakField = .ok (ext, reads) ∧
        findExtrema peakField = .ok ext ∧
        reads = findExtremaReads peakField.length 21 ∧
        ∀ rc ∈ reads,
          (0 ≤ rc.1 ∧ rc.1 < peakField.length ∧ 0 ≤ rc.2 ∧ rc.2 < (21 : ℕ)) ∧
            ∃ v, readCell peakField rc.1 rc.2 = .ok (some v)) ∧
      (findExtremaReads peakField.length 21).length = 121 :=
  ⟨rect_sample, rect_peakField,
    (findExtrema_small_and_reads_in_grid [[1, 2], [3, 4]] 2 rect_sample).2.1
      (Or.inl (by decide)),
    (findExtrema_small_and_reads_in_grid peakField 21 rect_peakField).2.2, rfl⟩

end SmallFieldsAndReadsWitness

section DoubleRounding

theorem toDouble_examples :
    toDouble (10133 / 10) = 4456540529701683 / 4398046511104 ∧
      toDouble (1 / 10) = 3602879701896397 / 36028797018963968 := by
  constructor <;> decide!

/-- The rounding agrees with the familiar values: a Number is left unchanged, and
`0.1 + 0.2` gives `0.30000000000000004`. -/
theorem toDouble_checks :
    toDouble 3 = 3 ∧ toDouble (-5 / 8) = -5 / 8 ∧
      toDouble (toDouble (1 / 10)) = toDouble (1 / 10) ∧
      toDouble (toDouble (1 / 10) + toDouble (2 / 10)) =
        1351079888211149 / 4503599627370496 ∧
      toDouble (3 / 10) < toDouble (toDouble (1 / 10) + toDouble (2 / 10)) := by
  refine ⟨?_, ?_, ?_, ?_, ?_⟩ <;> decide!

theorem interpolatePressureDouble_flat :
    interpolatePressureDouble (flatField 2 2 (toDouble (10133 / 10)))
        (toDouble (1 / 10)) (toDouble (1 / 10)) =
      .ok (some (8913081059403367 / 8796093022208)) := by
  have h : (match interpolatePressureDouble (flatField 2 2 (toDouble (10133 / 10)))
        (toDouble (1 / 10)) (toDouble (1 / 10)) with
      | .ok (some r) => decide (r = 8913081059403367 / 8796093022208)
      | _ => false) = true := by
    decide!
  split at h
  · next r heq => rw [heq, of_decide_eq_true h]
  · exact absurd h (by decide)

theorem interpolatePressure_flat_exact :
    interpolatePressure (flatField 2 2 (toDouble (10133 / 10)))
        (toDouble (1 / 10)) (toDouble (1 / 10)) =
      .ok (some (toDouble (10133 / 10))) := by
  have h : (match interpolatePressure (flatField 2 2 (toDouble (10133 / 10)))
        (toDouble (1 / 10)) (toDouble (1 / 10)) with
      | .ok (some r) => decide (r = toDouble (10133 / 10))
      | _ => false) = true := by
    decide!
  split at h
  · next r heq => rw [heq, of_decide_eq_true h]
  · exact absurd h (by decide)

/-- C27 fails as stated: with the rounding of JavaScript Numbers the sample can exceed the
largest corner.  On the 2 x 2 field whose four cells hold the Number `1013.3`, at
`(0.1, 0.1)`, the rounded evaluation of Pressure.jsx 92-98 gives the next Number above
`1013.3` (`1013.3000000000001`), whereas the exact weighted sum is `1013.3`. -/
theorem interpolatePressure_rounding_exceeds_corners :
    toDouble (10133 / 10) = 4456540529701683 / 4398046511104 ∧
      toDouble (1 / 10) = 3602879701896397 / 36028797018963968 ∧
      Rect (flatField 2 2 (toDouble (10133 / 10))) 2 ∧
      (∀ row ∈ flatField 2 2 (toDouble (10133 / 10)), ∀ c ∈ row,
        c = toDouble (10133 / 10)) ∧
      interpolatePressureDouble (flatField 2 2 (toDouble (10133 / 10)))
          (toDouble (1 / 10)) (toDouble (1 / 10)) =
        .ok (some (8913081059403367 / 8796093022208)) ∧
      toDouble (10133 / 10) < 8913081059403367 / 8796093022208 ∧
      (8913081059403367 / 8796093022208 : ℚ) - toDouble (10133 / 10) = 1 / 2 ^ 43 ∧
      interpolatePressure (flatField 2 2 (toDouble (10133 / 10)))
          (toDouble (1 / 10)) (toDouble (1 / 10)) =
        .ok (some (toDouble (10133 / 10))) := by
  refine ⟨toDouble_examples.1, toDouble_examples.2, rect_flatField _ _ _,
    flat_flatField _ _ _, interpolatePressureDouble_flat, ?_, ?_,
    interpolatePressure_flat_exact⟩
  · rw [toDouble_examples.1]
    norm_num
  · rw [toDouble_examples.1]
    norm_num

end DoubleRounding

end WeatherApp
